import Mathlib

/-!
# datatest: CRUD verification scripts over four data-store backends

A shallow embedding of `service/tikv.go`, `service/clickhouse.go`,
`service/tidb.go` and `service/es.go`.

* A Go `string` / `[]byte` is a list of bytes (`GoString`); comparison is
  byte-wise lexicographic, as Go's `<` on strings.
* A backend driver is an arbitrary deterministic state machine over a world
  state `σ`: every driver call takes the state and returns the new state and
  the Go return values.  Nothing is assumed about what a call returns.
* A script returns the final state and its trace: every driver call it issued
  (with the call site and the values returned) and every line it printed.
* `time.Sleep` and the connection-pool setters have no counterpart; `time.Now`
  is a read of the world state.
-/

namespace DataTest

/-! ## Strings -/

/-- A Go string: a sequence of bytes. -/
abbrev GoString := List Nat

/-- A Go `error` value: its message. -/
abbrev GoError := GoString

/-- An ASCII literal of the source as bytes. -/
def lit (s : String) : GoString := s.toList.map Char.toNat

/-- Go's `a < b` on strings: byte-wise lexicographic order. -/
def strLt : GoString → GoString → Bool
  | _, [] => false
  | [], _ :: _ => true
  | a :: as, b :: bs => if a < b then true else if b < a then false else strLt as bs

/-- Go's `a >= b` on strings. -/
def strGe (a b : GoString) : Bool := !strLt a b

/-- The half-open range test `lo <= k && k < hi` of a scan. -/
def inRange (lo hi k : GoString) : Bool := strGe k lo && strLt k hi

/-- Go's `strings.HasPrefix(s, p)`. -/
def HasPrefix : GoString → GoString → Bool
  | _, [] => true
  | [], _ :: _ => false
  | a :: as, b :: bs => if a = b then HasPrefix as bs else false

/-- Go's `strings.TrimPrefix(s, p)`. -/
def TrimPrefix (s p : GoString) : GoString :=
  if HasPrefix s p then s.drop p.length else s

/-- Go's `strings.Contains(s, sub)`. -/
def Contains : GoString → GoString → Bool
  | [], sub => HasPrefix [] sub
  | a :: as, sub => HasPrefix (a :: as) sub || Contains as sub

/-- The closure `addPrefix` of each script; `pfx` is the value of the captured
variable at the time of the call. -/
def addPrefix (pfx key : GoString) : GoString := pfx ++ key

/-- The closure `removePrefix` of each script. -/
def removePrefix (pfx key : GoString) : GoString := TrimPrefix key pfx

/-! ## Traces -/

/-- A value returned together with a Go `error`: either the value or the error. -/
inductive GoResult (α : Type) where
  | ok (a : α)
  | error (e : GoError)
deriving DecidableEq, Repr

/-- The SQL statements of the ClickHouse and TiDB scripts, by their text. -/
inductive Stmt where
  /-- The text `SELECT version()` (ClickHouse), `SELECT VERSION()` (TiDB). -/
  | selectVersion
  /-- The text `CREATE TABLE IF NOT EXISTS db.tbl ON CLUSTER ... ENGINE = ReplicatedMergeTree`. -/
  | createLocalTable (db tbl : GoString)
  /-- The text `CREATE TABLE IF NOT EXISTS db.dist ON CLUSTER ... AS db.tbl ENGINE = Distributed(...)`. -/
  | createDistTable (db dist tbl : GoString)
  /-- The text `CREATE TABLE IF NOT EXISTS db.tbl (key varchar(255) PRIMARY KEY, value TEXT)`. -/
  | createTable (db tbl : GoString)
  /-- The text `INSERT INTO db.tbl (key, value) VALUES (?, ?)`. -/
  | insert (db tbl key value : GoString)
  /-- The text `INSERT INTO db.tbl (key, value) VALUES (?, ?) ON DUPLICATE KEY UPDATE value = VALUES(value)`. -/
  | insertOrUpdate (db tbl key value : GoString)
  /-- The text `SELECT value FROM db.tbl WHERE key = ?` (TiDB: the column name quoted). -/
  | selectValue (db tbl key : GoString)
  /-- The text `SELECT value FROM db.tbl WHERE key = ?` of the final check of the TiDB
  script, the column name not quoted. -/
  | selectValueUnquoted (db tbl key : GoString)
  /-- The text `ALTER TABLE db.tbl UPDATE value = ? WHERE key = ?`. -/
  | alterUpdate (db tbl value key : GoString)
  /-- The text `UPDATE db.tbl SET value = ? WHERE key = ?`. -/
  | update (db tbl value key : GoString)
  /-- The text `SELECT key, value FROM db.tbl WHERE key >= ? AND key < ? LIMIT 100`
  (TiDB: with `ORDER BY key`). -/
  | selectRange (db tbl lo hi : GoString)
  /-- The text `SELECT COUNT(*) FROM db.tbl WHERE key = ?`. -/
  | countKey (db tbl key : GoString)
  /-- The text `ALTER TABLE db.tbl DELETE WHERE key = ?`. -/
  | alterDelete (db tbl key : GoString)
deriving DecidableEq, Repr

/-- An argument of a format string: a string, an integer, an error, a boolean, or
the text of a statement. -/
inductive Arg where
  | s (x : GoString)
  | d (n : Int)
  | v (e : GoError)
  | b (x : Bool)
  | q (stmt : Stmt)
deriving DecidableEq, Repr

/-- The document of `model.TestDocument`; `Ts` is the clock reading. -/
structure TestDocument where
  ID : GoString
  Name : GoString
  Value : Int
  Ts : GoString
deriving DecidableEq, Repr

/-- The requests of the Elasticsearch script. -/
inductive EsReq where
  | IndicesCreate (index : GoString) (body : String)
  | Index (index documentID body : GoString) (refresh : String)
  | Search (index : List GoString) (body : String) (size : Nat)
  | Delete (index documentID : GoString)
  | IndicesDelete (index : List GoString)
deriving DecidableEq, Repr

/-- What the script reads of an `esapi.Response`. -/
structure EsResponse where
  IsError : Bool
  Status : GoString
  Body : GoString
deriving DecidableEq, Repr

/-- The place in a script that issues a driver call. -/
inductive Site where
  | tlsLoad
  | connect
  | connectProbe
  | connectClose
  | namespaceSetup
  | seedInsert
  | readBack
  | update
  | updateVerify
  | scan
  | deleteExists
  | delete
  | deleteVerify
  | cleanup
  | finalCheck
  | deferred
deriving DecidableEq, Repr

/-- A driver call with the values it returned. -/
inductive Call where
  | NewClient (pdAddr ca cert key : GoString) (err : Option GoError)
  | Put (key value : GoString) (err : Option GoError)
  | Get (key : GoString) (value : Option GoString) (err : Option GoError)
  | Scan (startKey endKey : GoString) (limit : Nat) (keys values : List GoString)
      (err : Option GoError)
  | Delete (key : GoString) (err : Option GoError)
  | Close (err : Option GoError)
  | ReadFile (path : GoString) (res : GoResult GoString)
  | X509KeyPair (cert key : GoString) (err : Option GoError)
  | OpenDB (addr : GoString) (tls : Bool)
  | SqlOpen (dsn : GoString) (err : Option GoError)
  | RegisterTLSConfig (name : GoString)
  | PingContext (err : Option GoError)
  | ExecContext (stmt : Stmt) (err : Option GoError)
  | QueryRowString (stmt : Stmt) (res : GoResult GoString)
  | QueryRowInt (stmt : Stmt) (res : GoResult Int)
  | QueryContext (stmt : Stmt) (res : GoResult (List (GoResult (GoString × GoString))))
  | EsNewClient (address username password : GoString) (err : Option GoError)
  | EsDo (req : EsReq) (res : GoResult EsResponse)
deriving DecidableEq, Repr

/-- One observable action of a script. -/
inductive Ev where
  /-- Standard output: `fmt.Printf`, `fmt.Println`, `fmt.Print`, `print`. -/
  | printf (format : String) (args : List Arg)
  /-- The logger: `log.Printf`, `log.Println`. -/
  | logf (format : String) (args : List Arg)
  /-- The call `log.Fatalf`: the line is logged and the process exits. -/
  | fatalf (format : String) (args : List Arg)
  /-- A driver call. -/
  | call (site : Site) (c : Call)
deriving DecidableEq, Repr

/-- The format string of a printed line. -/
def Ev.format? : Ev → Option String
  | .printf f _ => some f
  | .logf f _ => some f
  | .fatalf f _ => some f
  | .call _ _ => none

/-- A line that reports success: it starts with the check mark. -/
def Ev.isSuccess (e : Ev) : Bool :=
  match e.format? with
  | some f => f.toList.head? == some '✓'
  | none => false

/-- A line that reports a failure: it starts with the cross mark or the warning sign. -/
def Ev.isFailure (e : Ev) : Bool :=
  match e.format? with
  | some f => f.toList.head? == some '❌' || f.toList.head? == some '⚠'
  | none => false

/-! ## Shared test data -/

/-- The record of `model.TestKeyValue` (its `Ts` field is written, never read). -/
structure TestKeyValue where
  Key : GoString
  Value : GoString
deriving DecidableEq, Repr

/-- The local `baseKey` of each script. -/
def baseKey : GoString := lit "test_key"

/-- The local `testKeys` of each script. -/
def testKeys : List GoString := [lit "1", lit "2", lit "3"]

/-- The local `testValues` of each script. -/
def testValues : List GoString :=
  [lit "Initial value for test key 1",
   lit "Initial value for test key 2",
   lit "Initial value for test key 3"]

/-- The local `updatedValue`: the fixed text followed by the formatted clock reading. -/
def updatedValue (now : GoString) : GoString :=
  lit "Updated value for test key 1 - modified at " ++ now

/-- The decimal text of an integer, as `%d` prints it. -/
def itoa (n : Int) : GoString := lit (toString n)

/-! ## TiKV (`service/tikv.go`) -/

/-- The methods of `*rawkv.Client` the script calls.  `Get` returns the Go pair
`([]byte, error)`; a `nil` slice is `none`. -/
structure RawKVClient (σ : Type) where
  Put : GoString → GoString → σ → σ × Option GoError
  Get : GoString → σ → σ × Option GoString × Option GoError
  Scan : GoString → GoString → Nat → σ → σ × List GoString × List GoString × Option GoError
  Delete : GoString → σ → σ × Option GoError
  Close : σ → σ × Option GoError

/-- The outside world of the TiKV script: `rawkv.NewClient` and the clock. -/
structure TiKVWorld (σ : Type) where
  NewClient : GoString → GoString → GoString → GoString → σ → σ × GoResult (RawKVClient σ)
  Now : σ → GoString

/-- The struct `model.TiKVConfig`. -/
structure TiKVConfig where
  Host : GoString
  Port : Int
  SSLClientCRT : GoString
  SSLClientKey : GoString
  SSLCACRT : GoString
  Prefix : GoString
deriving DecidableEq, Repr

/-- Step 1 of `TestTiKV`, the loop `for j, key := range testKeys`: one `Put` per
key; a failed `Put` is logged and leaves `testItems[j]` at its zero value. -/
def tikvCreate {σ : Type} (client : RawKVClient σ) (pfx : GoString) :
    Nat → List GoString → σ → σ × List TestKeyValue × List Ev
  | _, [], s => (s, [], [])
  | j, key :: rest, s =>
    let fullKey := addPrefix pfx (baseKey ++ lit "_" ++ key)
    let value := testValues.getD j []
    let r := client.Put fullKey value s
    let next := tikvCreate client pfx (j + 1) rest r.1
    match r.2 with
    | some err =>
      (next.1, ⟨[], []⟩ :: next.2.1,
        Ev.call .seedInsert (.Put fullKey value (some err))
          :: Ev.logf "❌ Insert key %s error: %v" [.s fullKey, .v err] :: next.2.2)
    | none =>
      (next.1, ⟨baseKey ++ lit "_" ++ key, value⟩ :: next.2.1,
        Ev.call .seedInsert (.Put fullKey value none)
          :: Ev.printf "✓ Key %s inserted with value: %s\n"
              [.s (baseKey ++ lit "_" ++ key), .s value] :: next.2.2)

/-- Step 2 of `TestTiKV`, the loop `for _, item := range testItems`. -/
def tikvRead {σ : Type} (client : RawKVClient σ) (pfx : GoString) :
    List TestKeyValue → σ → σ × List Ev
  | [], s => (s, [])
  | item :: rest, s =>
    if item.Key = [] then tikvRead client pfx rest s
    else
      let fullKey := addPrefix pfx item.Key
      let r := client.Get fullKey s
      let next := tikvRead client pfx rest r.1
      let c := Ev.call .readBack (.Get fullKey r.2.1 r.2.2)
      match r.2.2, r.2.1 with
      | some err, _ =>
        (next.1, c :: Ev.logf "❌ Get key %s error: %v" [.s item.Key, .v err] :: next.2)
      | none, none =>
        (next.1, c :: Ev.logf "❌ Key %s not found" [.s item.Key] :: next.2)
      | none, some valueBytes =>
        (next.1, c :: Ev.printf "✓ Key %s retrieved: %s\n" [.s item.Key, .s valueBytes]
          :: next.2)

/-- Step 3 of `TestTiKV`: overwrite `test_key_1`, then read it back. -/
def tikvUpdate {σ : Type} (client : RawKVClient σ) (pfx now : GoString) (s : σ) :
    σ × List Ev :=
  let updateKey := baseKey ++ lit "_1"
  let fullUpdateKey := addPrefix pfx updateKey
  let r := client.Put fullUpdateKey (updatedValue now) s
  let c := Ev.call .update (.Put fullUpdateKey (updatedValue now) r.2)
  match r.2 with
  | some err => (r.1, [c, Ev.logf "❌ Update key %s error: %v" [.s updateKey, .v err]])
  | none =>
    let g := client.Get fullUpdateKey r.1
    let cg := Ev.call .updateVerify (.Get fullUpdateKey g.2.1 g.2.2)
    match g.2.2, g.2.1 with
    | none, some updatedBytes =>
      (g.1, [c, cg, Ev.printf "✓ Key %s updated to: %s\n" [.s updateKey, .s updatedBytes]])
    | _, _ =>
      (g.1, [c, cg, Ev.logf "❌ Verification failed for updated key %s" [.s updateKey]])

/-- Step 4 of `TestTiKV`: scan `[addPrefix("test_key_"), addPrefix("test_key_z"))`
with limit 100; the inner loop stops at the shorter of `keys` and `values`. -/
def tikvScan {σ : Type} (client : RawKVClient σ) (pfx : GoString) (s : σ) : σ × List Ev :=
  let startKey := addPrefix pfx (baseKey ++ lit "_")
  let endKey := addPrefix pfx (baseKey ++ lit "_z")
  let r := client.Scan startKey endKey 100 s
  let c := Ev.call .scan (.Scan startKey endKey 100 r.2.1 r.2.2.1 r.2.2.2)
  match r.2.2.2 with
  | some err => (r.1, [c, Ev.logf "❌ Scan error: %v" [.v err]])
  | none =>
    (r.1, c :: Ev.printf "✓ Scan found %d keys in range\n" [.d r.2.1.length]
      :: (r.2.1.zip r.2.2.1).map
          (fun kv => Ev.printf "  - %s: %s\n" [.s (removePrefix pfx kv.1), .s kv.2]))

/-- Step 5 of `TestTiKV`: delete `test_key_2` when it is found, then read it again;
the error of that second `Get` is discarded (`afterDelete, _ := client.Get(...)`). -/
def tikvDelete {σ : Type} (client : RawKVClient σ) (pfx : GoString) (s : σ) : σ × List Ev :=
  let deleteKey := baseKey ++ lit "_2"
  let fullDeleteKey := addPrefix pfx deleteKey
  let e := client.Get fullDeleteKey s
  let ce := Ev.call .deleteExists (.Get fullDeleteKey e.2.1 e.2.2)
  match e.2.2, e.2.1 with
  | none, some _ =>
    let d := client.Delete fullDeleteKey e.1
    let cd := Ev.call .delete (.Delete fullDeleteKey d.2)
    match d.2 with
    | some err =>
      (d.1, [ce, cd, Ev.logf "❌ Delete key %s error: %v" [.s deleteKey, .v err]])
    | none =>
      let a := client.Get fullDeleteKey d.1
      let ca := Ev.call .deleteVerify (.Get fullDeleteKey a.2.1 a.2.2)
      match a.2.1 with
      | none => (a.1, [ce, cd, ca, Ev.printf "✓ Key %s deleted successfully\n" [.s deleteKey]])
      | some _ =>
        (a.1, [ce, cd, ca, Ev.logf "❌ Key %s still exists after deletion" [.s deleteKey]])
  | _, _ => (e.1, [ce, Ev.logf "❌ Key %s not found for deletion" [.s deleteKey]])

/-- Step 6 of `TestTiKV`, the loop `for _, item := range testItems`: items with an
empty key and items whose key contains `2` are skipped, the others are deleted. -/
def tikvCleanup {σ : Type} (client : RawKVClient σ) (pfx : GoString) :
    List TestKeyValue → σ → σ × List Ev
  | [], s => (s, [])
  | item :: rest, s =>
    if item.Key = [] then tikvCleanup client pfx rest s
    else if Contains item.Key (lit "2") then tikvCleanup client pfx rest s
    else
      let fullCleanupKey := addPrefix pfx item.Key
      let r := client.Delete fullCleanupKey s
      let next := tikvCleanup client pfx rest r.1
      let c := Ev.call .cleanup (.Delete fullCleanupKey r.2)
      match r.2 with
      | some err =>
        (next.1, c :: Ev.logf "⚠️ Cleanup warning for %s: %v" [.s item.Key, .v err] :: next.2)
      | none => (next.1, c :: next.2)

/-- The final verification of `TestTiKV`: read `test_key_3`; only success prints. -/
def tikvFinal {σ : Type} (client : RawKVClient σ) (pfx : GoString) (s : σ) : σ × List Ev :=
  let finalCheckKey := baseKey ++ lit "_3"
  let r := client.Get (addPrefix pfx finalCheckKey) s
  let c := Ev.call .finalCheck (.Get (addPrefix pfx finalCheckKey) r.2.1 r.2.2)
  match r.2.2, r.2.1 with
  | none, some checkValue =>
    (r.1, [c, Ev.printf "✓ Final verification: key %s still exists with value %s\n"
      [.s finalCheckKey, .s checkValue]])
  | _, _ => (r.1, [c])

/-- The body of the loop of `TestTiKV` from `baseKey := "test_key"` to its end, for
instance number `i` (0-based) with an open client.  `now` is read at step 3. -/
def tikvSteps {σ : Type} (now : σ → GoString) (client : RawKVClient σ) (pfx : GoString)
    (i : Nat) (s : σ) : σ × List Ev :=
  let r1 := tikvCreate client pfx 0 testKeys s
  let r2 := tikvRead client pfx r1.2.1 r1.1
  let r3 := tikvUpdate client pfx (now r2.1) r2.1
  let r4 := tikvScan client pfx r3.1
  let r5 := tikvDelete client pfx r4.1
  let r6 := tikvCleanup client pfx r1.2.1 r5.1
  let r7 := tikvFinal client pfx r6.1
  (r7.1,
    Ev.printf "1. Creating test keys...\n" [] :: r1.2.2
    ++ Ev.printf "2. Reading test keys...\n" [] :: r2.2
    ++ Ev.printf "3. Updating test key...\n" [] :: r3.2
    ++ Ev.printf "4. Scanning test keys...\n" [] :: r4.2
    ++ Ev.printf "5. Deleting test key...\n" [] :: r5.2
    ++ Ev.printf "6. Cleaning up test keys...\n" [] :: r6.2
    ++ r7.2
    ++ [Ev.printf "✅ TiKV %d test completed\n" [.d (i + 1)]])

/-- The closure `getClient` of `TestTiKV`.  Without TLS the security argument is
`config.DefaultConfig().Security`, taken here as three empty paths. -/
def tikvGetClient {σ : Type} (W : TiKVWorld σ) (pdAddr : GoString) (TLS : Bool)
    (ClusterSSLCA ClusterSSLCert ClusterSSLKey : GoString) (s : σ) :
    σ × GoResult (RawKVClient σ) × List Ev :=
  let l := Ev.logf "Connecting to TiKV at %s (TLS: %v)" [.s pdAddr, .b TLS]
  if pdAddr = [] then (s, .error (lit "URL environment variable not set"), [l])
  else
    let ca := if TLS then ClusterSSLCA else []
    let cert := if TLS then ClusterSSLCert else []
    let key := if TLS then ClusterSSLKey else []
    let r := W.NewClient pdAddr ca cert key s
    match r.2 with
    | .error err =>
      (r.1, .error (lit "failed to connect to TiKV: " ++ err),
        [l, Ev.call .connect (.NewClient pdAddr ca cert key (some err)),
         Ev.logf "Failed to connect to TiKV: %v" [.v err]])
    | .ok client =>
      (r.1, .ok client, [l, Ev.call .connect (.NewClient pdAddr ca cert key none)])

/-- One iteration of the loop of `TestTiKV`: the trace, and the client whose `Close`
was deferred (if one was created). -/
def tikvInstance {σ : Type} (W : TiKVWorld σ) (i : Nat) (tikvConfig : TiKVConfig) (s : σ) :
    σ × List Ev × Option (RawKVClient σ) :=
  let h := Ev.printf "\n=== Testing TiKV %d: %s:%d ===\n"
    [.d (i + 1), .s tikvConfig.Host, .d tikvConfig.Port]
  let pdAddr := tikvConfig.Host ++ lit ":" ++ itoa tikvConfig.Port
  let pfx := tikvConfig.Prefix ++ lit ":"
  let all := decide (tikvConfig.SSLClientCRT ≠ [] ∧ tikvConfig.SSLClientKey ≠ []
    ∧ tikvConfig.SSLCACRT ≠ [])
  let ClusterSSLCert := if all then tikvConfig.SSLClientCRT else []
  let ClusterSSLKey := if all then tikvConfig.SSLClientKey else []
  let ClusterSSLCA := if all then tikvConfig.SSLCACRT else []
  let g := tikvGetClient W pdAddr true ClusterSSLCA ClusterSSLCert ClusterSSLKey s
  match g.2.1 with
  | .error err =>
    (g.1, h :: g.2.2 ++ [Ev.logf "❌ Failed to create TiKV client: %v" [.v err]], none)
  | .ok client =>
    let r := tikvSteps W.Now client pfx i g.1
    (r.1, h :: g.2.2 ++ r.2, some client)

/-- The loop `for i, tikvConfig := range tikvConfigs`: the trace, every event with
the number of its instance, and the deferred clients in the order of their `defer`. -/
def tikvLoop {σ : Type} (W : TiKVWorld σ) :
    Nat → List TiKVConfig → σ → σ × List (Nat × Ev) × List (Nat × RawKVClient σ)
  | _, [], s => (s, [], [])
  | i, tikvConfig :: rest, s =>
    let r := tikvInstance W i tikvConfig s
    let next := tikvLoop W (i + 1) rest r.1
    (next.1, r.2.1.map (fun e => (i, e)) ++ next.2.1,
      match r.2.2 with
      | some client => (i, client) :: next.2.2
      | none => next.2.2)

/-- Running deferred `client.Close()` calls, in the order given. -/
def tikvRunDeferred {σ : Type} : List (Nat × RawKVClient σ) → σ → σ × List (Nat × Ev)
  | [], s => (s, [])
  | (i, client) :: rest, s =>
    let r := client.Close s
    let next := tikvRunDeferred rest r.1
    (next.1, (i, Ev.call .deferred (.Close r.2)) :: next.2)

/-- The function `TestTiKV`: the loop, then at return the deferred `Close` calls,
last deferred first. -/
def TestTiKV {σ : Type} (W : TiKVWorld σ) (tikvConfigs : List TiKVConfig) (s : σ) :
    σ × List (Nat × Ev) :=
  let r := tikvLoop W 0 tikvConfigs s
  let d := tikvRunDeferred r.2.2.reverse r.1
  (d.1, r.2.1 ++ d.2)

/-! ## database/sql, shared by ClickHouse and TiDB -/

/-- The methods of `*sql.DB` the scripts call.  `QueryRowString` and `QueryRowInt`
are `QueryRowContext(...).Scan(&x)` for a string and an integer `x`;
`QueryContext` returns the rows as the results of the successive `rows.Scan`. -/
structure SqlDB (σ : Type) where
  ExecContext : Stmt → σ → σ × Option GoError
  QueryRowString : Stmt → σ → σ × GoResult GoString
  QueryRowInt : Stmt → σ → σ × GoResult Int
  QueryContext : Stmt → σ → σ × GoResult (List (GoResult (GoString × GoString)))
  PingContext : σ → σ × Option GoError
  Close : σ → σ × Option GoError

/-- What a call that may reach `log.Fatalf` gives: a value, or the process exited. -/
inductive Proc (α : Type) where
  | returned (a : α)
  | exited

/-- The loop `for rows.Next()`: a failed `rows.Scan` breaks out; the lines printed
and the final `count`. -/
def sqlRows (pfx : GoString) : List (GoResult (GoString × GoString)) → List Ev × Nat
  | [] => ([], 0)
  | .error _ :: _ => ([], 0)
  | .ok (fullKey, value) :: rest =>
    (Ev.printf "  - %s: %s\n" [.s (removePrefix pfx fullKey), .s value] :: (sqlRows pfx rest).1,
      (sqlRows pfx rest).2 + 1)

/-- Running deferred `db.Close()` calls, in the order given. -/
def sqlRunDeferred {σ : Type} : List (Nat × SqlDB σ) → σ → σ × List (Nat × Ev)
  | [], s => (s, [])
  | (i, db) :: rest, s =>
    let r := db.Close s
    let next := sqlRunDeferred rest r.1
    (next.1, (i, Ev.call .deferred (.Close r.2)) :: next.2)

/-! ## ClickHouse (`service/clickhouse.go`) -/

/-- The struct `model.ClickHouseConfig`. -/
structure ClickHouseConfig where
  Host : GoString
  Port : Int
  Username : GoString
  Password : GoString
  Database : GoString
  DBTableName : GoString
  LocalTableName : GoString
  TLS : Bool
  SSLClientCRT : GoString
  SSLClientKey : GoString
  SSLCACRT : GoString
deriving DecidableEq, Repr

/-- The fields of the `tls.Config` built by `getTLSConfig` that come from files. -/
structure TLSMaterial where
  cert : GoString
  key : GoString
  ca : GoString
deriving DecidableEq, Repr

/-- The outside world of the ClickHouse script: `os.ReadFile`, `tls.X509KeyPair`,
`clickhouse.OpenDB` and the clock. -/
structure ClickHouseWorld (σ : Type) where
  ReadFile : GoString → σ → σ × GoResult GoString
  X509KeyPair : GoString → GoString → Option GoError
  OpenDB : ClickHouseConfig → Option TLSMaterial → SqlDB σ
  Now : σ → GoString

/-- The closure `loadCertFromFile` of `TestClickHouse`: an empty path is an error. -/
def chLoadCertFromFile {σ : Type} (W : ClickHouseWorld σ) (filePath : GoString) (s : σ) :
    σ × GoResult GoString × List Ev :=
  if filePath = [] then (s, .error (lit "empty file path"), [])
  else
    let r := W.ReadFile filePath s
    match r.2 with
    | .error err =>
      (r.1, .error (lit "failed to read cert file " ++ filePath ++ lit ": " ++ err),
        [Ev.call .tlsLoad (.ReadFile filePath (.error err))])
    | .ok data => (r.1, .ok data, [Ev.call .tlsLoad (.ReadFile filePath (.ok data))])

/-- The closure `getTLSConfig` of `TestClickHouse`: `nil` without TLS; every load or
parse failure is `log.Fatalf`. -/
def chGetTLSConfig {σ : Type} (W : ClickHouseWorld σ) (ch : ClickHouseConfig) (s : σ) :
    σ × Proc (Option TLSMaterial) × List Ev :=
  if !ch.TLS then (s, .returned none, [])
  else
    let c := chLoadCertFromFile W ch.SSLClientCRT s
    match c.2.1 with
    | .error err =>
      (c.1, .exited, c.2.2 ++ [Ev.fatalf "Failed to load client cert: %v" [.v err]])
    | .ok certPEM =>
      let k := chLoadCertFromFile W ch.SSLClientKey c.1
      match k.2.1 with
      | .error err =>
        (k.1, .exited, c.2.2 ++ k.2.2 ++ [Ev.fatalf "Failed to load client key: %v" [.v err]])
      | .ok keyPEM =>
        let a := chLoadCertFromFile W ch.SSLCACRT k.1
        match a.2.1 with
        | .error err =>
          (a.1, .exited,
            c.2.2 ++ k.2.2 ++ a.2.2 ++ [Ev.fatalf "Failed to load CA: %v" [.v err]])
        | .ok caPEM =>
          let x := Ev.call .tlsLoad (.X509KeyPair certPEM keyPEM (W.X509KeyPair certPEM keyPEM))
          match W.X509KeyPair certPEM keyPEM with
          | some err =>
            (a.1, .exited, c.2.2 ++ k.2.2 ++ a.2.2
              ++ [x, Ev.fatalf "Failed to parse client cert/key: %v" [.v err]])
          | none =>
            (a.1, .returned (some ⟨certPEM, keyPEM, caPEM⟩), c.2.2 ++ k.2.2 ++ a.2.2 ++ [x])

/-- The closure `getClient` of `TestClickHouse`: TLS material, `OpenDB`, then the
probe `SELECT version()`; a failed probe closes the handle and returns the error. -/
def chGetClient {σ : Type} (W : ClickHouseWorld σ) (config : ClickHouseConfig) (s : σ) :
    σ × Proc (GoResult (SqlDB σ)) × List Ev :=
  let l := Ev.logf "Connecting to ClickHouse at %s:%d (TLS: %v)"
    [.s config.Host, .d config.Port, .b config.TLS]
  let addr := config.Host ++ lit ":" ++ itoa config.Port
  let t : σ × Proc (Option TLSMaterial) × List Ev :=
    if config.TLS then
      let g := chGetTLSConfig W config s
      (g.1, g.2.1, g.2.2 ++
        (match g.2.1 with
         | .exited => []
         | .returned _ =>
           if config.SSLCACRT ≠ [] then [Ev.logf "TLS with certificates enabled" []] else []))
    else (s, .returned none, [])
  match t.2.1 with
  | .exited => (t.1, .exited, l :: t.2.2)
  | .returned tlsConfig =>
    let db := W.OpenDB config tlsConfig
    let o := Ev.call .connect (.OpenDB addr tlsConfig.isSome)
    let r := db.QueryRowString .selectVersion t.1
    let c := Ev.call .connectProbe (.QueryRowString .selectVersion r.2)
    match r.2 with
    | .error err =>
      let cl := db.Close r.1
      (cl.1, .returned (.error (lit "connection test failed: " ++ err)),
        l :: t.2.2 ++ [o, c, Ev.call .connectClose (.Close cl.2)])
    | .ok version =>
      (r.1, .returned (.ok db),
        l :: t.2.2 ++ [o, c, Ev.logf "✓ Connected to ClickHouse %s" [.s version]])

/-- Step 1 of `TestClickHouse`, the loop `for j, key := range testKeys`. -/
def chCreate {σ : Type} (db : SqlDB σ) (pfx database tableName : GoString) :
    Nat → List GoString → σ → σ × List TestKeyValue × List Ev
  | _, [], s => (s, [], [])
  | j, key :: rest, s =>
    let fullKey := addPrefix pfx (baseKey ++ lit "_" ++ key)
    let value := testValues.getD j []
    let q := Stmt.insert database tableName fullKey value
    let r := db.ExecContext q s
    let next := chCreate db pfx database tableName (j + 1) rest r.1
    match r.2 with
    | some err =>
      (next.1, ⟨[], []⟩ :: next.2.1,
        Ev.call .seedInsert (.ExecContext q (some err))
          :: Ev.logf "❌ Insert key %s error: %v" [.s fullKey, .v err] :: next.2.2)
    | none =>
      (next.1, ⟨baseKey ++ lit "_" ++ key, value⟩ :: next.2.1,
        Ev.call .seedInsert (.ExecContext q none)
          :: Ev.printf "✓ Key %s inserted with value: %s\n"
              [.s (baseKey ++ lit "_" ++ key), .s value] :: next.2.2)

/-- Step 2 of `TestClickHouse`, the loop `for _, item := range testItems`. -/
def chRead {σ : Type} (db : SqlDB σ) (pfx database tableName : GoString) :
    List TestKeyValue → σ → σ × List Ev
  | [], s => (s, [])
  | item :: rest, s =>
    if item.Key = [] then chRead db pfx database tableName rest s
    else
      let fullKey := addPrefix pfx item.Key
      let q := Stmt.selectValue database tableName fullKey
      let r := db.QueryRowString q s
      let next := chRead db pfx database tableName rest r.1
      let c := Ev.call .readBack (.QueryRowString q r.2)
      match r.2 with
      | .error err =>
        (next.1, c :: Ev.logf "❌ Get key %s error: %v" [.s item.Key, .v err] :: next.2)
      | .ok retrievedValue =>
        if retrievedValue = [] then
          (next.1, c :: Ev.logf "❌ Key %s not found" [.s item.Key] :: next.2)
        else
          (next.1, c :: Ev.printf "✓ Key %s retrieved: %s\n" [.s item.Key, .s retrievedValue]
            :: next.2)

/-- Step 3 of `TestClickHouse`: `ALTER TABLE ... UPDATE` of `test_key_1`, then a read. -/
def chUpdate {σ : Type} (db : SqlDB σ) (pfx database tableName now : GoString) (s : σ) :
    σ × List Ev :=
  let updateKey := baseKey ++ lit "_1"
  let fullUpdateKey := addPrefix pfx updateKey
  let q := Stmt.alterUpdate database tableName (updatedValue now) fullUpdateKey
  let r := db.ExecContext q s
  let c := Ev.call .update (.ExecContext q r.2)
  match r.2 with
  | some err => (r.1, [c, Ev.logf "❌ Update key %s error: %v" [.s updateKey, .v err]])
  | none =>
    let qs := Stmt.selectValue database tableName fullUpdateKey
    let g := db.QueryRowString qs r.1
    let cg := Ev.call .updateVerify (.QueryRowString qs g.2)
    match g.2 with
    | .ok updatedBytes =>
      if updatedBytes ≠ [] then
        (g.1, [c, cg, Ev.printf "✓ Key %s updated to: %s\n" [.s updateKey, .s updatedBytes]])
      else (g.1, [c, cg, Ev.logf "❌ Verification failed for updated key %s" [.s updateKey]])
    | .error _ =>
      (g.1, [c, cg, Ev.logf "❌ Verification failed for updated key %s" [.s updateKey]])

/-- Step 4 of `TestClickHouse`: the range query; the rows are printed, then the count. -/
def chScan {σ : Type} (db : SqlDB σ) (pfx database tableName : GoString) (s : σ) :
    σ × List Ev :=
  let startKey := addPrefix pfx (baseKey ++ lit "_")
  let endKey := addPrefix pfx (baseKey ++ lit "_z")
  let q := Stmt.selectRange database tableName startKey endKey
  let r := db.QueryContext q s
  let c := Ev.call .scan (.QueryContext q r.2)
  match r.2 with
  | .error err => (r.1, [c, Ev.logf "❌ Scan error: %v" [.v err]])
  | .ok rows =>
    (r.1, c :: (sqlRows pfx rows).1
      ++ [Ev.printf "✓ Scan found %d keys in range\n" [.d (sqlRows pfx rows).2]])

/-- Step 5 of `TestClickHouse`: count `test_key_2`, delete it when the count is not
zero, then count again. -/
def chDelete {σ : Type} (db : SqlDB σ) (pfx database tableName : GoString) (s : σ) :
    σ × List Ev :=
  let deleteKey := baseKey ++ lit "_2"
  let fullDeleteKey := addPrefix pfx deleteKey
  let qc := Stmt.countKey database tableName fullDeleteKey
  let e := db.QueryRowInt qc s
  let ce := Ev.call .deleteExists (.QueryRowInt qc e.2)
  let missing := (e.1, [ce, Ev.logf "❌ Key %s not found for deletion" [.s deleteKey]])
  match e.2 with
  | .error _ => missing
  | .ok exists_ =>
    if exists_ = 0 then missing
    else
      let qd := Stmt.alterDelete database tableName fullDeleteKey
      let d := db.ExecContext qd e.1
      let cd := Ev.call .delete (.ExecContext qd d.2)
      match d.2 with
      | some err =>
        (d.1, [ce, cd, Ev.logf "❌ Delete key %s error: %v" [.s deleteKey, .v err]])
      | none =>
        let a := db.QueryRowInt qc d.1
        let ca := Ev.call .deleteVerify (.QueryRowInt qc a.2)
        match a.2 with
        | .ok existsAfter =>
          if existsAfter = 0 then
            (a.1, [ce, cd, ca, Ev.printf "✓ Key %s deleted successfully\n" [.s deleteKey]])
          else
            (a.1, [ce, cd, ca, Ev.logf "❌ Key %s still exists after deletion" [.s deleteKey]])
        | .error _ =>
          (a.1, [ce, cd, ca, Ev.logf "❌ Key %s still exists after deletion" [.s deleteKey]])

/-- Step 6 of `TestClickHouse`: items with an empty key and items whose key contains
`2` are skipped, the others are deleted. -/
def chCleanup {σ : Type} (db : SqlDB σ) (pfx database tableName : GoString) :
    List TestKeyValue → σ → σ × List Ev
  | [], s => (s, [])
  | item :: rest, s =>
    if item.Key = [] then chCleanup db pfx database tableName rest s
    else if Contains item.Key (lit "2") then chCleanup db pfx database tableName rest s
    else
      let fullCleanupKey := addPrefix pfx item.Key
      let q := Stmt.alterDelete database tableName fullCleanupKey
      let r := db.ExecContext q s
      let next := chCleanup db pfx database tableName rest r.1
      let c := Ev.call .cleanup (.ExecContext q r.2)
      match r.2 with
      | some err =>
        (next.1, c :: Ev.logf "⚠️ Cleanup warning for %s: %v" [.s item.Key, .v err] :: next.2)
      | none => (next.1, c :: next.2)

/-- The final verification of `TestClickHouse`: read `test_key_3`; only success prints. -/
def chFinal {σ : Type} (db : SqlDB σ) (pfx database tableName : GoString) (s : σ) :
    σ × List Ev :=
  let finalCheckKey := baseKey ++ lit "_3"
  let q := Stmt.selectValue database tableName (addPrefix pfx finalCheckKey)
  let r := db.QueryRowString q s
  let c := Ev.call .finalCheck (.QueryRowString q r.2)
  match r.2 with
  | .ok checkValue =>
    if checkValue ≠ [] then
      (r.1, [c, Ev.printf "✓ Final verification: key %s still exists with value %s\n"
        [.s finalCheckKey, .s checkValue]])
    else (r.1, [c])
  | .error _ => (r.1, [c])

/-- Steps 1 to 6 and the final verification of `TestClickHouse`. -/
def chSteps {σ : Type} (now : σ → GoString) (db : SqlDB σ) (pfx database tableName : GoString)
    (i : Nat) (s : σ) : σ × List Ev :=
  let r1 := chCreate db pfx database tableName 0 testKeys s
  let r2 := chRead db pfx database tableName r1.2.1 r1.1
  let r3 := chUpdate db pfx database tableName (now r2.1) r2.1
  let r4 := chScan db pfx database tableName r3.1
  let r5 := chDelete db pfx database tableName r4.1
  let r6 := chCleanup db pfx database tableName r1.2.1 r5.1
  let r7 := chFinal db pfx database tableName r6.1
  (r7.1,
    Ev.printf "1. Creating test keys...\n" [] :: r1.2.2
    ++ Ev.printf "2. Reading test keys...\n" [] :: r2.2
    ++ Ev.printf "3. Updating test key...\n" [] :: r3.2
    ++ Ev.printf "4. Scanning test keys...\n" [] :: r4.2
    ++ Ev.printf "5. Deleting test key...\n" [] :: r5.2
    ++ Ev.printf "6. Cleaning up test keys...\n" [] :: r6.2
    ++ r7.2
    ++ [Ev.printf "✅ ClickHouse %d test completed\n" [.d (i + 1)]])

/-- Step 0 of `TestClickHouse` and what follows it: the local table, then the
distributed table; a failure of either is logged and ends the iteration. -/
def chBody {σ : Type} (now : σ → GoString) (db : SqlDB σ) (pfx database tableName : GoString)
    (i : Nat) (s : σ) : σ × List Ev :=
  let h0 := Ev.printf "0. Creating table if not exists on cluster...\n" []
  let ql := Stmt.createLocalTable database tableName
  let l := db.ExecContext ql s
  let cl := Ev.call .namespaceSetup (.ExecContext ql l.2)
  match l.2 with
  | some err => (l.1, [h0, cl, Ev.logf "❌ Create local table error: %v" [.v err]])
  | none =>
    let distTableName := tableName ++ lit "_dist"
    let qd := Stmt.createDistTable database distTableName tableName
    let d := db.ExecContext qd l.1
    let cd := Ev.call .namespaceSetup (.ExecContext qd d.2)
    let pre := [h0, cl, Ev.printf "✓ Local table %s.%s ready\n" [.s database, .s tableName],
      Ev.printf "0. Creating distributed table...\n" [], Ev.printf "%s" [.q qd], cd]
    match d.2 with
    | some err => (d.1, pre ++ [Ev.logf "❌ Create distributed table error: %v" [.v err]])
    | none =>
      let r := chSteps now db pfx database tableName i d.1
      (r.1, pre ++ Ev.printf "✓ Distributed table %s.%s ready\n" [.s database, .s distTableName]
        :: r.2)

/-- The effective table name of `TestClickHouse`. -/
def chTableName (chConfig : ClickHouseConfig) : GoString :=
  if chConfig.DBTableName = [] then
    if chConfig.LocalTableName = [] then lit "main_dist" else chConfig.LocalTableName
  else chConfig.DBTableName

/-- One iteration of the loop of `TestClickHouse`: the trace, the handle whose
`Close` was deferred (if any), and whether the process exited in `log.Fatalf`. -/
def chInstance {σ : Type} (W : ClickHouseWorld σ) (i : Nat) (chConfig : ClickHouseConfig)
    (s : σ) : σ × List Ev × Option (SqlDB σ) × Bool :=
  let h := Ev.printf "\n=== Testing ClickHouse %d: %s:%d ===\n"
    [.d (i + 1), .s chConfig.Host, .d chConfig.Port]
  let pfx := chConfig.Database ++ lit ":"
  let tableName := chTableName chConfig
  let g := chGetClient W chConfig s
  match g.2.1 with
  | .exited => (g.1, h :: g.2.2, none, true)
  | .returned (.error err) =>
    (g.1, h :: g.2.2 ++ [Ev.logf "❌ Failed to create ClickHouse client: %v" [.v err]],
      none, false)
  | .returned (.ok db) =>
    let r := chBody W.Now db pfx chConfig.Database tableName i g.1
    (r.1, h :: g.2.2 ++ r.2, some db, false)

/-- The loop `for i, chConfig := range chs`: the trace, the deferred handles in the
order of their `defer`, and whether the process exited. -/
def chLoop {σ : Type} (W : ClickHouseWorld σ) :
    Nat → List ClickHouseConfig → σ → σ × List (Nat × Ev) × List (Nat × SqlDB σ) × Bool
  | _, [], s => (s, [], [], false)
  | i, chConfig :: rest, s =>
    let r := chInstance W i chConfig s
    if r.2.2.2 then (r.1, r.2.1.map (fun e => (i, e)), [], true)
    else
      let next := chLoop W (i + 1) rest r.1
      (next.1, r.2.1.map (fun e => (i, e)) ++ next.2.1,
        (match r.2.2.1 with
         | some db => (i, db) :: next.2.2.1
         | none => next.2.2.1),
        next.2.2.2)

/-- The function `TestClickHouse`: the loop, then at return the deferred `Close`
calls, last deferred first; none of them runs when the process exited. -/
def TestClickHouse {σ : Type} (W : ClickHouseWorld σ) (chs : List ClickHouseConfig) (s : σ) :
    σ × List (Nat × Ev) × Bool :=
  let r := chLoop W 0 chs s
  if r.2.2.2 then (r.1, r.2.1, true)
  else
    let d := sqlRunDeferred r.2.2.1.reverse r.1
    (d.1, r.2.1 ++ d.2, false)

/-! ## TiDB (`service/tidb.go`) -/

/-- The struct `model.TiDBConfig`. -/
structure TiDBConfig where
  Host : GoString
  Port : Int
  Username : GoString
  Password : GoString
  Database : GoString
  TableName : GoString
  SSLClientCRT : GoString
  SSLClientKey : GoString
  SSLCACRT : GoString
  TLS : Bool
deriving DecidableEq, Repr

/-- The outside world of the TiDB script: `os.ReadFile`, `tls.X509KeyPair`,
`mysql.RegisterTLSConfig`, `sql.Open` and the clock. -/
structure TiDBWorld (σ : Type) where
  ReadFile : GoString → σ → σ × GoResult GoString
  X509KeyPair : GoString → GoString → Option GoError
  RegisterTLSConfig : GoString → σ → σ
  SqlOpen : GoString → σ → σ × GoResult (SqlDB σ)
  Now : σ → GoString

/-- The closure `loadCertFromFile` of `TestTiDB`: an empty path gives `nil, nil`. -/
def tidbLoadCertFromFile {σ : Type} (W : TiDBWorld σ) (filePath : GoString) (s : σ) :
    σ × GoResult (Option GoString) × List Ev :=
  if filePath = [] then (s, .ok none, [])
  else
    let r := W.ReadFile filePath s
    match r.2 with
    | .error err =>
      (r.1, .error (lit "failed to read cert file " ++ filePath ++ lit ": " ++ err),
        [Ev.call .tlsLoad (.ReadFile filePath (.error err))])
    | .ok data => (r.1, .ok (some data), [Ev.call .tlsLoad (.ReadFile filePath (.ok data))])

/-- The closure `getTLSConfig` of `TestTiDB`: the name of the registered TLS
configuration, empty without TLS; every load or parse failure is `log.Fatalf`. -/
def tidbGetTLSConfig {σ : Type} (W : TiDBWorld σ) (config : TiDBConfig) (s : σ) :
    σ × Proc GoString × List Ev :=
  if !config.TLS then (s, .returned [], [])
  else
    let l := Ev.logf "TLS enabled for TiDB connection" []
    let a := tidbLoadCertFromFile W config.SSLCACRT s
    match a.2.1 with
    | .error err => (a.1, .exited, l :: a.2.2 ++ [Ev.fatalf "Failed to load CA cert: %v" [.v err]])
    | .ok none =>
      (W.RegisterTLSConfig (lit "tidb-insecure") a.1, .returned (lit "tidb-insecure"),
        l :: a.2.2 ++ [Ev.call .tlsLoad (.RegisterTLSConfig (lit "tidb-insecure"))])
    | .ok (some _) =>
      let tlsConfigName := lit "tidb-tls-" ++ config.Host
      let fin (s1 : σ) (t : List Ev) : σ × Proc GoString × List Ev :=
        (W.RegisterTLSConfig tlsConfigName s1, .returned tlsConfigName,
          l :: a.2.2 ++ t ++ [Ev.call .tlsLoad (.RegisterTLSConfig tlsConfigName),
            Ev.logf "Registered TLS config: %s" [.s tlsConfigName]])
      if config.SSLClientCRT ≠ [] ∧ config.SSLClientKey ≠ [] then
        let c := tidbLoadCertFromFile W config.SSLClientCRT a.1
        match c.2.1 with
        | .error err =>
          (c.1, .exited,
            l :: a.2.2 ++ c.2.2 ++ [Ev.fatalf "Failed to load client cert: %v" [.v err]])
        | .ok certPEM =>
          let k := tidbLoadCertFromFile W config.SSLClientKey c.1
          match k.2.1 with
          | .error err =>
            (k.1, .exited, l :: a.2.2 ++ c.2.2 ++ k.2.2
              ++ [Ev.fatalf "Failed to load client key: %v" [.v err]])
          | .ok keyPEM =>
            let cert := certPEM.getD []
            let key := keyPEM.getD []
            let x := Ev.call .tlsLoad (.X509KeyPair cert key (W.X509KeyPair cert key))
            match W.X509KeyPair cert key with
            | some err =>
              (k.1, .exited, l :: a.2.2 ++ c.2.2 ++ k.2.2
                ++ [x, Ev.fatalf "Failed to parse client cert/key: %v" [.v err]])
            | none => fin k.1 (c.2.2 ++ k.2.2 ++ [x])
      else fin a.1 []

/-- The data source name built by `getClient` of `TestTiDB`. -/
def tidbDSN (config : TiDBConfig) (tlsConfigName : GoString) : GoString :=
  let dsn := config.Username ++ lit ":" ++ config.Password ++ lit "@tcp(" ++ config.Host
    ++ lit ":" ++ itoa config.Port ++ lit ")/" ++ config.Database
    ++ lit "?charset=utf8mb4&parseTime=true&interpolateParams=true"
  if config.TLS ∧ tlsConfigName ≠ [] then dsn ++ lit "&tls=" ++ tlsConfigName
  else if !config.TLS then dsn ++ lit "&allowNativePasswords=true"
  else dsn

/-- The closure `getClient` of `TestTiDB`: TLS registration, `sql.Open`, the ping (a
failed ping closes the handle and returns the error), then the version query, whose
failure is only a warning. -/
def tidbGetClient {σ : Type} (W : TiDBWorld σ) (config : TiDBConfig) (s : σ) :
    σ × Proc (GoResult (SqlDB σ)) × List Ev :=
  let l := Ev.logf "Connecting to TiDB at %s:%d (TLS: %v)"
    [.s config.Host, .d config.Port, .b config.TLS]
  let t := tidbGetTLSConfig W config s
  match t.2.1 with
  | .exited => (t.1, .exited, l :: t.2.2)
  | .returned tlsConfigName =>
    let dsn := tidbDSN config tlsConfigName
    let o := W.SqlOpen dsn t.1
    match o.2 with
    | .error err =>
      (o.1, .returned (.error (lit "failed to open TiDB connection: " ++ err)),
        l :: t.2.2 ++ [Ev.call .connect (.SqlOpen dsn (some err))])
    | .ok db =>
      let co := Ev.call .connect (.SqlOpen dsn none)
      let p := db.PingContext o.1
      let cp := Ev.call .connectProbe (.PingContext p.2)
      match p.2 with
      | some err =>
        let cl := db.Close p.1
        (cl.1, .returned (.error (lit "connection ping failed: " ++ err)),
          l :: t.2.2 ++ [co, cp, Ev.call .connectClose (.Close cl.2)])
      | none =>
        let r := db.QueryRowString .selectVersion p.1
        let cv := Ev.call .connectProbe (.QueryRowString .selectVersion r.2)
        match r.2 with
        | .error err =>
          (r.1, .returned (.ok db),
            l :: t.2.2 ++ [co, cp, cv, Ev.logf "Warning: Could not retrieve version: %v" [.v err],
              Ev.logf "✓ Connected to TiDB %s" [.s (lit "unknown")]])
        | .ok version =>
          (r.1, .returned (.ok db),
            l :: t.2.2 ++ [co, cp, cv, Ev.logf "✓ Connected to TiDB %s" [.s version]])

/-- Step 1 of `TestTiDB`, the loop `for j, key := range testKeys`. -/
def tidbCreate {σ : Type} (db : SqlDB σ) (pfx database tableName : GoString) :
    Nat → List GoString → σ → σ × List TestKeyValue × List Ev
  | _, [], s => (s, [], [])
  | j, key :: rest, s =>
    let fullKey := addPrefix pfx (baseKey ++ lit "_" ++ key)
    let value := testValues.getD j []
    let q := Stmt.insertOrUpdate database tableName fullKey value
    let r := db.ExecContext q s
    let next := tidbCreate db pfx database tableName (j + 1) rest r.1
    match r.2 with
    | some err =>
      (next.1, ⟨[], []⟩ :: next.2.1,
        Ev.call .seedInsert (.ExecContext q (some err))
          :: Ev.logf "❌ Insert key %s error: %v" [.s fullKey, .v err] :: next.2.2)
    | none =>
      (next.1, ⟨baseKey ++ lit "_" ++ key, value⟩ :: next.2.1,
        Ev.call .seedInsert (.ExecContext q none)
          :: Ev.printf "✓ Key %s inserted with value: %s\n"
              [.s (baseKey ++ lit "_" ++ key), .s value] :: next.2.2)

/-- Step 2 of `TestTiDB`, the loop `for _, item := range testItems`. -/
def tidbRead {σ : Type} (db : SqlDB σ) (pfx database tableName : GoString) :
    List TestKeyValue → σ → σ × List Ev
  | [], s => (s, [])
  | item :: rest, s =>
    if item.Key = [] then tidbRead db pfx database tableName rest s
    else
      let fullKey := addPrefix pfx item.Key
      let q := Stmt.selectValue database tableName fullKey
      let r := db.QueryRowString q s
      let next := tidbRead db pfx database tableName rest r.1
      let c := Ev.call .readBack (.QueryRowString q r.2)
      match r.2 with
      | .error err =>
        (next.1, c :: Ev.logf "❌ Get key %s error: %v" [.s item.Key, .v err] :: next.2)
      | .ok retrievedValue =>
        if retrievedValue = [] then
          (next.1, c :: Ev.logf "❌ Key %s not found" [.s item.Key] :: next.2)
        else
          (next.1, c :: Ev.printf "✓ Key %s retrieved: %s\n" [.s item.Key, .s retrievedValue]
            :: next.2)

/-- Step 3 of `TestTiDB`: `UPDATE` of `test_key_1`, then a read. -/
def tidbUpdate {σ : Type} (db : SqlDB σ) (pfx database tableName now : GoString) (s : σ) :
    σ × List Ev :=
  let updateKey := baseKey ++ lit "_1"
  let fullUpdateKey := addPrefix pfx updateKey
  let q := Stmt.update database tableName (updatedValue now) fullUpdateKey
  let r := db.ExecContext q s
  let c := Ev.call .update (.ExecContext q r.2)
  match r.2 with
  | some err => (r.1, [c, Ev.logf "❌ Update key %s error: %v" [.s updateKey, .v err]])
  | none =>
    let qs := Stmt.selectValue database tableName fullUpdateKey
    let g := db.QueryRowString qs r.1
    let cg := Ev.call .updateVerify (.QueryRowString qs g.2)
    match g.2 with
    | .ok updatedValueStr =>
      if updatedValueStr ≠ [] then
        (g.1, [c, cg, Ev.printf "✓ Key %s updated to: %s\n" [.s updateKey, .s updatedValueStr]])
      else (g.1, [c, cg, Ev.logf "❌ Verification failed for updated key %s" [.s updateKey]])
    | .error _ =>
      (g.1, [c, cg, Ev.logf "❌ Verification failed for updated key %s" [.s updateKey]])

/-- Step 4 of `TestTiDB`: the range query; the rows are printed, then the count. -/
def tidbScan {σ : Type} (db : SqlDB σ) (pfx database tableName : GoString) (s : σ) :
    σ × List Ev :=
  let startKey := addPrefix pfx (baseKey ++ lit "_")
  let endKey := addPrefix pfx (baseKey ++ lit "_z")
  let q := Stmt.selectRange database tableName startKey endKey
  let r := db.QueryContext q s
  let c := Ev.call .scan (.QueryContext q r.2)
  match r.2 with
  | .error err => (r.1, [c, Ev.logf "❌ Scan error: %v" [.v err]])
  | .ok rows =>
    (r.1, c :: (sqlRows pfx rows).1
      ++ [Ev.printf "✓ Scan found %d keys in range\n" [.d (sqlRows pfx rows).2]])

/-- The final verification of `TestTiDB`: read `test_key_3`; only success prints. -/
def tidbFinal {σ : Type} (db : SqlDB σ) (pfx database tableName : GoString) (s : σ) :
    σ × List Ev :=
  let finalCheckKey := baseKey ++ lit "_3"
  let q := Stmt.selectValueUnquoted database tableName (addPrefix pfx finalCheckKey)
  let r := db.QueryRowString q s
  let c := Ev.call .finalCheck (.QueryRowString q r.2)
  match r.2 with
  | .ok checkValue =>
    if checkValue ≠ [] then
      (r.1, [c, Ev.printf "✓ Final verification: key %s still exists with value %s\n"
        [.s finalCheckKey, .s checkValue]])
    else (r.1, [c])
  | .error _ => (r.1, [c])

/-- Steps 1 to 4 and the final verification of `TestTiDB`; steps 5 (delete) and 6
(cleanup) are commented out in the source and so absent here. -/
def tidbSteps {σ : Type} (now : σ → GoString) (db : SqlDB σ) (pfx database tableName : GoString)
    (i : Nat) (s : σ) : σ × List Ev :=
  let r1 := tidbCreate db pfx database tableName 0 testKeys s
  let r2 := tidbRead db pfx database tableName r1.2.1 r1.1
  let r3 := tidbUpdate db pfx database tableName (now r2.1) r2.1
  let r4 := tidbScan db pfx database tableName r3.1
  let r7 := tidbFinal db pfx database tableName r4.1
  (r7.1,
    Ev.printf "1. Creating test keys...\n" [] :: r1.2.2
    ++ Ev.printf "2. Reading test keys...\n" [] :: r2.2
    ++ Ev.printf "3. Updating test key...\n" [] :: r3.2
    ++ Ev.printf "4. Scanning test keys...\n" [] :: r4.2
    ++ r7.2
    ++ [Ev.printf "✅ TiDB %d test completed\n" [.d (i + 1)]])

/-- Step 0 of `TestTiDB` and what follows it: a failed `CREATE TABLE` is logged and
ends the iteration. -/
def tidbBody {σ : Type} (now : σ → GoString) (db : SqlDB σ) (pfx database tableName : GoString)
    (i : Nat) (s : σ) : σ × List Ev :=
  let q := Stmt.createTable database tableName
  let r := db.ExecContext q s
  let pre := [Ev.printf "0. Creating table if not exists...\n" [], Ev.printf "%s" [.q q],
    Ev.call .namespaceSetup (.ExecContext q r.2)]
  match r.2 with
  | some err =>
    (r.1, pre ++ [Ev.logf "❌ Create table error: %v" [.v err],
      Ev.logf "SQL attempted: %s" [.q q]])
  | none =>
    let t := tidbSteps now db pfx database tableName i r.1
    (t.1, pre ++ Ev.printf "✓ Table %s.%s ready\n" [.s database, .s tableName] :: t.2)

/-- The effective table name of `TestTiDB`. -/
def tidbTableName (tidbConfig : TiDBConfig) : GoString :=
  if tidbConfig.TableName = [] then lit "test" else tidbConfig.TableName

/-- One iteration of the loop of `TestTiDB`: the trace, the handle whose `Close`
was deferred (if any), and whether the process exited in `log.Fatalf`. -/
def tidbInstance {σ : Type} (W : TiDBWorld σ) (i : Nat) (tidbConfig : TiDBConfig) (s : σ) :
    σ × List Ev × Option (SqlDB σ) × Bool :=
  let h := Ev.printf "\n=== Testing TiDB %d: %s:%d ===\n"
    [.d (i + 1), .s tidbConfig.Host, .d tidbConfig.Port]
  let pfx := tidbConfig.Database ++ lit ":"
  let tableName := tidbTableName tidbConfig
  let g := tidbGetClient W tidbConfig s
  match g.2.1 with
  | .exited => (g.1, h :: g.2.2, none, true)
  | .returned (.error err) =>
    (g.1, h :: g.2.2 ++ [Ev.logf "❌ Failed to create TiDB client: %v" [.v err]], none, false)
  | .returned (.ok db) =>
    let r := tidbBody W.Now db pfx tidbConfig.Database tableName i g.1
    (r.1, h :: g.2.2 ++ r.2, some db, false)

/-- The loop `for i, tidbConfig := range tidbs`: the trace, the deferred handles in
the order of their `defer`, and whether the process exited. -/
def tidbLoop {σ : Type} (W : TiDBWorld σ) :
    Nat → List TiDBConfig → σ → σ × List (Nat × Ev) × List (Nat × SqlDB σ) × Bool
  | _, [], s => (s, [], [], false)
  | i, tidbConfig :: rest, s =>
    let r := tidbInstance W i tidbConfig s
    if r.2.2.2 then (r.1, r.2.1.map (fun e => (i, e)), [], true)
    else
      let next := tidbLoop W (i + 1) rest r.1
      (next.1, r.2.1.map (fun e => (i, e)) ++ next.2.1,
        (match r.2.2.1 with
         | some db => (i, db) :: next.2.2.1
         | none => next.2.2.1),
        next.2.2.2)

/-- The function `TestTiDB`: the loop, then at return the deferred `Close` calls,
last deferred first; none of them runs when the process exited. -/
def TestTiDB {σ : Type} (W : TiDBWorld σ) (tidbs : List TiDBConfig) (s : σ) :
    σ × List (Nat × Ev) × Bool :=
  let r := tidbLoop W 0 tidbs s
  if r.2.2.2 then (r.1, r.2.1, true)
  else
    let d := sqlRunDeferred r.2.2.1.reverse r.1
    (d.1, r.2.1 ++ d.2, false)

/-! ## Elasticsearch (`service/es.go`) -/

/-- The one method of the Elasticsearch client the script uses: `req.Do(ctx, client)`. -/
structure EsClient (σ : Type) where
  Do : EsReq → σ → σ × GoResult EsResponse

/-- The outside world of the Elasticsearch script: `elasticsearch.NewClient`,
`json.Marshal` and the clock.  The deferred `Body.Close()` of the responses is not
part of the trace. -/
structure ESWorld (σ : Type) where
  NewClient : GoString → GoString → GoString → σ → σ × GoResult (EsClient σ)
  Marshal : TestDocument → GoResult GoString
  Now : σ → GoString

/-- The local `indexName` of `TestES`. -/
def indexName : GoString := lit "test-1"

/-- The local `testDocs` of `TestES`, with the clock reading `ts`. -/
def testDocs (ts : GoString) : List TestDocument :=
  [⟨lit "1", lit "Document One", 100, ts⟩,
   ⟨lit "2", lit "Document Two", 200, ts⟩,
   ⟨lit "3", lit "Document Three", 300, ts⟩]

/-- Step 2 of `TestES`, the loop `for _, doc := range testDocs`; the error of
`json.Marshal` is discarded. -/
def esInsert {σ : Type} (W : ESWorld σ) (client : EsClient σ) :
    List TestDocument → σ → σ × List Ev
  | [], s => (s, [])
  | doc :: rest, s =>
    let docJSON := match W.Marshal doc with
      | .ok b => b
      | .error _ => []
    let q := EsReq.Index indexName doc.ID docJSON "true"
    let r := client.Do q s
    let next := esInsert W client rest r.1
    let c := Ev.call .seedInsert (.EsDo q r.2)
    match r.2 with
    | .error err =>
      (next.1, c :: Ev.logf "❌ Insert document %s error: %v" [.s doc.ID, .v err] :: next.2)
    | .ok res =>
      if res.IsError then
        (next.1, c :: Ev.logf "❌ Insert document %s failed: %s" [.s doc.ID, .s res.Status]
          :: next.2)
      else (next.1, c :: Ev.printf "✓ Document %s inserted\n" [.s doc.ID] :: next.2)

/-- Step 3 of `TestES`: the search; the count printed is `len(testDocs)`. -/
def esSearch {σ : Type} (client : EsClient σ) (docs : List TestDocument) (s : σ) :
    σ × List Ev :=
  let q := EsReq.Search [indexName] "\x7b\"query\":\x7b\"match_all\":\x7b\x7d\x7d\x7d" 10
  let r := client.Do q s
  let c := Ev.call .readBack (.EsDo q r.2)
  match r.2 with
  | .error err => (r.1, [c, Ev.logf "❌ Search error: %v" [.v err]])
  | .ok searchRes =>
    if searchRes.IsError then (r.1, [c, Ev.logf "❌ Search failed: %s" [.s searchRes.Status]])
    else
      (r.1, [c, Ev.printf "✓ Found %d documents: %s\n"
        [.d docs.length, .s (searchRes.Body.take (min 100 searchRes.Body.length) ++ lit "...")]])

/-- A request of steps 4 to 6 of `TestES` with its three outcomes: transport error,
error response, success. -/
def esSimple {σ : Type} (client : EsClient σ) (site : Site) (q : EsReq)
    (errFormat failFormat okLine : String) (s : σ) : σ × List Ev :=
  let r := client.Do q s
  let c := Ev.call site (.EsDo q r.2)
  match r.2 with
  | .error err => (r.1, [c, Ev.logf errFormat [.v err]])
  | .ok res =>
    if res.IsError then (r.1, [c, Ev.logf failFormat [.s res.Status]])
    else (r.1, [c, Ev.printf okLine []])

/-- Steps 2 to 6 of `TestES`; a failing `json.Marshal` of the updated document ends
the iteration.  The three documents of `testDocs` share one clock reading. -/
def esSteps {σ : Type} (W : ESWorld σ) (client : EsClient σ) (i : Nat) (s : σ) :
    σ × List Ev :=
  let docs := testDocs (W.Now s)
  let r2 := esInsert W client docs s
  let r3 := esSearch client docs r2.1
  let pre := Ev.printf "2. Inserting test documents...\n" [] :: r2.2
    ++ Ev.printf "3. Reading documents...\n" [] :: r3.2
    ++ [Ev.printf "4. Updating document...\n" []]
  let updatedDoc : TestDocument := ⟨lit "1", lit "Updated Document One", 150, W.Now r3.1⟩
  match W.Marshal updatedDoc with
  | .error err => (r3.1, pre ++ [Ev.logf "❌ JSON marshal error for update: %v" [.v err]])
  | .ok docJSON =>
    let r4 := esSimple client .update (.Index indexName (lit "1") docJSON "true")
      "❌ Update error: %v" "❌ Update failed: %s" "✓ Document 1 updated successfully\n" r3.1
    let r5 := esSimple client .delete (.Delete indexName (lit "2"))
      "❌ Delete error: %v" "❌ Delete failed: %s" "✓ Document 2 deleted successfully\n" r4.1
    let r6 := esSimple client .cleanup (.IndicesDelete [indexName])
      "❌ Delete index error: %v" "❌ Delete index failed: %s"
      "✓ Index 'test-1' deleted successfully\n" r5.1
    (r6.1, pre ++ r4.2
      ++ Ev.printf "5. Deleting document...\n" [] :: r5.2
      ++ Ev.printf "6. Cleaning up - deleting index...\n" [] :: r6.2
      ++ [Ev.printf "✅ Elasticsearch %d test completed\n" [.d (i + 1)]])

/-- The store: a finite map from keys to values, as a list of pairs with distinct
keys in ascending key order. -/
abbrev Store := List (GoString × GoString)

/-- The value stored under a key. -/
def Store.get (k : GoString) : Store → Option GoString
  | [] => none
  | (k', v) :: rest => if k = k' then some v else Store.get k rest

/-- Writing a key: an existing entry is overwritten, a new one is put in key order. -/
def Store.put (k v : GoString) : Store → Store
  | [] => [(k, v)]
  | (k', v') :: rest =>
    if k = k' then (k, v) :: rest
    else if strLt k k' then (k, v) :: (k', v') :: rest
    else (k', v') :: Store.put k v rest

/-- Removing a key; removing an absent key changes nothing. -/
def Store.del (k : GoString) : Store → Store
  | [] => []
  | (k', v') :: rest => if k = k' then rest else (k', v') :: Store.del k rest

/-- The entries with `lo <= key < hi`, at most `limit` of them. -/
def Store.scan (lo hi : GoString) (limit : Nat) (m : Store) : Store :=
  (m.filter (fun kv => inRange lo hi kv.1)).take limit

/-- A raw key-value client over the reference store. -/
def storeKV : RawKVClient Store where
  Put := fun k v m => (Store.put k v m, none)
  Get := fun k m => (m, Store.get k m, none)
  Scan := fun lo hi limit m =>
    (m, (Store.scan lo hi limit m).map Prod.fst, (Store.scan lo hi limit m).map Prod.snd, none)
  Delete := fun k m => (Store.del k m, none)
  Close := fun m => (m, none)

/-- A `database/sql` handle over the reference store: inserts and updates write the
map, deletes erase, selects read; `QueryRowContext(...).Scan` on no row is the
error `sql.ErrNoRows`, as in `database/sql`. -/
def storeSQL : SqlDB Store where
  ExecContext := fun q m =>
    match q with
    | .insert _ _ k v => (Store.put k v m, none)
    | .insertOrUpdate _ _ k v => (Store.put k v m, none)
    | .alterUpdate _ _ v k => (if (Store.get k m).isSome then Store.put k v m else m, none)
    | .update _ _ v k => (if (Store.get k m).isSome then Store.put k v m else m, none)
    | .alterDelete _ _ k => (Store.del k m, none)
    | _ => (m, none)
  QueryRowString := fun q m =>
    match q with
    | .selectValue _ _ k =>
      (m, match Store.get k m with
          | some v => .ok v
          | none => .error (lit "sql: no rows in result set"))
    | .selectValueUnquoted _ _ k =>
      (m, match Store.get k m with
          | some v => .ok v
          | none => .error (lit "sql: no rows in result set"))
    | _ => (m, .ok (lit "reference"))
  QueryRowInt := fun q m =>
    match q with
    | .countKey _ _ k => (m, .ok (if (Store.get k m).isSome then 1 else 0))
    | _ => (m, .ok 0)
  QueryContext := fun q m =>
    match q with
    | .selectRange _ _ lo hi => (m, .ok ((Store.scan lo hi 100 m).map GoResult.ok))
    | _ => (m, .ok [])
  PingContext := fun m => (m, none)
  Close := fun m => (m, none)

/-! ## Observations used by the statements -/

/-- The local `fullKey` of the insert loops: `addPrefix(baseKey + "_" + key)`. -/
def fullKey (pfx key : GoString) : GoString := addPrefix pfx (baseKey ++ lit "_" ++ key)

/-- The local `startKey` of the scan step. -/
def scanStart (pfx : GoString) : GoString := addPrefix pfx (baseKey ++ lit "_")

/-- The local `endKey` of the scan step. -/
def scanEnd (pfx : GoString) : GoString := addPrefix pfx (baseKey ++ lit "_z")

/-- Whether some event satisfying `p` is followed, later in the trace, by one
satisfying `q`. -/
def occursThen (p q : Ev → Bool) : List Ev → Bool
  | [] => false
  | e :: rest => (p e && rest.any q) || occursThen p q rest

/-- A call that deletes the key `k`: `Delete` (TiKV) or `ALTER TABLE ... DELETE`. -/
def Ev.isDeleteOf (k : GoString) : Ev → Bool
  | .call _ (.Delete k' _) => k' == k
  | .call _ (.ExecContext (.alterDelete _ _ k') _) => k' == k
  | _ => false

/-- A call that reads the key `k`: `Get` (TiKV), or a select of its value or count. -/
def Ev.isReadOf (k : GoString) : Ev → Bool
  | .call _ (.Get k' _ _) => k' == k
  | .call _ (.QueryRowString (.selectValue _ _ k') _) => k' == k
  | .call _ (.QueryRowString (.selectValueUnquoted _ _ k') _) => k' == k
  | .call _ (.QueryRowInt (.countKey _ _ k') _) => k' == k
  | _ => false

/-- The keys returned by each scan of a trace: the `keys` of a `Scan` (TiKV), the
keys of the rows of a range query. -/
def scannedKeys : List Ev → List (List GoString)
  | [] => []
  | .call _ (.Scan _ _ _ keys _ _) :: rest => keys :: scannedKeys rest
  | .call _ (.QueryContext (.selectRange _ _ _ _) (.ok rows)) :: rest =>
    rows.filterMap (fun r => match r with
      | .ok kv => some kv.1
      | .error _ => none) :: scannedKeys rest
  | _ :: rest => scannedKeys rest

/-- The call site of a driver call; nothing for a printed line. -/
def Ev.site? : Ev → Option Site
  | .call s _ => some s
  | _ => none

/-- Every driver call of the trace is issued at one of the sites `S`. -/
def callsWithin (S : List Site) (t : List Ev) : Prop :=
  ∀ e ∈ t, ∀ x, e.site? = some x → x ∈ S

/-- The driver calls issued at site `x`, in order. -/
def callsAt (x : Site) : List Ev → List Call
  | [] => []
  | .call s c :: rest => if s = x then c :: callsAt x rest else callsAt x rest
  | _ :: rest => callsAt x rest

/-- Every call for which `relevant` holds is directly followed in the trace by an
event for which `good` holds. -/
def checkNext (relevant : Site → Call → Bool) (good : Site → Call → Ev → Bool) :
    List Ev → Bool
  | [] => true
  | .call s c :: rest =>
    (!relevant s c || (match rest with
      | l :: _ => good s c l
      | [] => false)) && checkNext relevant good rest
  | _ :: rest => checkNext relevant good rest

/-- The key and the value a call writes: `Put` (TiKV) or an `INSERT`. -/
def Call.write? : Call → Option (GoString × GoString)
  | .Put k v _ => some (k, v)
  | .ExecContext (.insert _ _ k v) _ => some (k, v)
  | .ExecContext (.insertOrUpdate _ _ k v) _ => some (k, v)
  | _ => none

/-- The key a call reads the value of: `Get` (TiKV) or a select of the value. -/
def Call.readKey? : Call → Option GoString
  | .Get k _ _ => some k
  | .QueryRowString (.selectValue _ _ k) _ => some k
  | .QueryRowString (.selectValueUnquoted _ _ k) _ => some k
  | _ => none

/-- The Go `error` a call returned, if it returned one. -/
def Call.err? : Call → Option GoError
  | .NewClient _ _ _ _ e => e
  | .Put _ _ e => e
  | .Get _ _ e => e
  | .Scan _ _ _ _ _ e => e
  | .Delete _ e => e
  | .Close e => e
  | .ReadFile _ (.error e) => some e
  | .X509KeyPair _ _ e => e
  | .SqlOpen _ e => e
  | .PingContext e => e
  | .ExecContext _ e => e
  | .QueryRowString _ (.error e) => some e
  | .QueryRowInt _ (.error e) => some e
  | .QueryContext _ (.error e) => some e
  | .EsNewClient _ _ _ e => e
  | .EsDo _ (.error e) => some e
  | _ => none

/-- The value a read returned without error: a non-nil slice (TiKV), a non-empty
string (SQL). -/
def Call.value? : Call → Option GoString
  | .Get _ (some v) none => some v
  | .QueryRowString _ (.ok v) => if v = [] then none else some v
  | _ => none

/-- The arguments of a printed line. -/
def Ev.args : Ev → List Arg
  | .printf _ a => a
  | .logf _ a => a
  | .fatalf _ a => a
  | .call _ _ => []

/-- The three seed writes, in order: full key and initial value. -/
def seedWrites (pfx : GoString) : List (GoString × GoString) :=
  [(fullKey pfx (lit "1"), lit "Initial value for test key 1"),
   (fullKey pfx (lit "2"), lit "Initial value for test key 2"),
   (fullKey pfx (lit "3"), lit "Initial value for test key 3")]

/-- A seed write that returned an error. -/
def seedFailed (s : Site) (c : Call) : Bool := s == .seedInsert && c.err?.isSome

/-- The line logged for a failed seed write: the full key and the error. -/
def seedLogged (_ : Site) (c : Call) (l : Ev) : Bool :=
  match c.write?, c.err? with
  | some (k, _), some e => l == Ev.logf "❌ Insert key %s error: %v" [.s k, .v e]
  | _, _ => false

/-- The seed-insert property of a trace `t` of the steps under prefix `pfx`: the
calls at the seed-insert site are exactly the three seed writes, once each and in
order; a seed write that returned an error is directly followed by its log line;
and the calls of the later steps that do not depend on a record are each issued
once: the update write, the scan and the final read. -/
def SeedInsertProperty (pfx : GoString) (t : List Ev) : Prop :=
  (callsAt .seedInsert t).map Call.write? = (seedWrites pfx).map some
  ∧ (∀ pre c post, t = pre ++ Ev.call .seedInsert c :: post → ∀ e, c.err? = some e →
      ∃ k v post', c.write? = some (k, v)
        ∧ post = Ev.logf "❌ Insert key %s error: %v" [.s k, .v e] :: post')
  ∧ (callsAt .update t).length = 1
  ∧ (callsAt .scan t).length = 1
  ∧ (callsAt .finalCheck t).length = 1

/-- The read-back property of a trace `t`: the keys read at the read-back site are,
in order, the keys of the seed writes that returned no error. -/
def ReadBackProperty (t : List Ev) : Prop :=
  (callsAt .readBack t).map Call.readKey?
    = ((callsAt .seedInsert t).filter (fun c => c.err?.isNone)).map
        (fun c => c.write?.map Prod.fst)

/-- The reads that verify a record: the read-back gets and the get after the update. -/
def isVerifyingRead (s : Site) (_ : Call) : Bool := s == .readBack || s == .updateVerify

/-- What the scripts print after a verifying read: when the read returned a value
without error, a success line that carries the value read; otherwise a failure line. -/
def readReported (_ : Site) (c : Call) (l : Ev) : Bool :=
  match c.value? with
  | some v => l.isSuccess && !l.isFailure && l.args.contains (.s v)
  | none => l.isFailure && !l.isSuccess

/-- The read-report property of a trace: every verifying read is directly followed
by a line, a success line carrying the value read exactly when the read returned a
value without error, and a failure line otherwise.  The value is not compared with
the value written. -/
def ReadReportProperty (t : List Ev) : Prop :=
  ∀ pre site c post, t = pre ++ Ev.call site c :: post → isVerifyingRead site c = true →
    ∃ l post', post = l :: post' ∧ readReported site c l = true

/-- A raw key-value backend on which every call succeeds and every read returns the
same value `stale`, whatever was written. -/
def staleKV : RawKVClient Unit where
  Put := fun _ _ s => (s, none)
  Get := fun _ s => (s, some (lit "stale"), none)
  Scan := fun _ _ _ s => (s, [], [], none)
  Delete := fun _ s => (s, none)
  Close := fun s => (s, none)

/-- Whether `a` is directly followed by `b` somewhere in the trace. -/
def adjacentIn (a b : Ev) : List Ev → Bool
  | [] => false
  | [_] => false
  | x :: y :: rest => (x == a && y == b) || adjacentIn a b (y :: rest)

/-- The calls whose error the TiKV script reports: every call that returned an error,
except the read that confirms the deletion. -/
def isReportedError (s : Site) (c : Call) : Bool := c.err?.isSome && s != .deleteVerify

/-- What the TiKV script prints after a call that returned an error: a failure line
and no success line; after the final read, nothing (the next line is neither). -/
def errorReported (s : Site) (_ : Call) (l : Ev) : Bool :=
  if s = .finalCheck then !l.isSuccess && !l.isFailure else l.isFailure && !l.isSuccess

/-- The error-report property of a trace of the TiKV steps: every call that returned
an error, other than the read that confirms the deletion, is directly followed by a
line that is not a success line; that line is a failure line, except after the final
read, whose error prints nothing. -/
def ErrorReportProperty (t : List Ev) : Prop :=
  ∀ pre site c post, t = pre ++ Ev.call site c :: post → c.err?.isSome = true →
    site ≠ .deleteVerify →
    ∃ l post', post = l :: post' ∧ l.isSuccess = false
      ∧ (l.isFailure = true ↔ site ≠ .finalCheck)

/-- A raw key-value backend whose state records whether a delete has happened: reads
return a value before the first delete and the error `timeout` after it; every
other call succeeds. -/
def flakyKV : RawKVClient Bool where
  Put := fun _ _ s => (s, none)
  Get := fun _ s => if s then (s, none, some (lit "timeout")) else (s, some (lit "value"), none)
  Scan := fun _ _ _ s => (s, [], [], none)
  Delete := fun _ _ => (true, none)
  Close := fun s => (s, none)

/-- The sites of the insert, read, update, scan and delete operations on records. -/
def dataSites : List Site :=
  [.seedInsert, .readBack, .update, .updateVerify, .scan, .deleteExists, .delete,
   .deleteVerify, .cleanup, .finalCheck]

/-- A namespace-setup call that failed: a statement that returned an error, a request
that returned an error or an error response. -/
def setupFailed : Call → Bool
  | .ExecContext _ (some _) => true
  | .EsDo _ (.error _) => true
  | .EsDo _ (.ok res) => res.IsError
  | _ => false

/-- The events of instance `i` in the trace of a whole function, in order. -/
def eventsOf (i : Nat) (t : List (Nat × Ev)) : List Ev :=
  (t.filter (fun e => e.1 == i)).map Prod.snd

/-- The namespace-setup step of instance `i` failed. -/
def setupFailedAt (i : Nat) (t : List (Nat × Ev)) : Bool :=
  (callsAt .namespaceSetup (eventsOf i t)).any setupFailed

/-- Instance `i` was run: its header line was printed and its connection attempted. -/
def instanceRun (i : Nat) (header : Ev) (t : List (Nat × Ev)) : Bool :=
  (eventsOf i t).contains header && !(callsAt .connect (eventsOf i t)).isEmpty

/-- The header line of instance `i` of `TestClickHouse`. -/
def chHeader (i : Nat) (c : ClickHouseConfig) : Ev :=
  Ev.printf "\n=== Testing ClickHouse %d: %s:%d ===\n" [.d (i + 1), .s c.Host, .d c.Port]

/-- The header line of instance `i` of `TestTiDB`. -/
def tidbHeader (i : Nat) (c : TiDBConfig) : Ev :=
  Ev.printf "\n=== Testing TiDB %d: %s:%d ===\n" [.d (i + 1), .s c.Host, .d c.Port]

/-- A `database/sql` handle on which the table creation of either SQL script fails and
every other call succeeds. -/
def failingSetupDB : SqlDB Unit where
  ExecContext := fun q s =>
    match q with
    | .createLocalTable _ _ => (s, some (lit "cluster not found"))
    | .createTable _ _ => (s, some (lit "access denied"))
    | _ => (s, none)
  QueryRowString := fun _ s => (s, .ok (lit "1.0"))
  QueryRowInt := fun _ s => (s, .ok 0)
  QueryContext := fun _ s => (s, .ok [])
  PingContext := fun s => (s, none)
  Close := fun s => (s, none)

/-- A ClickHouse world in which no file can be read and every instance gets
`failingSetupDB`. -/
def failingSetupCH : ClickHouseWorld Unit where
  ReadFile := fun _ s => (s, .error (lit "no such file or directory"))
  X509KeyPair := fun _ _ => none
  OpenDB := fun _ _ => failingSetupDB
  Now := fun _ => lit "2025-01-01T00:00:00Z"

/-- A ClickHouse instance without TLS. -/
def chPlain (host : String) : ClickHouseConfig :=
  { Host := lit host, Port := 9000, Username := lit "default", Password := [],
    Database := lit "devops", DBTableName := [], LocalTableName := [], TLS := false,
    SSLClientCRT := [], SSLClientKey := [], SSLCACRT := [] }

/-- A ClickHouse instance that requests TLS and names no certificate file. -/
def chTLSNoFiles (host : String) : ClickHouseConfig :=
  { chPlain host with TLS := true }

/-- A TiDB instance without TLS. -/
def tidbPlain (host : String) : TiDBConfig :=
  { Host := lit host, Port := 4000, Username := lit "root", Password := [],
    Database := lit "devops", TableName := [], SSLClientCRT := [], SSLClientKey := [],
    SSLCACRT := [], TLS := false }

/-- The success line of the search step of the Elasticsearch script. -/
def foundFormat : String := "✓ Found %d documents: %s\n"

/-- A search that returned a response that is not an error response. -/
def searchSucceeded (s : Site) (c : Call) : Bool :=
  s == .readBack && (match c with
    | .EsDo _ (.ok res) => !res.IsError
    | _ => false)

/-- The line the search step prints after such a search: the count 3 and the first
100 bytes of the response body followed by three dots. -/
def foundThree (_ : Site) (c : Call) (l : Ev) : Bool :=
  match c with
  | .EsDo _ (.ok res) =>
    l == Ev.printf foundFormat [.d 3, .s (res.Body.take (min 100 res.Body.length) ++ lit "...")]
  | _ => false

/-- The logical keys of the scripts: the three seed keys and the two scan bounds. -/
def logicalKeys : List GoString :=
  [lit "test_key_1", lit "test_key_2", lit "test_key_3", lit "test_key_", lit "test_key_z"]

/-- The keys a statement carries as arguments. -/
def Stmt.keys : Stmt → List GoString
  | .insert _ _ k _ => [k]
  | .insertOrUpdate _ _ k _ => [k]
  | .selectValue _ _ k => [k]
  | .selectValueUnquoted _ _ k => [k]
  | .alterUpdate _ _ _ k => [k]
  | .update _ _ _ k => [k]
  | .selectRange _ _ lo hi => [lo, hi]
  | .countKey _ _ k => [k]
  | .alterDelete _ _ k => [k]
  | _ => []

/-- The database and the table a statement names (for the distributed table, the
table it is created from). -/
def Stmt.table? : Stmt → Option (GoString × GoString)
  | .selectVersion => none
  | .createLocalTable db tbl => some (db, tbl)
  | .createDistTable db _ tbl => some (db, tbl)
  | .createTable db tbl => some (db, tbl)
  | .insert db tbl _ _ => some (db, tbl)
  | .insertOrUpdate db tbl _ _ => some (db, tbl)
  | .selectValue db tbl _ => some (db, tbl)
  | .selectValueUnquoted db tbl _ => some (db, tbl)
  | .alterUpdate db tbl _ _ => some (db, tbl)
  | .update db tbl _ _ => some (db, tbl)
  | .selectRange db tbl _ _ => some (db, tbl)
  | .countKey db tbl _ => some (db, tbl)
  | .alterDelete db tbl _ => some (db, tbl)

/-- The statement of a `database/sql` call. -/
def Call.stmt? : Call → Option Stmt
  | .ExecContext q _ => some q
  | .QueryRowString q _ => some q
  | .QueryRowInt q _ => some q
  | .QueryContext q _ => some q
  | _ => none

/-- The keys a call sends to the backend. -/
def Call.keys : Call → List GoString
  | .Put k _ _ => [k]
  | .Get k _ _ => [k]
  | .Scan lo hi _ _ _ _ => [lo, hi]
  | .Delete k _ => [k]
  | .ExecContext q _ => q.keys
  | .QueryRowString q _ => q.keys
  | .QueryRowInt q _ => q.keys
  | .QueryContext q _ => q.keys
  | _ => []

/-- The keys sent to the backend by the calls of a trace, in order. -/
def keysSent : List Ev → List GoString
  | [] => []
  | .call _ c :: rest => c.keys ++ keysSent rest
  | _ :: rest => keysSent rest

/-- The statements issued by the calls of a trace, in order. -/
def stmtsIssued : List Ev → List Stmt
  | [] => []
  | .call _ c :: rest =>
    (match c.stmt? with
     | some q => [q]
     | none => []) ++ stmtsIssued rest
  | _ :: rest => stmtsIssued rest

/-- The requests of a trace are well-formed for the prefix `pfx`, the database `db`
and the table `tbl`: every key sent is `pfx` followed by a logical key, and every
statement that names a table names `db` and `tbl`. -/
def RequestsOK (pfx db tbl : GoString) (t : List Ev) : Prop :=
  (∀ key ∈ keysSent t, ∃ k ∈ logicalKeys, key = addPrefix pfx k)
  ∧ (∀ q ∈ stmtsIssued t, ∀ x, q.table? = some x → x = (db, tbl))

/-- The items of the insert loop hold no key or a seed key. -/
def ItemsOK (items : List TestKeyValue) : Prop :=
  ∀ it ∈ items, it.Key = [] ∨ it.Key ∈ logicalKeys
/-- The key `key` is the prefix `pfx` followed by a logical key, and it is no other
prefix followed by a logical key. -/
def OwnKey (pfx key : GoString) : Prop :=
  (∃ k ∈ logicalKeys, key = pfx ++ k)
  ∧ (∀ q k, k ∈ logicalKeys → key = q ++ k → q = pfx)

/-- A TiKV world whose every client is the reference store. -/
def storeTiKV : TiKVWorld Store where
  NewClient := fun _ _ _ _ s => (s, .ok storeKV)
  Now := fun _ => lit "2025-01-01T00:00:00Z"

/-- A TiKV instance without certificate files. -/
def tikvPlain (host pfx : String) : TiKVConfig :=
  { Host := lit host, Port := 2379, SSLClientCRT := [], SSLClientKey := [], SSLCACRT := [],
    Prefix := lit pfx }

/-- A ClickHouse world in which no file can be read and every handle is the reference
store. -/
def storeCH : ClickHouseWorld Store where
  ReadFile := fun _ s => (s, .error (lit "no such file or directory"))
  X509KeyPair := fun _ _ => none
  OpenDB := fun _ _ => storeSQL
  Now := fun _ => lit "2025-01-01T00:00:00Z"

/-- A TiDB world in which no file can be read and every handle is the reference
store. -/
def storeTiDB : TiDBWorld Store where
  ReadFile := fun _ s => (s, .error (lit "no such file or directory"))
  X509KeyPair := fun _ _ => none
  RegisterTLSConfig := fun _ s => s
  SqlOpen := fun _ s => (s, .ok storeSQL)
  Now := fun _ => lit "2025-01-01T00:00:00Z"

/-- What an event does to the sessions: `some true` when a connection is opened (a
client or handle is returned), `some false` when one is closed. -/
def sessionChange : Ev → Option Bool
  | .call .connect (.NewClient _ _ _ _ none) => some true
  | .call .connect (.OpenDB _ _) => some true
  | .call .connect (.SqlOpen _ none) => some true
  | .call _ (.Close _) => some false
  | _ => none

/-- The openings (`true`) and closings (`false`) of sessions in a trace, in order,
each with the number of its instance. -/
def sessions : List (Nat × Ev) → List (Nat × Bool)
  | [] => []
  | (i, e) :: rest =>
    match sessionChange e with
    | some b => (i, b) :: sessions rest
    | none => sessions rest

/-- The largest number of sessions open at one time, from `cur` open sessions on. -/
def maxOpenFrom : Nat → List (Nat × Bool) → Nat
  | cur, [] => cur
  | cur, (_, true) :: rest => max cur (maxOpenFrom (cur + 1) rest)
  | cur, (_, false) :: rest => max cur (maxOpenFrom (cur - 1) rest)

/-- The largest number of sessions open at one time during a trace. -/
def maxOpen (t : List (Nat × Ev)) : Nat := maxOpenFrom 0 (sessions t)
/-- A call that loads TLS material and fails: a file that cannot be read, a
certificate and key that do not parse. -/
def tlsLoadFailed : Call → Bool
  | .ReadFile _ (.error _) => true
  | .X509KeyPair _ _ (some _) => true
  | _ => false

/-- Loading the TLS material of instance `i` failed. -/
def tlsFailedAt (i : Nat) (t : List (Nat × Ev)) : Bool :=
  (callsAt .tlsLoad (eventsOf i t)).any tlsLoadFailed

/-- A ClickHouse instance that requests TLS and leaves the path of its certificate,
of its key or of its CA empty. -/
def pathMissing (c : ClickHouseConfig) : Bool :=
  c.TLS && (c.SSLClientCRT == [] || c.SSLClientKey == [] || c.SSLCACRT == [])

/-- A ClickHouse instance that requests TLS and names three files. -/
def chTLS (host : String) : ClickHouseConfig :=
  { chPlain host with
    TLS := true, SSLClientCRT := lit "/certs/client.crt",
    SSLClientKey := lit "/certs/client.key", SSLCACRT := lit "/certs/ca.crt" }

/-- A TiDB instance that requests TLS and names three files. -/
def tidbTLS (host : String) : TiDBConfig :=
  { tidbPlain host with
    TLS := true, SSLClientCRT := lit "/certs/client.crt",
    SSLClientKey := lit "/certs/client.key", SSLCACRT := lit "/certs/ca.crt" }

/-- A call of `getClient` whose error makes `getClient` return an error: creating the
client, opening the handle, the ping. -/
def connectFailed : Call → Bool
  | .NewClient _ _ _ _ (some _) => true
  | .SqlOpen _ (some _) => true
  | .PingContext (some _) => true
  | .EsNewClient _ _ _ (some _) => true
  | _ => false

/-- In a trace, creating the client, opening the handle or the ping failed. -/
def connFailedIn (t : List Ev) : Bool :=
  (callsAt .connect t).any connectFailed || (callsAt .connectProbe t).any connectFailed

/-- An Elasticsearch client whose every request gets the response `200 OK`. -/
def okES : EsClient Store where
  Do := fun _ s => (s, .ok ⟨false, lit "200 OK", []⟩)

/-- An Elasticsearch world in which no client can be created for the host `bad`. -/
def badHostES : ESWorld Store where
  NewClient := fun address _ _ s =>
    if address = lit "https://bad:9200" then (s, .error (lit "cannot create client"))
    else (s, .ok okES)
  Marshal := fun _ => .ok []
  Now := fun _ => lit "2025-01-01T00:00:00Z"

/-- The success line of the final verification. -/
def finalOkFormat : String := "✓ Final verification: key %s still exists with value %s\n"

/-- The success line of the scan step. -/
def scanOkFormat : String := "✓ Scan found %d keys in range\n"

/-- The store after the three seed writes under prefix `pfx`. -/
def seeded (pfx : GoString) : Store :=
  [(fullKey pfx (lit "1"), lit "Initial value for test key 1"),
   (fullKey pfx (lit "2"), lit "Initial value for test key 2"),
   (fullKey pfx (lit "3"), lit "Initial value for test key 3")]

/-- The store after the update step: `test_key_1` holds the updated value `u`. -/
def updated (pfx u : GoString) : Store :=
  [(fullKey pfx (lit "1"), u),
   (fullKey pfx (lit "2"), lit "Initial value for test key 2"),
   (fullKey pfx (lit "3"), lit "Initial value for test key 3")]

/-- The trace of the TiKV steps against the initially empty reference store, `u`
being the updated value. -/
def tikvRefTrace (pfx u : GoString) (i : Nat) : List Ev :=
  [Ev.printf "1. Creating test keys...\n" [],
   Ev.call .seedInsert (.Put (fullKey pfx (lit "1")) (lit "Initial value for test key 1") none),
   Ev.printf "✓ Key %s inserted with value: %s\n"
     [.s (lit "test_key_1"), .s (lit "Initial value for test key 1")],
   Ev.call .seedInsert (.Put (fullKey pfx (lit "2")) (lit "Initial value for test key 2") none),
   Ev.printf "✓ Key %s inserted with value: %s\n"
     [.s (lit "test_key_2"), .s (lit "Initial value for test key 2")],
   Ev.call .seedInsert (.Put (fullKey pfx (lit "3")) (lit "Initial value for test key 3") none),
   Ev.printf "✓ Key %s inserted with value: %s\n"
     [.s (lit "test_key_3"), .s (lit "Initial value for test key 3")],
   Ev.printf "2. Reading test keys...\n" [],
   Ev.call .readBack
     (.Get (fullKey pfx (lit "1")) (some (lit "Initial value for test key 1")) none),
   Ev.printf "✓ Key %s retrieved: %s\n"
     [.s (lit "test_key_1"), .s (lit "Initial value for test key 1")],
   Ev.call .readBack
     (.Get (fullKey pfx (lit "2")) (some (lit "Initial value for test key 2")) none),
   Ev.printf "✓ Key %s retrieved: %s\n"
     [.s (lit "test_key_2"), .s (lit "Initial value for test key 2")],
   Ev.call .readBack
     (.Get (fullKey pfx (lit "3")) (some (lit "Initial value for test key 3")) none),
   Ev.printf "✓ Key %s retrieved: %s\n"
     [.s (lit "test_key_3"), .s (lit "Initial value for test key 3")],
   Ev.printf "3. Updating test key...\n" [],
   Ev.call .update (.Put (fullKey pfx (lit "1")) u none),
   Ev.call .updateVerify (.Get (fullKey pfx (lit "1")) (some u) none),
   Ev.printf "✓ Key %s updated to: %s\n" [.s (lit "test_key_1"), .s u],
   Ev.printf "4. Scanning test keys...\n" [],
   Ev.call .scan (.Scan (scanStart pfx) (scanEnd pfx) 100
     [fullKey pfx (lit "1"), fullKey pfx (lit "2"), fullKey pfx (lit "3")]
     [u, lit "Initial value for test key 2", lit "Initial value for test key 3"] none),
   Ev.printf "✓ Scan found %d keys in range\n" [.d 3],
   Ev.printf "  - %s: %s\n" [.s (lit "test_key_1"), .s u],
   Ev.printf "  - %s: %s\n" [.s (lit "test_key_2"), .s (lit "Initial value for test key 2")],
   Ev.printf "  - %s: %s\n" [.s (lit "test_key_3"), .s (lit "Initial value for test key 3")],
   Ev.printf "5. Deleting test key...\n" [],
   Ev.call .deleteExists
     (.Get (fullKey pfx (lit "2")) (some (lit "Initial value for test key 2")) none),
   Ev.call .delete (.Delete (fullKey pfx (lit "2")) none),
   Ev.call .deleteVerify (.Get (fullKey pfx (lit "2")) none none),
   Ev.printf "✓ Key %s deleted successfully\n" [.s (lit "test_key_2")],
   Ev.printf "6. Cleaning up test keys...\n" [],
   Ev.call .cleanup (.Delete (fullKey pfx (lit "1")) none),
   Ev.call .cleanup (.Delete (fullKey pfx (lit "3")) none),
   Ev.call .finalCheck (.Get (fullKey pfx (lit "3")) none none),
   Ev.printf "✅ TiKV %d test completed\n" [.d (i + 1)]]

/-- The trace of steps 1 to 4 of a SQL script (ClickHouse with `ch`, else TiDB)
against the initially empty reference store, `u` being the updated value. -/
def sqlRefTrace14 (ch : Bool) (pfx db tbl u : GoString) : List Ev :=
  let ins (k v : GoString) : Stmt :=
    if ch then .insert db tbl (fullKey pfx k) v else .insertOrUpdate db tbl (fullKey pfx k) v
  [Ev.printf "1. Creating test keys...\n" [],
   Ev.call .seedInsert (.ExecContext (ins (lit "1") (lit "Initial value for test key 1")) none),
   Ev.printf "✓ Key %s inserted with value: %s\n"
     [.s (lit "test_key_1"), .s (lit "Initial value for test key 1")],
   Ev.call .seedInsert (.ExecContext (ins (lit "2") (lit "Initial value for test key 2")) none),
   Ev.printf "✓ Key %s inserted with value: %s\n"
     [.s (lit "test_key_2"), .s (lit "Initial value for test key 2")],
   Ev.call .seedInsert (.ExecContext (ins (lit "3") (lit "Initial value for test key 3")) none),
   Ev.printf "✓ Key %s inserted with value: %s\n"
     [.s (lit "test_key_3"), .s (lit "Initial value for test key 3")],
   Ev.printf "2. Reading test keys...\n" [],
   Ev.call .readBack (.QueryRowString (.selectValue db tbl (fullKey pfx (lit "1")))
     (.ok (lit "Initial value for test key 1"))),
   Ev.printf "✓ Key %s retrieved: %s\n"
     [.s (lit "test_key_1"), .s (lit "Initial value for test key 1")],
   Ev.call .readBack (.QueryRowString (.selectValue db tbl (fullKey pfx (lit "2")))
     (.ok (lit "Initial value for test key 2"))),
   Ev.printf "✓ Key %s retrieved: %s\n"
     [.s (lit "test_key_2"), .s (lit "Initial value for test key 2")],
   Ev.call .readBack (.QueryRowString (.selectValue db tbl (fullKey pfx (lit "3")))
     (.ok (lit "Initial value for test key 3"))),
   Ev.printf "✓ Key %s retrieved: %s\n"
     [.s (lit "test_key_3"), .s (lit "Initial value for test key 3")],
   Ev.printf "3. Updating test key...\n" [],
   Ev.call .update (.ExecContext
     (if ch then .alterUpdate db tbl u (fullKey pfx (lit "1"))
      else .update db tbl u (fullKey pfx (lit "1"))) none),
   Ev.call .updateVerify (.QueryRowString (.selectValue db tbl (fullKey pfx (lit "1"))) (.ok u)),
   Ev.printf "✓ Key %s updated to: %s\n" [.s (lit "test_key_1"), .s u],
   Ev.printf "4. Scanning test keys...\n" [],
   Ev.call .scan (.QueryContext (.selectRange db tbl (scanStart pfx) (scanEnd pfx))
     (.ok [.ok (fullKey pfx (lit "1"), u),
           .ok (fullKey pfx (lit "2"), lit "Initial value for test key 2"),
           .ok (fullKey pfx (lit "3"), lit "Initial value for test key 3")])),
   Ev.printf "  - %s: %s\n" [.s (lit "test_key_1"), .s u],
   Ev.printf "  - %s: %s\n" [.s (lit "test_key_2"), .s (lit "Initial value for test key 2")],
   Ev.printf "  - %s: %s\n" [.s (lit "test_key_3"), .s (lit "Initial value for test key 3")],
   Ev.printf "✓ Scan found %d keys in range\n" [.d 3]]

/-- The trace of the ClickHouse script body against the initially empty reference
store, `u` being the updated value. -/
def chRefTrace (pfx db tbl u : GoString) (i : Nat) : List Ev :=
  [Ev.printf "0. Creating table if not exists on cluster...\n" [],
   Ev.call .namespaceSetup (.ExecContext (.createLocalTable db tbl) none),
   Ev.printf "✓ Local table %s.%s ready\n" [.s db, .s tbl],
   Ev.printf "0. Creating distributed table...\n" [],
   Ev.printf "%s" [.q (.createDistTable db (tbl ++ lit "_dist") tbl)],
   Ev.call .namespaceSetup (.ExecContext (.createDistTable db (tbl ++ lit "_dist") tbl) none),
   Ev.printf "✓ Distributed table %s.%s ready\n" [.s db, .s (tbl ++ lit "_dist")]]
  ++ sqlRefTrace14 true pfx db tbl u
  ++ [Ev.printf "5. Deleting test key...\n" [],
   Ev.call .deleteExists (.QueryRowInt (.countKey db tbl (fullKey pfx (lit "2"))) (.ok 1)),
   Ev.call .delete (.ExecContext (.alterDelete db tbl (fullKey pfx (lit "2"))) none),
   Ev.call .deleteVerify (.QueryRowInt (.countKey db tbl (fullKey pfx (lit "2"))) (.ok 0)),
   Ev.printf "✓ Key %s deleted successfully\n" [.s (lit "test_key_2")],
   Ev.printf "6. Cleaning up test keys...\n" [],
   Ev.call .cleanup (.ExecContext (.alterDelete db tbl (fullKey pfx (lit "1"))) none),
   Ev.call .cleanup (.ExecContext (.alterDelete db tbl (fullKey pfx (lit "3"))) none),
   Ev.call .finalCheck (.QueryRowString (.selectValue db tbl (fullKey pfx (lit "3")))
     (.error (lit "sql: no rows in result set"))),
   Ev.printf "✅ ClickHouse %d test completed\n" [.d (i + 1)]]

/-- The trace of the TiDB script body against the initially empty reference store,
`u` being the updated value. -/
def tidbRefTrace (pfx db tbl u : GoString) (i : Nat) : List Ev :=
  [Ev.printf "0. Creating table if not exists...\n" [],
   Ev.printf "%s" [.q (.createTable db tbl)],
   Ev.call .namespaceSetup (.ExecContext (.createTable db tbl) none),
   Ev.printf "✓ Table %s.%s ready\n" [.s db, .s tbl]]
  ++ sqlRefTrace14 false pfx db tbl u
  ++ [Ev.call .finalCheck (.QueryRowString (.selectValueUnquoted db tbl (fullKey pfx (lit "3")))
     (.ok (lit "Initial value for test key 3"))),
   Ev.printf "✓ Final verification: key %s still exists with value %s\n"
     [.s (lit "test_key_3"), .s (lit "Initial value for test key 3")],
   Ev.printf "✅ TiDB %d test completed\n" [.d (i + 1)]]

/-! ## Lemmas on strings and on the reference store -/

theorem strLt_append_left (p a b : GoString) : strLt (p ++ a) (p ++ b) = strLt a b := by
  induction p with
  | nil => rfl
  | cons x p ih => simp [strLt, ih]

theorem HasPrefix_append (p k : GoString) : HasPrefix (p ++ k) p = true := by
  induction p with
  | nil => cases k <;> rfl
  | cons x p ih => simp [HasPrefix, ih]

theorem TrimPrefix_append (p k : GoString) : TrimPrefix (p ++ k) p = k := by
  simp [TrimPrefix, HasPrefix_append]

theorem inRange_append_left (p lo hi k : GoString) :
    inRange (p ++ lo) (p ++ hi) (p ++ k) = inRange lo hi k := by
  simp [inRange, strGe, strLt_append_left]

theorem updatedValue_ne_nil (now : GoString) : updatedValue now ≠ [] := by
  simp +decide [updatedValue, lit]

/-- A key at or above `x` and below `x ++ [z]` starts with `x`. -/
theorem hasPrefix_of_between (z : Nat) :
    ∀ (x k : GoString), strGe k x = true → strLt k (x ++ [z]) = true → HasPrefix k x = true
  | [], k, _, _ => by cases k <;> rfl
  | _ :: _, [], h, _ => by simp [strGe, strLt] at h
  | a :: x, c :: k, h1, h2 => by
    simp only [strGe, strLt, List.cons_append] at h1 h2
    by_cases hca : c < a
    · simp [hca] at h1
    · by_cases hac : a < c
      · simp [hca, hac] at h2
      · have hEq : c = a := by omega
        subst hEq
        simp only [hca, if_false, lt_self_iff_false] at h1 h2
        simpa [HasPrefix] using hasPrefix_of_between z x k (by simpa [strGe] using h1) h2

theorem exists_of_HasPrefix :
    ∀ (k x : GoString), HasPrefix k x = true → ∃ rest, k = x ++ rest
  | k, [], _ => ⟨k, rfl⟩
  | [], _ :: _, h => by simp [HasPrefix] at h
  | c :: k, a :: x, h => by
    by_cases hca : c = a
    · subst hca
      simp only [HasPrefix, if_true] at h
      obtain ⟨rest, hr⟩ := exists_of_HasPrefix k x h
      exact ⟨rest, by simp [hr]⟩
    · simp [HasPrefix, hca] at h

/-! ## The reference runs -/

/-- The run of the TiKV steps against the initially empty reference store. -/
theorem tikvSteps_reference (pfx : GoString) (now : Store → GoString) (i : Nat) :
    tikvSteps now storeKV pfx i []
      = ([], tikvRefTrace pfx (updatedValue (now (seeded pfx))) i) := by
  simp [tikvRefTrace, seeded, scanStart, scanEnd, fullKey, tikvSteps, tikvCreate, tikvRead,
    tikvUpdate, tikvScan, tikvDelete, tikvCleanup, tikvFinal, storeKV, Store.put, Store.get,
    Store.del, Store.scan, addPrefix, testKeys, testValues, strLt_append_left, baseKey, lit,
    inRange_append_left, removePrefix, TrimPrefix_append, strLt, Contains, HasPrefix, inRange,
    strGe]

/-- The run of the ClickHouse script body against the initially empty reference store. -/
theorem chBody_reference (pfx db tbl : GoString) (now : Store → GoString) (i : Nat) :
    chBody now storeSQL pfx db tbl i []
      = ([], chRefTrace pfx db tbl (updatedValue (now (seeded pfx))) i) := by
  simp [chRefTrace, sqlRefTrace14, seeded, scanStart, scanEnd, fullKey, chBody, chSteps,
    chCreate, chRead, chUpdate, chScan, chDelete, chCleanup, chFinal, storeSQL, Store.put,
    Store.get, Store.del, Store.scan, addPrefix, testKeys, testValues, strLt_append_left,
    baseKey, lit, inRange_append_left, removePrefix, TrimPrefix_append, sqlRows,
    updatedValue_ne_nil, strLt, Contains, HasPrefix, inRange, strGe]

/-- The run of the TiDB script body against the initially empty reference store. -/
theorem tidbBody_reference (pfx db tbl : GoString) (now : Store → GoString) (i : Nat) :
    tidbBody now storeSQL pfx db tbl i []
      = (updated pfx (updatedValue (now (seeded pfx))),
          tidbRefTrace pfx db tbl (updatedValue (now (seeded pfx))) i) := by
  simp [tidbRefTrace, sqlRefTrace14, seeded, updated, scanStart, scanEnd, fullKey, tidbBody,
    tidbSteps, tidbCreate, tidbRead, tidbUpdate, tidbScan, tidbFinal, storeSQL, Store.put,
    Store.get, Store.del, Store.scan, addPrefix, testKeys, testValues, strLt_append_left,
    baseKey, lit, inRange_append_left, removePrefix, TrimPrefix_append, sqlRows,
    updatedValue_ne_nil, strLt, Contains, HasPrefix, inRange, strGe]


/-! ## Lemmas on traces -/

theorem callsWithin_nil (S : List Site) : callsWithin S [] := by
  intro e he
  cases he

theorem callsWithin_cons (S : List Site) (e : Ev) (t : List Ev) :
    callsWithin S (e :: t) ↔ (∀ x, e.site? = some x → x ∈ S) ∧ callsWithin S t := by
  simp [callsWithin]

theorem callsWithin_append (S : List Site) (a b : List Ev) :
    callsWithin S (a ++ b) ↔ callsWithin S a ∧ callsWithin S b := by
  simp only [callsWithin, List.mem_append]
  constructor
  · intro h
    exact ⟨fun e he => h e (Or.inl he), fun e he => h e (Or.inr he)⟩
  · rintro ⟨h1, h2⟩ e (he | he)
    · exact h1 e he
    · exact h2 e he

theorem callsWithin_mono {S S' : List Site} {t : List Ev} (h : callsWithin S t)
    (hs : ∀ x ∈ S, x ∈ S') : callsWithin S' t :=
  fun e he x hx => hs x (h e he x hx)

theorem callsAt_append (x : Site) (a b : List Ev) :
    callsAt x (a ++ b) = callsAt x a ++ callsAt x b := by
  induction a with
  | nil => rfl
  | cons e a ih =>
    cases e with
    | call s c =>
      by_cases h : s = x
      · simp [callsAt, h, ih]
      · simp [callsAt, h, ih]
    | printf f args => simpa [callsAt] using ih
    | logf f args => simpa [callsAt] using ih
    | fatalf f args => simpa [callsAt] using ih

theorem callsAt_eq_nil {S : List Site} {t : List Ev} (h : callsWithin S t) {x : Site}
    (hx : x ∉ S) : callsAt x t = [] := by
  induction t with
  | nil => rfl
  | cons e t ih =>
    rw [callsWithin_cons] at h
    cases e with
    | call s c =>
      have hs : s ∈ S := h.1 s rfl
      have hne : s ≠ x := fun heq => hx (heq ▸ hs)
      simp [callsAt, hne, ih h.2]
    | printf f args => simpa [callsAt] using ih h.2
    | logf f args => simpa [callsAt] using ih h.2
    | fatalf f args => simpa [callsAt] using ih h.2

theorem tikvCreate_sites {σ : Type} (client : RawKVClient σ) (pfx : GoString) :
    ∀ (keys : List GoString) (j : Nat) (s : σ),
      callsWithin [.seedInsert] (tikvCreate client pfx j keys s).2.2
  | [], _, _ => callsWithin_nil _
  | key :: rest, j, s => by
    have ih := tikvCreate_sites client pfx rest (j + 1)
    simp only [tikvCreate]
    split <;> simp [callsWithin_cons, Ev.site?, ih]

theorem tikvRead_sites {σ : Type} (client : RawKVClient σ) (pfx : GoString) :
    ∀ (items : List TestKeyValue) (s : σ), callsWithin [.readBack] (tikvRead client pfx items s).2
  | [], _ => callsWithin_nil _
  | item :: rest, s => by
    have ih := tikvRead_sites client pfx rest
    simp only [tikvRead]
    split
    · exact ih s
    · split <;> simp [callsWithin_cons, Ev.site?, ih]

theorem tikvUpdate_sites {σ : Type} (client : RawKVClient σ) (pfx now : GoString) (s : σ) :
    callsWithin [.update, .updateVerify] (tikvUpdate client pfx now s).2 := by
  simp only [tikvUpdate]
  split
  · simp [callsWithin_cons, Ev.site?, callsWithin_nil]
  · split <;> simp [callsWithin_cons, Ev.site?, callsWithin_nil]

theorem tikvScan_sites {σ : Type} (client : RawKVClient σ) (pfx : GoString) (s : σ) :
    callsWithin [.scan] (tikvScan client pfx s).2 := by
  simp only [tikvScan]
  split
  · simp [callsWithin_cons, Ev.site?, callsWithin_nil]
  · rw [callsWithin_cons, callsWithin_cons]
    refine ⟨by simp [Ev.site?], by simp [Ev.site?], ?_⟩
    intro e he x hx
    rw [List.mem_map] at he
    obtain ⟨kv, -, rfl⟩ := he
    simp [Ev.site?] at hx

theorem tikvDelete_sites {σ : Type} (client : RawKVClient σ) (pfx : GoString) (s : σ) :
    callsWithin [.deleteExists, .delete, .deleteVerify] (tikvDelete client pfx s).2 := by
  simp only [tikvDelete]
  split
  · split
    · simp [callsWithin_cons, Ev.site?, callsWithin_nil]
    · split <;> simp [callsWithin_cons, Ev.site?, callsWithin_nil]
  · simp [callsWithin_cons, Ev.site?, callsWithin_nil]

theorem tikvCleanup_sites {σ : Type} (client : RawKVClient σ) (pfx : GoString) :
    ∀ (items : List TestKeyValue) (s : σ),
      callsWithin [.cleanup] (tikvCleanup client pfx items s).2
  | [], _ => callsWithin_nil _
  | item :: rest, s => by
    have ih := tikvCleanup_sites client pfx rest
    simp only [tikvCleanup]
    split
    · exact ih s
    · split
      · exact ih s
      · split <;> simp [callsWithin_cons, Ev.site?, ih]

theorem tikvFinal_sites {σ : Type} (client : RawKVClient σ) (pfx : GoString) (s : σ) :
    callsWithin [.finalCheck] (tikvFinal client pfx s).2 := by
  simp only [tikvFinal]
  split <;> simp [callsWithin_cons, Ev.site?, callsWithin_nil]

theorem tikvSteps_split {σ : Type} (now : σ → GoString) (client : RawKVClient σ)
    (pfx : GoString) (i : Nat) (s : σ) :
    ∃ (u : GoString) (s2 s3 s4 s5 s6 : σ),
      (tikvSteps now client pfx i s).2 =
        Ev.printf "1. Creating test keys...\n" [] :: (tikvCreate client pfx 0 testKeys s).2.2
        ++ Ev.printf "2. Reading test keys...\n" []
          :: (tikvRead client pfx (tikvCreate client pfx 0 testKeys s).2.1
                (tikvCreate client pfx 0 testKeys s).1).2
        ++ Ev.printf "3. Updating test key...\n" [] :: (tikvUpdate client pfx u s2).2
        ++ Ev.printf "4. Scanning test keys...\n" [] :: (tikvScan client pfx s3).2
        ++ Ev.printf "5. Deleting test key...\n" [] :: (tikvDelete client pfx s4).2
        ++ Ev.printf "6. Cleaning up test keys...\n" []
          :: (tikvCleanup client pfx (tikvCreate client pfx 0 testKeys s).2.1 s5).2
        ++ (tikvFinal client pfx s6).2
        ++ [Ev.printf "✅ TiKV %d test completed\n" [.d (i + 1)]] :=
  ⟨_, _, _, _, _, _, rfl⟩

theorem sqlRows_sites (S : List Site) (pfx : GoString) :
    ∀ rows : List (GoResult (GoString × GoString)), callsWithin S (sqlRows pfx rows).1
  | [] => callsWithin_nil _
  | .error _ :: _ => callsWithin_nil _
  | .ok (k, v) :: rest => by
    simp only [sqlRows, callsWithin_cons]
    exact ⟨by simp [Ev.site?], sqlRows_sites S pfx rest⟩

theorem chCreate_sites {σ : Type} (db : SqlDB σ) (pfx d tb : GoString) :
    ∀ (keys : List GoString) (j : Nat) (s : σ),
      callsWithin [.seedInsert] (chCreate db pfx d tb j keys s).2.2
  | [], _, _ => callsWithin_nil _
  | key :: rest, j, s => by
    have ih := chCreate_sites db pfx d tb rest (j + 1)
    simp only [chCreate]
    split <;> simp [callsWithin_cons, Ev.site?, ih]

theorem chRead_sites {σ : Type} (db : SqlDB σ) (pfx d tb : GoString) :
    ∀ (items : List TestKeyValue) (s : σ),
      callsWithin [.readBack] (chRead db pfx d tb items s).2
  | [], _ => callsWithin_nil _
  | item :: rest, s => by
    have ih := chRead_sites db pfx d tb rest
    simp only [chRead]
    repeat' split
    all_goals simp [callsWithin_cons, Ev.site?, ih]

theorem chUpdate_sites {σ : Type} (db : SqlDB σ) (pfx d tb now : GoString) (s : σ) :
    callsWithin [.update, .updateVerify] (chUpdate db pfx d tb now s).2 := by
  simp only [chUpdate]
  repeat' split
  all_goals simp [callsWithin_cons, Ev.site?, callsWithin_nil]

theorem chScan_sites {σ : Type} (db : SqlDB σ) (pfx d tb : GoString) (s : σ) :
    callsWithin [.scan] (chScan db pfx d tb s).2 := by
  simp only [chScan]
  split
  · simp [callsWithin_cons, Ev.site?, callsWithin_nil]
  · dsimp only
    rw [callsWithin_append, callsWithin_cons]
    exact ⟨⟨by simp [Ev.site?], sqlRows_sites _ _ _⟩,
      by simp [callsWithin_cons, Ev.site?, callsWithin_nil]⟩

theorem chDelete_sites {σ : Type} (db : SqlDB σ) (pfx d tb : GoString) (s : σ) :
    callsWithin [.deleteExists, .delete, .deleteVerify] (chDelete db pfx d tb s).2 := by
  simp only [chDelete]
  repeat' split
  all_goals simp [callsWithin_cons, Ev.site?, callsWithin_nil]

theorem chCleanup_sites {σ : Type} (db : SqlDB σ) (pfx d tb : GoString) :
    ∀ (items : List TestKeyValue) (s : σ),
      callsWithin [.cleanup] (chCleanup db pfx d tb items s).2
  | [], _ => callsWithin_nil _
  | item :: rest, s => by
    have ih := chCleanup_sites db pfx d tb rest
    simp only [chCleanup]
    repeat' split
    all_goals simp [callsWithin_cons, Ev.site?, ih]

theorem chFinal_sites {σ : Type} (db : SqlDB σ) (pfx d tb : GoString) (s : σ) :
    callsWithin [.finalCheck] (chFinal db pfx d tb s).2 := by
  simp only [chFinal]
  repeat' split
  all_goals simp [callsWithin_cons, Ev.site?, callsWithin_nil]

theorem chSteps_split {σ : Type} (now : σ → GoString) (db : SqlDB σ)
    (pfx d tb : GoString) (i : Nat) (s : σ) :
    ∃ (u : GoString) (s2 s3 s4 s5 s6 : σ),
      (chSteps now db pfx d tb i s).2 =
        Ev.printf "1. Creating test keys...\n" [] :: (chCreate db pfx d tb 0 testKeys s).2.2
        ++ Ev.printf "2. Reading test keys...\n" []
          :: (chRead db pfx d tb (chCreate db pfx d tb 0 testKeys s).2.1
                (chCreate db pfx d tb 0 testKeys s).1).2
        ++ Ev.printf "3. Updating test key...\n" [] :: (chUpdate db pfx d tb u s2).2
        ++ Ev.printf "4. Scanning test keys...\n" [] :: (chScan db pfx d tb s3).2
        ++ Ev.printf "5. Deleting test key...\n" [] :: (chDelete db pfx d tb s4).2
        ++ Ev.printf "6. Cleaning up test keys...\n" []
          :: (chCleanup db pfx d tb (chCreate db pfx d tb 0 testKeys s).2.1 s5).2
        ++ (chFinal db pfx d tb s6).2
        ++ [Ev.printf "✅ ClickHouse %d test completed\n" [.d (i + 1)]] :=
  ⟨_, _, _, _, _, _, rfl⟩

theorem tidbCreate_sites {σ : Type} (db : SqlDB σ) (pfx d tb : GoString) :
    ∀ (keys : List GoString) (j : Nat) (s : σ),
      callsWithin [.seedInsert] (tidbCreate db pfx d tb j keys s).2.2
  | [], _, _ => callsWithin_nil _
  | key :: rest, j, s => by
    have ih := tidbCreate_sites db pfx d tb rest (j + 1)
    simp only [tidbCreate]
    split <;> simp [callsWithin_cons, Ev.site?, ih]

theorem tidbRead_sites {σ : Type} (db : SqlDB σ) (pfx d tb : GoString) :
    ∀ (items : List TestKeyValue) (s : σ),
      callsWithin [.readBack] (tidbRead db pfx d tb items s).2
  | [], _ => callsWithin_nil _
  | item :: rest, s => by
    have ih := tidbRead_sites db pfx d tb rest
    simp only [tidbRead]
    repeat' split
    all_goals simp [callsWithin_cons, Ev.site?, ih]

theorem tidbUpdate_sites {σ : Type} (db : SqlDB σ) (pfx d tb now : GoString) (s : σ) :
    callsWithin [.update, .updateVerify] (tidbUpdate db pfx d tb now s).2 := by
  simp only [tidbUpdate]
  repeat' split
  all_goals simp [callsWithin_cons, Ev.site?, callsWithin_nil]

theorem tidbScan_sites {σ : Type} (db : SqlDB σ) (pfx d tb : GoString) (s : σ) :
    callsWithin [.scan] (tidbScan db pfx d tb s).2 := by
  simp only [tidbScan]
  split
  · simp [callsWithin_cons, Ev.site?, callsWithin_nil]
  · dsimp only
    rw [callsWithin_append, callsWithin_cons]
    exact ⟨⟨by simp [Ev.site?], sqlRows_sites _ _ _⟩,
      by simp [callsWithin_cons, Ev.site?, callsWithin_nil]⟩

theorem tidbFinal_sites {σ : Type} (db : SqlDB σ) (pfx d tb : GoString) (s : σ) :
    callsWithin [.finalCheck] (tidbFinal db pfx d tb s).2 := by
  simp only [tidbFinal]
  repeat' split
  all_goals simp [callsWithin_cons, Ev.site?, callsWithin_nil]

theorem tidbSteps_split {σ : Type} (now : σ → GoString) (db : SqlDB σ)
    (pfx d tb : GoString) (i : Nat) (s : σ) :
    ∃ (u : GoString) (s2 s3 s4 : σ),
      (tidbSteps now db pfx d tb i s).2 =
        Ev.printf "1. Creating test keys...\n" [] :: (tidbCreate db pfx d tb 0 testKeys s).2.2
        ++ Ev.printf "2. Reading test keys...\n" []
          :: (tidbRead db pfx d tb (tidbCreate db pfx d tb 0 testKeys s).2.1
                (tidbCreate db pfx d tb 0 testKeys s).1).2
        ++ Ev.printf "3. Updating test key...\n" [] :: (tidbUpdate db pfx d tb u s2).2
        ++ Ev.printf "4. Scanning test keys...\n" [] :: (tidbScan db pfx d tb s3).2
        ++ (tidbFinal db pfx d tb s4).2
        ++ [Ev.printf "✅ TiDB %d test completed\n" [.d (i + 1)]] :=
  ⟨_, _, _, _, rfl⟩

theorem checkNext_append (rel : Site → Call → Bool) (good : Site → Call → Ev → Bool) :
    ∀ (a b : List Ev), checkNext rel good a = true → checkNext rel good b = true →
      checkNext rel good (a ++ b) = true
  | [], _, _, h2 => h2
  | .printf _ _ :: a, b, h1, h2 => by
    simpa [checkNext] using checkNext_append rel good a b (by simpa [checkNext] using h1) h2
  | .logf _ _ :: a, b, h1, h2 => by
    simpa [checkNext] using checkNext_append rel good a b (by simpa [checkNext] using h1) h2
  | .fatalf _ _ :: a, b, h1, h2 => by
    simpa [checkNext] using checkNext_append rel good a b (by simpa [checkNext] using h1) h2
  | .call s c :: [], b, h1, h2 => by
    simp only [checkNext, Bool.or_false, Bool.and_true, Bool.not_eq_true'] at h1
    cases b with
    | nil => simp [checkNext, h1]
    | cons l b => simp only [List.singleton_append, checkNext, h1]; simpa [checkNext] using h2
  | .call s c :: l :: a, b, h1, h2 => by
    simp only [checkNext, Bool.and_eq_true] at h1
    have ih := checkNext_append rel good (l :: a) b h1.2 h2
    simp only [List.cons_append, checkNext, Bool.and_eq_true]
    exact ⟨h1.1, by simpa using ih⟩

theorem checkNext_of_sites (rel : Site → Call → Bool) (good : Site → Call → Ev → Bool)
    {S : List Site} (hS : ∀ s ∈ S, ∀ c, rel s c = false) :
    ∀ (t : List Ev), callsWithin S t → checkNext rel good t = true
  | [], _ => rfl
  | .printf _ _ :: t, h => by
    simpa [checkNext] using checkNext_of_sites rel good hS t ((callsWithin_cons _ _ _).1 h).2
  | .logf _ _ :: t, h => by
    simpa [checkNext] using checkNext_of_sites rel good hS t ((callsWithin_cons _ _ _).1 h).2
  | .fatalf _ _ :: t, h => by
    simpa [checkNext] using checkNext_of_sites rel good hS t ((callsWithin_cons _ _ _).1 h).2
  | .call s c :: t, h => by
    have h' := (callsWithin_cons _ _ _).1 h
    have hs : s ∈ S := h'.1 s rfl
    simp [checkNext, hS s hs c, checkNext_of_sites rel good hS t h'.2]

theorem checkNext_spec (rel : Site → Call → Bool) (good : Site → Call → Ev → Bool) :
    ∀ (pre : List Ev) (s : Site) (c : Call) (post : List Ev),
      checkNext rel good (pre ++ Ev.call s c :: post) = true → rel s c = true →
      ∃ l post', post = l :: post' ∧ good s c l = true
  | [], s, c, post, h, hr => by
    cases post with
    | nil => simp [checkNext, hr] at h
    | cons l post' =>
      simp only [List.nil_append, checkNext, hr, Bool.not_true, Bool.false_or,
        Bool.and_eq_true] at h
      exact ⟨l, post', rfl, h.1⟩
  | .printf _ _ :: pre, s, c, post, h, hr =>
    checkNext_spec rel good pre s c post (by simpa [checkNext] using h) hr
  | .logf _ _ :: pre, s, c, post, h, hr =>
    checkNext_spec rel good pre s c post (by simpa [checkNext] using h) hr
  | .fatalf _ _ :: pre, s, c, post, h, hr =>
    checkNext_spec rel good pre s c post (by simpa [checkNext] using h) hr
  | .call s' c' :: pre, s, c, post, h, hr => by
    simp only [List.cons_append, checkNext, Bool.and_eq_true] at h
    exact checkNext_spec rel good pre s c post h.2 hr

theorem callsAt_printf (x : Site) (f : String) (a : List Arg) (t : List Ev) :
    callsAt x (Ev.printf f a :: t) = callsAt x t := rfl

theorem callsAt_singleton_printf (x : Site) (f : String) (a : List Arg) :
    callsAt x [Ev.printf f a] = [] := rfl

theorem seedLogged_spec {c : Call} {l : Ev} {s : Site} (h : seedLogged s c l = true) :
    ∀ e, c.err? = some e → ∃ k v, c.write? = some (k, v)
      ∧ l = Ev.logf "❌ Insert key %s error: %v" [.s k, .v e] := by
  intro e he
  unfold seedLogged at h
  rw [he] at h
  cases hw : c.write? with
  | none => simp [hw] at h
  | some kv =>
    obtain ⟨k, v⟩ := kv
    simp only [hw, beq_iff_eq] at h
    exact ⟨k, v, rfl, h⟩

theorem seedInsertProperty_of {pfx : GoString} {t : List Ev}
    (h1 : (callsAt .seedInsert t).map Call.write? = (seedWrites pfx).map some)
    (h2 : checkNext seedFailed seedLogged t = true)
    (h3 : (callsAt .update t).length = 1) (h4 : (callsAt .scan t).length = 1)
    (h5 : (callsAt .finalCheck t).length = 1) : SeedInsertProperty pfx t := by
  refine ⟨h1, ?_, h3, h4, h5⟩
  intro pre c post ht e he
  rw [ht] at h2
  obtain ⟨l, post', hp, hg⟩ := checkNext_spec _ _ pre _ c post h2 (by simp [seedFailed, he])
  obtain ⟨k, v, hw, hl⟩ := seedLogged_spec hg e he
  exact ⟨k, v, post', hw, by rw [hp, hl]⟩

theorem tikvCreate_writes {σ : Type} (client : RawKVClient σ) (pfx : GoString) (s : σ) :
    (callsAt .seedInsert (tikvCreate client pfx 0 testKeys s).2.2).map Call.write?
      = (seedWrites pfx).map some := by
  simp only [testKeys, tikvCreate]
  repeat' split
  all_goals simp [callsAt, Call.write?, seedWrites, fullKey, testValues]

theorem tikvCreate_logged {σ : Type} (client : RawKVClient σ) (pfx : GoString) :
    ∀ (keys : List GoString) (j : Nat) (s : σ),
      checkNext seedFailed seedLogged (tikvCreate client pfx j keys s).2.2 = true
  | [], _, _ => rfl
  | key :: rest, j, s => by
    have ih := tikvCreate_logged client pfx rest (j + 1)
    simp only [tikvCreate]
    split <;> simp [checkNext, seedFailed, seedLogged, Call.err?, Call.write?, ih]

theorem tikvUpdate_calls {σ : Type} (client : RawKVClient σ) (pfx now : GoString) (s : σ) :
    (callsAt .update (tikvUpdate client pfx now s).2).length = 1 := by
  simp only [tikvUpdate]
  repeat' split
  all_goals simp [callsAt]

theorem tikvScan_calls {σ : Type} (client : RawKVClient σ) (pfx : GoString) (s : σ) :
    (callsAt .scan (tikvScan client pfx s).2).length = 1 := by
  simp only [tikvScan]
  split
  · simp [callsAt]
  · simp only [callsAt, if_true, List.length_cons, add_left_eq_self, List.length_eq_zero]
    exact callsAt_eq_nil (S := []) (fun e he x hx => by
      rw [List.mem_map] at he
      obtain ⟨kv, -, rfl⟩ := he
      simp [Ev.site?] at hx) (by simp)

theorem tikvFinal_calls {σ : Type} (client : RawKVClient σ) (pfx : GoString) (s : σ) :
    (callsAt .finalCheck (tikvFinal client pfx s).2).length = 1 := by
  simp only [tikvFinal]
  repeat' split
  all_goals simp [callsAt]

theorem callsAt_nil (x : Site) : callsAt x [] = [] := rfl

theorem checkNext_printf (rel : Site → Call → Bool) (good : Site → Call → Ev → Bool)
    (f : String) (a : List Arg) (t : List Ev) :
    checkNext rel good (Ev.printf f a :: t) = checkNext rel good t := rfl

theorem tikvCreate_callsAt {σ : Type} (client : RawKVClient σ) (pfx : GoString)
    (keys : List GoString) (j : Nat) (s : σ) {x : Site} (hx : x ≠ .seedInsert) :
    callsAt x (tikvCreate client pfx j keys s).2.2 = [] :=
  callsAt_eq_nil (tikvCreate_sites client pfx keys j s) (by simpa using hx)

theorem tikvRead_callsAt {σ : Type} (client : RawKVClient σ) (pfx : GoString)
    (items : List TestKeyValue) (s : σ) {x : Site} (hx : x ≠ .readBack) :
    callsAt x (tikvRead client pfx items s).2 = [] :=
  callsAt_eq_nil (tikvRead_sites client pfx items s) (by simpa using hx)

theorem tikvUpdate_callsAt {σ : Type} (client : RawKVClient σ) (pfx now : GoString) (s : σ)
    {x : Site} (h1 : x ≠ .update) (h2 : x ≠ .updateVerify) :
    callsAt x (tikvUpdate client pfx now s).2 = [] :=
  callsAt_eq_nil (tikvUpdate_sites client pfx now s) (by simp [h1, h2])

theorem tikvScan_callsAt {σ : Type} (client : RawKVClient σ) (pfx : GoString) (s : σ)
    {x : Site} (hx : x ≠ .scan) : callsAt x (tikvScan client pfx s).2 = [] :=
  callsAt_eq_nil (tikvScan_sites client pfx s) (by simpa using hx)

theorem tikvDelete_callsAt {σ : Type} (client : RawKVClient σ) (pfx : GoString) (s : σ)
    {x : Site} (h1 : x ≠ .deleteExists) (h2 : x ≠ .delete) (h3 : x ≠ .deleteVerify) :
    callsAt x (tikvDelete client pfx s).2 = [] :=
  callsAt_eq_nil (tikvDelete_sites client pfx s) (by simp [h1, h2, h3])

theorem tikvCleanup_callsAt {σ : Type} (client : RawKVClient σ) (pfx : GoString)
    (items : List TestKeyValue) (s : σ) {x : Site} (hx : x ≠ .cleanup) :
    callsAt x (tikvCleanup client pfx items s).2 = [] :=
  callsAt_eq_nil (tikvCleanup_sites client pfx items s) (by simpa using hx)

theorem tikvFinal_callsAt {σ : Type} (client : RawKVClient σ) (pfx : GoString) (s : σ)
    {x : Site} (hx : x ≠ .finalCheck) : callsAt x (tikvFinal client pfx s).2 = [] :=
  callsAt_eq_nil (tikvFinal_sites client pfx s) (by simpa using hx)

theorem seedFailed_of_sites {S : List Site} (h : .seedInsert ∉ S) :
    ∀ s ∈ S, ∀ c, seedFailed s c = false := by
  intro s hs c
  have : s ≠ .seedInsert := fun heq => h (heq ▸ hs)
  simp [seedFailed, this]

theorem tikvSteps_seedInsert {σ : Type} (now : σ → GoString) (client : RawKVClient σ)
    (pfx : GoString) (i : Nat) (s : σ) :
    SeedInsertProperty pfx (tikvSteps now client pfx i s).2 := by
  obtain ⟨u, s2, s3, s4, s5, s6, h⟩ := tikvSteps_split now client pfx i s
  rw [h]
  apply seedInsertProperty_of
  · simp [callsAt_append, callsAt_printf, callsAt_nil, tikvRead_callsAt, tikvUpdate_callsAt,
      tikvScan_callsAt, tikvDelete_callsAt, tikvCleanup_callsAt, tikvFinal_callsAt,
      tikvCreate_writes]
  · repeat' first
      | apply checkNext_append
      | rw [checkNext_printf]
    all_goals first
      | rfl
      | exact tikvCreate_logged client pfx _ _ _
      | exact checkNext_of_sites _ _ (seedFailed_of_sites (by decide)) _ (tikvRead_sites _ _ _ _)
      | exact checkNext_of_sites _ _ (seedFailed_of_sites (by decide)) _
          (tikvUpdate_sites _ _ _ _)
      | exact checkNext_of_sites _ _ (seedFailed_of_sites (by decide)) _ (tikvScan_sites _ _ _)
      | exact checkNext_of_sites _ _ (seedFailed_of_sites (by decide)) _ (tikvDelete_sites _ _ _)
      | exact checkNext_of_sites _ _ (seedFailed_of_sites (by decide)) _
          (tikvCleanup_sites _ _ _ _)
      | exact checkNext_of_sites _ _ (seedFailed_of_sites (by decide)) _ (tikvFinal_sites _ _ _)
  · simp [callsAt_append, callsAt_printf, callsAt_nil, tikvCreate_callsAt, tikvRead_callsAt,
      tikvScan_callsAt, tikvDelete_callsAt, tikvCleanup_callsAt, tikvFinal_callsAt,
      tikvUpdate_calls]
  · simp [callsAt_append, callsAt_printf, callsAt_nil, tikvCreate_callsAt, tikvRead_callsAt,
      tikvUpdate_callsAt, tikvDelete_callsAt, tikvCleanup_callsAt, tikvFinal_callsAt,
      tikvScan_calls]
  · simp [callsAt_append, callsAt_printf, callsAt_nil, tikvCreate_callsAt, tikvRead_callsAt,
      tikvUpdate_callsAt, tikvScan_callsAt, tikvDelete_callsAt, tikvCleanup_callsAt,
      tikvFinal_calls]

theorem err_Put (k v : GoString) (e : Option GoError) : (Call.Put k v e).err? = e := rfl

theorem err_Exec (q : Stmt) (e : Option GoError) : (Call.ExecContext q e).err? = e := rfl

theorem write_Put (k v : GoString) (e : Option GoError) :
    (Call.Put k v e).write? = some (k, v) := rfl

theorem write_insert (d tb k v : GoString) (e : Option GoError) :
    (Call.ExecContext (.insert d tb k v) e).write? = some (k, v) := rfl

theorem write_insertOrUpdate (d tb k v : GoString) (e : Option GoError) :
    (Call.ExecContext (.insertOrUpdate d tb k v) e).write? = some (k, v) := rfl

theorem readKey_Get (k : GoString) (v : Option GoString) (e : Option GoError) :
    (Call.Get k v e).readKey? = some k := rfl

theorem readKey_selectValue (d tb k : GoString) (r : GoResult GoString) :
    (Call.QueryRowString (.selectValue d tb k) r).readKey? = some k := rfl

theorem baseKey_ne_nil : baseKey ≠ [] := by
  simp [baseKey, lit]

theorem tikvCreate_items {σ : Type} (client : RawKVClient σ) (pfx : GoString) :
    ∀ (keys : List GoString) (j : Nat) (s : σ),
      ((callsAt .seedInsert (tikvCreate client pfx j keys s).2.2).filter
          (fun c => c.err?.isNone)).map (fun c => c.write?.map Prod.fst)
        = ((tikvCreate client pfx j keys s).2.1.filter (fun it => decide (it.Key ≠ []))).map
            (fun it => some (addPrefix pfx it.Key))
  | [], _, _ => rfl
  | key :: rest, j, s => by
    have ih := tikvCreate_items client pfx rest (j + 1)
    simp only [tikvCreate]
    split <;> simp [callsAt, err_Put, write_Put, ih, baseKey_ne_nil]

theorem tikvRead_reads {σ : Type} (client : RawKVClient σ) (pfx : GoString) :
    ∀ (items : List TestKeyValue) (s : σ),
      (callsAt .readBack (tikvRead client pfx items s).2).map Call.readKey?
        = (items.filter (fun it => decide (it.Key ≠ []))).map
            (fun it => some (addPrefix pfx it.Key))
  | [], _ => rfl
  | item :: rest, s => by
    have ih := tikvRead_reads client pfx rest
    simp only [tikvRead]
    split
    · rename_i h
      simp [h, ih]
    · rename_i h
      split <;> simp [callsAt, readKey_Get, ih, h]

theorem tikvSteps_readBack {σ : Type} (now : σ → GoString) (client : RawKVClient σ)
    (pfx : GoString) (i : Nat) (s : σ) :
    ReadBackProperty (tikvSteps now client pfx i s).2 := by
  obtain ⟨u, s2, s3, s4, s5, s6, h⟩ := tikvSteps_split now client pfx i s
  rw [h]
  simp [ReadBackProperty, callsAt_append, callsAt_printf, callsAt_nil, tikvCreate_callsAt,
    tikvRead_callsAt, tikvUpdate_callsAt, tikvScan_callsAt, tikvDelete_callsAt,
    tikvCleanup_callsAt, tikvFinal_callsAt, tikvCreate_items, tikvRead_reads]

theorem chCreate_callsAt {σ : Type} (db : SqlDB σ) (pfx d tb : GoString)
    (keys : List GoString) (j : Nat) (s : σ) {x : Site} (hx : x ≠ .seedInsert) :
    callsAt x (chCreate db pfx d tb j keys s).2.2 = [] :=
  callsAt_eq_nil (chCreate_sites db pfx d tb keys j s) (by simpa using hx)

theorem chRead_callsAt {σ : Type} (db : SqlDB σ) (pfx d tb : GoString)
    (items : List TestKeyValue) (s : σ) {x : Site} (hx : x ≠ .readBack) :
    callsAt x (chRead db pfx d tb items s).2 = [] :=
  callsAt_eq_nil (chRead_sites db pfx d tb items s) (by simpa using hx)

theorem chUpdate_callsAt {σ : Type} (db : SqlDB σ) (pfx d tb : GoString) (now : GoString) (s : σ)
    {x : Site} (h1 : x ≠ .update) (h2 : x ≠ .updateVerify) :
    callsAt x (chUpdate db pfx d tb now s).2 = [] :=
  callsAt_eq_nil (chUpdate_sites db pfx d tb now s) (by simp [h1, h2])

theorem chScan_callsAt {σ : Type} (db : SqlDB σ) (pfx d tb : GoString) (s : σ)
    {x : Site} (hx : x ≠ .scan) : callsAt x (chScan db pfx d tb s).2 = [] :=
  callsAt_eq_nil (chScan_sites db pfx d tb s) (by simpa using hx)

theorem chFinal_callsAt {σ : Type} (db : SqlDB σ) (pfx d tb : GoString) (s : σ)
    {x : Site} (hx : x ≠ .finalCheck) : callsAt x (chFinal db pfx d tb s).2 = [] :=
  callsAt_eq_nil (chFinal_sites db pfx d tb s) (by simpa using hx)

theorem chDelete_callsAt {σ : Type} (db : SqlDB σ) (pfx d tb : GoString) (s : σ)
    {x : Site} (h1 : x ≠ .deleteExists) (h2 : x ≠ .delete) (h3 : x ≠ .deleteVerify) :
    callsAt x (chDelete db pfx d tb s).2 = [] :=
  callsAt_eq_nil (chDelete_sites db pfx d tb s) (by simp [h1, h2, h3])

theorem chCleanup_callsAt {σ : Type} (db : SqlDB σ) (pfx d tb : GoString)
    (items : List TestKeyValue) (s : σ) {x : Site} (hx : x ≠ .cleanup) :
    callsAt x (chCleanup db pfx d tb items s).2 = [] :=
  callsAt_eq_nil (chCleanup_sites db pfx d tb items s) (by simpa using hx)

theorem chCreate_writes {σ : Type} (db : SqlDB σ) (pfx d tb : GoString) (s : σ) :
    (callsAt .seedInsert (chCreate db pfx d tb 0 testKeys s).2.2).map Call.write?
      = (seedWrites pfx).map some := by
  simp only [testKeys, chCreate]
  repeat' split
  all_goals simp [callsAt, write_insert, write_insertOrUpdate, seedWrites, fullKey, testValues]

theorem chCreate_logged {σ : Type} (db : SqlDB σ) (pfx d tb : GoString) :
    ∀ (keys : List GoString) (j : Nat) (s : σ),
      checkNext seedFailed seedLogged (chCreate db pfx d tb j keys s).2.2 = true
  | [], _, _ => rfl
  | key :: rest, j, s => by
    have ih := chCreate_logged db pfx d tb rest (j + 1)
    simp only [chCreate]
    split <;> simp [checkNext, seedFailed, seedLogged, err_Exec, write_insert,
      write_insertOrUpdate, ih]

theorem chUpdate_calls {σ : Type} (db : SqlDB σ) (pfx d tb : GoString) (now : GoString) (s : σ) :
    (callsAt .update (chUpdate db pfx d tb now s).2).length = 1 := by
  simp only [chUpdate]
  repeat' split
  all_goals simp [callsAt]

theorem chScan_calls {σ : Type} (db : SqlDB σ) (pfx d tb : GoString) (s : σ) :
    (callsAt .scan (chScan db pfx d tb s).2).length = 1 := by
  simp only [chScan]
  split
  · simp [callsAt]
  · simp [callsAt, callsAt_append, callsAt_eq_nil (sqlRows_sites [] pfx _)]

theorem chFinal_calls {σ : Type} (db : SqlDB σ) (pfx d tb : GoString) (s : σ) :
    (callsAt .finalCheck (chFinal db pfx d tb s).2).length = 1 := by
  simp only [chFinal]
  repeat' split
  all_goals simp [callsAt]

theorem chCreate_items {σ : Type} (db : SqlDB σ) (pfx d tb : GoString) :
    ∀ (keys : List GoString) (j : Nat) (s : σ),
      ((callsAt .seedInsert (chCreate db pfx d tb j keys s).2.2).filter
          (fun c => c.err?.isNone)).map (fun c => c.write?.map Prod.fst)
        = ((chCreate db pfx d tb j keys s).2.1.filter (fun it => decide (it.Key ≠ []))).map
            (fun it => some (addPrefix pfx it.Key))
  | [], _, _ => rfl
  | key :: rest, j, s => by
    have ih := chCreate_items db pfx d tb rest (j + 1)
    simp only [chCreate]
    split <;> simp [callsAt, err_Exec, write_insert, write_insertOrUpdate, ih, baseKey_ne_nil]

theorem chRead_reads {σ : Type} (db : SqlDB σ) (pfx d tb : GoString) :
    ∀ (items : List TestKeyValue) (s : σ),
      (callsAt .readBack (chRead db pfx d tb items s).2).map Call.readKey?
        = (items.filter (fun it => decide (it.Key ≠ []))).map
            (fun it => some (addPrefix pfx it.Key))
  | [], _ => rfl
  | item :: rest, s => by
    have ih := chRead_reads db pfx d tb rest
    simp only [chRead]
    split
    · rename_i h
      simp [h, ih]
    · rename_i h
      repeat' split
      all_goals simp [callsAt, readKey_selectValue, ih, h]

theorem chSteps_seedInsert {σ : Type} (now : σ → GoString) (db : SqlDB σ)
    (pfx d tb : GoString) (i : Nat) (s : σ) :
    SeedInsertProperty pfx (chSteps now db pfx d tb i s).2 := by
  obtain ⟨u, s2, s3, s4, s5, s6, h⟩ := chSteps_split now db pfx d tb i s
  rw [h]
  apply seedInsertProperty_of
  · simp [callsAt_append, callsAt_printf, callsAt_nil, chRead_callsAt, chUpdate_callsAt,
      chScan_callsAt, chDelete_callsAt, chCleanup_callsAt, chFinal_callsAt, chCreate_writes]
  · repeat' first
      | apply checkNext_append
      | rw [checkNext_printf]
    all_goals first
      | rfl
      | exact chCreate_logged db pfx d tb _ _ _
      | exact checkNext_of_sites _ _ (seedFailed_of_sites (by decide)) _
          (chRead_sites _ _ _ _ _ _)
      | exact checkNext_of_sites _ _ (seedFailed_of_sites (by decide)) _
          (chUpdate_sites _ _ _ _ _ _)
      | exact checkNext_of_sites _ _ (seedFailed_of_sites (by decide)) _
          (chScan_sites _ _ _ _ _)
      | exact checkNext_of_sites _ _ (seedFailed_of_sites (by decide)) _
          (chDelete_sites _ _ _ _ _)
      | exact checkNext_of_sites _ _ (seedFailed_of_sites (by decide)) _
          (chCleanup_sites _ _ _ _ _ _)
      | exact checkNext_of_sites _ _ (seedFailed_of_sites (by decide)) _
          (chFinal_sites _ _ _ _ _)
  · simp [callsAt_append, callsAt_printf, callsAt_nil, chCreate_callsAt, chRead_callsAt,
      chScan_callsAt, chDelete_callsAt, chCleanup_callsAt, chFinal_callsAt, chUpdate_calls]
  · simp [callsAt_append, callsAt_printf, callsAt_nil, chCreate_callsAt, chRead_callsAt,
      chUpdate_callsAt, chDelete_callsAt, chCleanup_callsAt, chFinal_callsAt, chScan_calls]
  · simp [callsAt_append, callsAt_printf, callsAt_nil, chCreate_callsAt, chRead_callsAt,
      chUpdate_callsAt, chScan_callsAt, chDelete_callsAt, chCleanup_callsAt, chFinal_calls]

theorem chSteps_readBack {σ : Type} (now : σ → GoString) (db : SqlDB σ)
    (pfx d tb : GoString) (i : Nat) (s : σ) :
    ReadBackProperty (chSteps now db pfx d tb i s).2 := by
  obtain ⟨u, s2, s3, s4, s5, s6, h⟩ := chSteps_split now db pfx d tb i s
  rw [h]
  simp [ReadBackProperty, callsAt_append, callsAt_printf, callsAt_nil, chCreate_callsAt,
      chRead_callsAt, chUpdate_callsAt, chScan_callsAt, chDelete_callsAt, chCleanup_callsAt,
      chFinal_callsAt, chCreate_items, chRead_reads]

theorem tidbCreate_callsAt {σ : Type} (db : SqlDB σ) (pfx d tb : GoString)
    (keys : List GoString) (j : Nat) (s : σ) {x : Site} (hx : x ≠ .seedInsert) :
    callsAt x (tidbCreate db pfx d tb j keys s).2.2 = [] :=
  callsAt_eq_nil (tidbCreate_sites db pfx d tb keys j s) (by simpa using hx)

theorem tidbRead_callsAt {σ : Type} (db : SqlDB σ) (pfx d tb : GoString)
    (items : List TestKeyValue) (s : σ) {x : Site} (hx : x ≠ .readBack) :
    callsAt x (tidbRead db pfx d tb items s).2 = [] :=
  callsAt_eq_nil (tidbRead_sites db pfx d tb items s) (by simpa using hx)

theorem tidbUpdate_callsAt {σ : Type} (db : SqlDB σ) (pfx d tb : GoString) (now : GoString) (s : σ)
    {x : Site} (h1 : x ≠ .update) (h2 : x ≠ .updateVerify) :
    callsAt x (tidbUpdate db pfx d tb now s).2 = [] :=
  callsAt_eq_nil (tidbUpdate_sites db pfx d tb now s) (by simp [h1, h2])

theorem tidbScan_callsAt {σ : Type} (db : SqlDB σ) (pfx d tb : GoString) (s : σ)
    {x : Site} (hx : x ≠ .scan) : callsAt x (tidbScan db pfx d tb s).2 = [] :=
  callsAt_eq_nil (tidbScan_sites db pfx d tb s) (by simpa using hx)

theorem tidbFinal_callsAt {σ : Type} (db : SqlDB σ) (pfx d tb : GoString) (s : σ)
    {x : Site} (hx : x ≠ .finalCheck) : callsAt x (tidbFinal db pfx d tb s).2 = [] :=
  callsAt_eq_nil (tidbFinal_sites db pfx d tb s) (by simpa using hx)

theorem tidbCreate_writes {σ : Type} (db : SqlDB σ) (pfx d tb : GoString) (s : σ) :
    (callsAt .seedInsert (tidbCreate db pfx d tb 0 testKeys s).2.2).map Call.write?
      = (seedWrites pfx).map some := by
  simp only [testKeys, tidbCreate]
  repeat' split
  all_goals simp [callsAt, write_insert, write_insertOrUpdate, seedWrites, fullKey, testValues]

theorem tidbCreate_logged {σ : Type} (db : SqlDB σ) (pfx d tb : GoString) :
    ∀ (keys : List GoString) (j : Nat) (s : σ),
      checkNext seedFailed seedLogged (tidbCreate db pfx d tb j keys s).2.2 = true
  | [], _, _ => rfl
  | key :: rest, j, s => by
    have ih := tidbCreate_logged db pfx d tb rest (j + 1)
    simp only [tidbCreate]
    split <;> simp [checkNext, seedFailed, seedLogged, err_Exec, write_insert,
      write_insertOrUpdate, ih]

theorem tidbUpdate_calls {σ : Type} (db : SqlDB σ) (pfx d tb : GoString) (now : GoString) (s : σ) :
    (callsAt .update (tidbUpdate db pfx d tb now s).2).length = 1 := by
  simp only [tidbUpdate]
  repeat' split
  all_goals simp [callsAt]

theorem tidbScan_calls {σ : Type} (db : SqlDB σ) (pfx d tb : GoString) (s : σ) :
    (callsAt .scan (tidbScan db pfx d tb s).2).length = 1 := by
  simp only [tidbScan]
  split
  · simp [callsAt]
  · simp [callsAt, callsAt_append, callsAt_eq_nil (sqlRows_sites [] pfx _)]

theorem tidbFinal_calls {σ : Type} (db : SqlDB σ) (pfx d tb : GoString) (s : σ) :
    (callsAt .finalCheck (tidbFinal db pfx d tb s).2).length = 1 := by
  simp only [tidbFinal]
  repeat' split
  all_goals simp [callsAt]

theorem tidbCreate_items {σ : Type} (db : SqlDB σ) (pfx d tb : GoString) :
    ∀ (keys : List GoString) (j : Nat) (s : σ),
      ((callsAt .seedInsert (tidbCreate db pfx d tb j keys s).2.2).filter
          (fun c => c.err?.isNone)).map (fun c => c.write?.map Prod.fst)
        = ((tidbCreate db pfx d tb j keys s).2.1.filter (fun it => decide (it.Key ≠ []))).map
            (fun it => some (addPrefix pfx it.Key))
  | [], _, _ => rfl
  | key :: rest, j, s => by
    have ih := tidbCreate_items db pfx d tb rest (j + 1)
    simp only [tidbCreate]
    split <;> simp [callsAt, err_Exec, write_insert, write_insertOrUpdate, ih, baseKey_ne_nil]

theorem tidbRead_reads {σ : Type} (db : SqlDB σ) (pfx d tb : GoString) :
    ∀ (items : List TestKeyValue) (s : σ),
      (callsAt .readBack (tidbRead db pfx d tb items s).2).map Call.readKey?
        = (items.filter (fun it => decide (it.Key ≠ []))).map
            (fun it => some (addPrefix pfx it.Key))
  | [], _ => rfl
  | item :: rest, s => by
    have ih := tidbRead_reads db pfx d tb rest
    simp only [tidbRead]
    split
    · rename_i h
      simp [h, ih]
    · rename_i h
      repeat' split
      all_goals simp [callsAt, readKey_selectValue, ih, h]

theorem tidbSteps_seedInsert {σ : Type} (now : σ → GoString) (db : SqlDB σ)
    (pfx d tb : GoString) (i : Nat) (s : σ) :
    SeedInsertProperty pfx (tidbSteps now db pfx d tb i s).2 := by
  obtain ⟨u, s2, s3, s4, h⟩ := tidbSteps_split now db pfx d tb i s
  rw [h]
  apply seedInsertProperty_of
  · simp [callsAt_append, callsAt_printf, callsAt_nil, tidbRead_callsAt, tidbUpdate_callsAt,
      tidbScan_callsAt, tidbFinal_callsAt, tidbCreate_writes]
  · repeat' first
      | apply checkNext_append
      | rw [checkNext_printf]
    all_goals first
      | rfl
      | exact tidbCreate_logged db pfx d tb _ _ _
      | exact checkNext_of_sites _ _ (seedFailed_of_sites (by decide)) _
          (tidbRead_sites _ _ _ _ _ _)
      | exact checkNext_of_sites _ _ (seedFailed_of_sites (by decide)) _
          (tidbUpdate_sites _ _ _ _ _ _)
      | exact checkNext_of_sites _ _ (seedFailed_of_sites (by decide)) _
          (tidbScan_sites _ _ _ _ _)
      | exact checkNext_of_sites _ _ (seedFailed_of_sites (by decide)) _
          (tidbFinal_sites _ _ _ _ _)
  · simp [callsAt_append, callsAt_printf, callsAt_nil, tidbCreate_callsAt, tidbRead_callsAt,
      tidbScan_callsAt, tidbFinal_callsAt, tidbUpdate_calls]
  · simp [callsAt_append, callsAt_printf, callsAt_nil, tidbCreate_callsAt, tidbRead_callsAt,
      tidbUpdate_callsAt, tidbFinal_callsAt, tidbScan_calls]
  · simp [callsAt_append, callsAt_printf, callsAt_nil, tidbCreate_callsAt, tidbRead_callsAt,
      tidbUpdate_callsAt, tidbScan_callsAt, tidbFinal_calls]

theorem tidbSteps_readBack {σ : Type} (now : σ → GoString) (db : SqlDB σ)
    (pfx d tb : GoString) (i : Nat) (s : σ) :
    ReadBackProperty (tidbSteps now db pfx d tb i s).2 := by
  obtain ⟨u, s2, s3, s4, h⟩ := tidbSteps_split now db pfx d tb i s
  rw [h]
  simp [ReadBackProperty, callsAt_append, callsAt_printf, callsAt_nil, tidbCreate_callsAt,
      tidbRead_callsAt, tidbUpdate_callsAt, tidbScan_callsAt, tidbFinal_callsAt, tidbCreate_items,
      tidbRead_reads]


/-! ## How a verifying read is reported -/

theorem value_Get_err (k : GoString) (v : Option GoString) (e : GoError) :
    (Call.Get k v (some e)).value? = none := by
  cases v <;> rfl

theorem value_Get_none (k : GoString) (e : Option GoError) :
    (Call.Get k none e).value? = none := rfl

theorem value_Get_some (k v : GoString) : (Call.Get k (some v) none).value? = some v := rfl

theorem value_Query_error (q : Stmt) (e : GoError) :
    (Call.QueryRowString q (.error e)).value? = none := rfl

theorem value_Query_ok (q : Stmt) (v : GoString) :
    (Call.QueryRowString q (.ok v)).value? = if v = [] then none else some v := rfl

theorem isSuccess_printf (f : String) (a : List Arg) :
    (Ev.printf f a).isSuccess = (f.toList.head? == some '✓') := rfl

theorem isSuccess_logf (f : String) (a : List Arg) :
    (Ev.logf f a).isSuccess = (f.toList.head? == some '✓') := rfl

theorem isFailure_printf (f : String) (a : List Arg) :
    (Ev.printf f a).isFailure = (f.toList.head? == some '❌' || f.toList.head? == some '⚠') :=
  rfl

theorem isFailure_logf (f : String) (a : List Arg) :
    (Ev.logf f a).isFailure = (f.toList.head? == some '❌' || f.toList.head? == some '⚠') :=
  rfl

theorem isVerifyingRead_of_sites {S : List Site} (h1 : .readBack ∉ S) (h2 : .updateVerify ∉ S) :
    ∀ s ∈ S, ∀ c, isVerifyingRead s c = false := by
  intro s hs c
  have n1 : s ≠ .readBack := fun heq => h1 (heq ▸ hs)
  have n2 : s ≠ .updateVerify := fun heq => h2 (heq ▸ hs)
  simp [isVerifyingRead, n1, n2]

theorem readReportProperty_of {t : List Ev}
    (h : checkNext isVerifyingRead readReported t = true) : ReadReportProperty t := by
  intro pre site c post ht hr
  rw [ht] at h
  exact checkNext_spec _ _ pre site c post h hr

theorem tikvRead_reported {σ : Type} (client : RawKVClient σ) (pfx : GoString) :
    ∀ (items : List TestKeyValue) (s : σ),
      checkNext isVerifyingRead readReported (tikvRead client pfx items s).2 = true
  | [], _ => rfl
  | item :: rest, s => by
    have ih := tikvRead_reported client pfx rest
    simp only [tikvRead]
    split
    · exact ih s
    · split
      · rename_i h1
        simp [checkNext, isVerifyingRead, readReported, h1, value_Get_err, ih,
          isSuccess_logf, isFailure_logf]
      · rename_i h1 h2
        simp [checkNext, isVerifyingRead, readReported, h1, h2, value_Get_none, ih,
          isSuccess_logf, isFailure_logf]
      · rename_i h1 h2
        simp [checkNext, isVerifyingRead, readReported, h1, h2, value_Get_some, ih,
          isSuccess_printf, isFailure_printf, Ev.args]

theorem tikvUpdate_reported {σ : Type} (client : RawKVClient σ) (pfx now : GoString) (s : σ) :
    checkNext isVerifyingRead readReported (tikvUpdate client pfx now s).2 = true := by
  simp only [tikvUpdate]
  split
  · simp [checkNext, isVerifyingRead]
  · split
    · rename_i h1 h2
      simp [checkNext, isVerifyingRead, readReported, h1, h2, value_Get_some,
        isSuccess_printf, isFailure_printf, Ev.args]
    · rename_i h
      have hv : (Call.Get (addPrefix pfx (baseKey ++ lit "_1"))
          (client.Get (addPrefix pfx (baseKey ++ lit "_1"))
            (client.Put (addPrefix pfx (baseKey ++ lit "_1")) (updatedValue now) s).1).2.1
          (client.Get (addPrefix pfx (baseKey ++ lit "_1"))
            (client.Put (addPrefix pfx (baseKey ++ lit "_1")) (updatedValue now) s).1).2.2).value?
          = none := by
        generalize (client.Get (addPrefix pfx (baseKey ++ lit "_1"))
            (client.Put (addPrefix pfx (baseKey ++ lit "_1")) (updatedValue now) s).1).2 = r at h
        obtain ⟨v, e⟩ := r
        cases e with
        | some e => exact value_Get_err _ _ _
        | none =>
          cases v with
          | none => rfl
          | some v => exact absurd rfl (h v rfl)
      simp [checkNext, isVerifyingRead, readReported, hv, isSuccess_logf, isFailure_logf]

theorem tikvSteps_readReport {σ : Type} (now : σ → GoString) (client : RawKVClient σ)
    (pfx : GoString) (i : Nat) (s : σ) :
    ReadReportProperty (tikvSteps now client pfx i s).2 := by
  obtain ⟨u, s2, s3, s4, s5, s6, h⟩ := tikvSteps_split now client pfx i s
  rw [h]
  apply readReportProperty_of
  repeat' first
    | apply checkNext_append
    | rw [checkNext_printf]
  all_goals first
    | rfl
    | exact tikvRead_reported client pfx _ _
    | exact tikvUpdate_reported client pfx _ _
    | exact checkNext_of_sites _ _ (isVerifyingRead_of_sites (by decide) (by decide)) _
        (tikvCreate_sites _ _ _ _ _)
    | exact checkNext_of_sites _ _ (isVerifyingRead_of_sites (by decide) (by decide)) _
        (tikvScan_sites _ _ _)
    | exact checkNext_of_sites _ _ (isVerifyingRead_of_sites (by decide) (by decide)) _
        (tikvDelete_sites _ _ _)
    | exact checkNext_of_sites _ _ (isVerifyingRead_of_sites (by decide) (by decide)) _
        (tikvCleanup_sites _ _ _ _)
    | exact checkNext_of_sites _ _ (isVerifyingRead_of_sites (by decide) (by decide)) _
        (tikvFinal_sites _ _ _)

theorem chRead_reported {σ : Type} (db : SqlDB σ) (pfx d tb : GoString) :
    ∀ (items : List TestKeyValue) (s : σ),
      checkNext isVerifyingRead readReported (chRead db pfx d tb items s).2 = true
  | [], _ => rfl
  | item :: rest, s => by
    have ih := chRead_reported db pfx d tb rest
    simp only [chRead]
    split
    · exact ih s
    · split
      · rename_i h1
        simp [checkNext, isVerifyingRead, readReported, h1, value_Query_error, ih,
          isSuccess_logf, isFailure_logf]
      · rename_i v h1
        split
        · rename_i h2
          simp [checkNext, isVerifyingRead, readReported, h1, h2, value_Query_ok, ih,
            isSuccess_logf, isFailure_logf]
        · rename_i h2
          simp [checkNext, isVerifyingRead, readReported, h1, h2, value_Query_ok, ih,
            isSuccess_printf, isFailure_printf, Ev.args]

theorem chUpdate_reported {σ : Type} (db : SqlDB σ) (pfx d tb : GoString) (now : GoString) (s : σ) :
    checkNext isVerifyingRead readReported (chUpdate db pfx d tb now s).2 = true := by
  simp only [chUpdate]
  split
  · simp [checkNext, isVerifyingRead]
  · split
    · rename_i v h1
      split
      · rename_i h2
        simp [checkNext, isVerifyingRead, readReported, h1, h2, value_Query_ok,
          isSuccess_printf, isFailure_printf, Ev.args]
      · rename_i h2
        simp only [ne_eq, Decidable.not_not] at h2
        simp [checkNext, isVerifyingRead, readReported, h1, h2, value_Query_ok,
          isSuccess_logf, isFailure_logf]
    · rename_i h1
      simp [checkNext, isVerifyingRead, readReported, h1, value_Query_error,
        isSuccess_logf, isFailure_logf]

theorem chSteps_readReport {σ : Type} (now : σ → GoString) (db : SqlDB σ)
    (pfx d tb : GoString) (i : Nat) (s : σ) :
    ReadReportProperty (chSteps now db pfx d tb i s).2 := by
  obtain ⟨u, s2, s3, s4, s5, s6, h⟩ := chSteps_split now db pfx d tb i s
  rw [h]
  apply readReportProperty_of
  repeat' first
    | apply checkNext_append
    | rw [checkNext_printf]
  all_goals first
    | rfl
    | exact chRead_reported db pfx d tb _ _
    | exact chUpdate_reported db pfx d tb _ _
    | exact checkNext_of_sites _ _ (isVerifyingRead_of_sites (by decide) (by decide)) _
        (chCreate_sites _ _ _ _ _ _ _)
    | exact checkNext_of_sites _ _ (isVerifyingRead_of_sites (by decide) (by decide)) _
        (chScan_sites _ _ _ _ _)
    | exact checkNext_of_sites _ _ (isVerifyingRead_of_sites (by decide) (by decide)) _
        (chDelete_sites _ _ _ _ _)
    | exact checkNext_of_sites _ _ (isVerifyingRead_of_sites (by decide) (by decide)) _
        (chCleanup_sites _ _ _ _ _ _)
    | exact checkNext_of_sites _ _ (isVerifyingRead_of_sites (by decide) (by decide)) _
        (chFinal_sites _ _ _ _ _)

theorem tidbRead_reported {σ : Type} (db : SqlDB σ) (pfx d tb : GoString) :
    ∀ (items : List TestKeyValue) (s : σ),
      checkNext isVerifyingRead readReported (tidbRead db pfx d tb items s).2 = true
  | [], _ => rfl
  | item :: rest, s => by
    have ih := tidbRead_reported db pfx d tb rest
    simp only [tidbRead]
    split
    · exact ih s
    · split
      · rename_i h1
        simp [checkNext, isVerifyingRead, readReported, h1, value_Query_error, ih,
          isSuccess_logf, isFailure_logf]
      · rename_i v h1
        split
        · rename_i h2
          simp [checkNext, isVerifyingRead, readReported, h1, h2, value_Query_ok, ih,
            isSuccess_logf, isFailure_logf]
        · rename_i h2
          simp [checkNext, isVerifyingRead, readReported, h1, h2, value_Query_ok, ih,
            isSuccess_printf, isFailure_printf, Ev.args]

theorem tidbUpdate_reported {σ : Type} (db : SqlDB σ) (pfx d tb : GoString) (now : GoString) (s : σ) :
    checkNext isVerifyingRead readReported (tidbUpdate db pfx d tb now s).2 = true := by
  simp only [tidbUpdate]
  split
  · simp [checkNext, isVerifyingRead]
  · split
    · rename_i v h1
      split
      · rename_i h2
        simp [checkNext, isVerifyingRead, readReported, h1, h2, value_Query_ok,
          isSuccess_printf, isFailure_printf, Ev.args]
      · rename_i h2
        simp only [ne_eq, Decidable.not_not] at h2
        simp [checkNext, isVerifyingRead, readReported, h1, h2, value_Query_ok,
          isSuccess_logf, isFailure_logf]
    · rename_i h1
      simp [checkNext, isVerifyingRead, readReported, h1, value_Query_error,
        isSuccess_logf, isFailure_logf]

theorem tidbSteps_readReport {σ : Type} (now : σ → GoString) (db : SqlDB σ)
    (pfx d tb : GoString) (i : Nat) (s : σ) :
    ReadReportProperty (tidbSteps now db pfx d tb i s).2 := by
  obtain ⟨u, s2, s3, s4, h⟩ := tidbSteps_split now db pfx d tb i s
  rw [h]
  apply readReportProperty_of
  repeat' first
    | apply checkNext_append
    | rw [checkNext_printf]
  all_goals first
    | rfl
    | exact tidbRead_reported db pfx d tb _ _
    | exact tidbUpdate_reported db pfx d tb _ _
    | exact checkNext_of_sites _ _ (isVerifyingRead_of_sites (by decide) (by decide)) _
        (tidbCreate_sites _ _ _ _ _ _ _)
    | exact checkNext_of_sites _ _ (isVerifyingRead_of_sites (by decide) (by decide)) _
        (tidbScan_sites _ _ _ _ _)
    | exact checkNext_of_sites _ _ (isVerifyingRead_of_sites (by decide) (by decide)) _
        (tidbFinal_sites _ _ _ _ _)

/-! ## How an error is reported by the TiKV script -/

theorem err_Get (k : GoString) (v : Option GoString) (e : Option GoError) :
    (Call.Get k v e).err? = e := rfl

theorem err_Scan (a b : GoString) (n : Nat) (ks vs : List GoString) (e : Option GoError) :
    (Call.Scan a b n ks vs e).err? = e := rfl

theorem err_Delete (k : GoString) (e : Option GoError) : (Call.Delete k e).err? = e := rfl

theorem checkNext_map_printf (rel : Site → Call → Bool) (good : Site → Call → Ev → Bool)
    {α : Type} (f : String) (g : α → List Arg) :
    ∀ l : List α, checkNext rel good (l.map (fun x => Ev.printf f (g x))) = true
  | [] => rfl
  | _ :: l => by simpa [checkNext] using checkNext_map_printf rel good f g l

theorem errorReportProperty_of {t : List Ev}
    (h : checkNext isReportedError errorReported t = true) : ErrorReportProperty t := by
  intro pre site c post ht he hs
  rw [ht] at h
  obtain ⟨l, post', hp, hg⟩ :=
    checkNext_spec _ _ pre site c post h (by simp [isReportedError, he, hs])
  refine ⟨l, post', hp, ?_⟩
  unfold errorReported at hg
  by_cases hf : site = .finalCheck
  · simp [hf] at hg
    simp [hf, hg]
  · simp [hf] at hg
    simp [hf, hg]

theorem tikvCreate_errors {σ : Type} (client : RawKVClient σ) (pfx : GoString) :
    ∀ (keys : List GoString) (j : Nat) (s : σ),
      checkNext isReportedError errorReported (tikvCreate client pfx j keys s).2.2 = true
  | [], _, _ => rfl
  | key :: rest, j, s => by
    have ih := tikvCreate_errors client pfx rest (j + 1)
    simp only [tikvCreate]
    split <;> simp [checkNext, isReportedError, errorReported, err_Put, ih, isSuccess_logf,
      isFailure_logf]

theorem tikvRead_errors {σ : Type} (client : RawKVClient σ) (pfx : GoString) :
    ∀ (items : List TestKeyValue) (s : σ),
      checkNext isReportedError errorReported (tikvRead client pfx items s).2 = true
  | [], _ => rfl
  | item :: rest, s => by
    have ih := tikvRead_errors client pfx rest
    simp only [tikvRead]
    split
    · exact ih s
    · split
      · simp [checkNext, errorReported, ih, isSuccess_logf, isFailure_logf]
      · simp [checkNext, errorReported, ih, isSuccess_logf, isFailure_logf]
      · rename_i h1 h2
        simp [checkNext, isReportedError, err_Get, h1, ih]

theorem tikvUpdate_errors {σ : Type} (client : RawKVClient σ) (pfx now : GoString) (s : σ) :
    checkNext isReportedError errorReported (tikvUpdate client pfx now s).2 = true := by
  simp only [tikvUpdate]
  split
  · simp [checkNext, errorReported, isSuccess_logf, isFailure_logf]
  · rename_i h0
    split
    · rename_i h1 h2
      simp [checkNext, isReportedError, err_Put, err_Get, h0, h1]
    · simp [checkNext, isReportedError, errorReported, err_Put, h0, isSuccess_logf,
        isFailure_logf]

theorem tikvScan_errors {σ : Type} (client : RawKVClient σ) (pfx : GoString) (s : σ) :
    checkNext isReportedError errorReported (tikvScan client pfx s).2 = true := by
  simp only [tikvScan]
  split
  · simp [checkNext, errorReported, isSuccess_logf, isFailure_logf]
  · rename_i h
    simp [checkNext, isReportedError, err_Scan, h]
    exact checkNext_map_printf _ _ _ (fun kv : GoString × GoString =>
      [Arg.s (removePrefix pfx kv.1), Arg.s kv.2]) _

theorem tikvDelete_errors {σ : Type} (client : RawKVClient σ) (pfx : GoString) (s : σ) :
    checkNext isReportedError errorReported (tikvDelete client pfx s).2 = true := by
  simp only [tikvDelete]
  split
  · rename_i h1 h2
    split
    · simp [checkNext, isReportedError, errorReported, err_Get, h1, isSuccess_logf,
        isFailure_logf]
    · rename_i h3
      split <;> simp [checkNext, isReportedError, err_Get, err_Delete, h1, h3]
  · simp [checkNext, errorReported, isSuccess_logf, isFailure_logf]

theorem tikvCleanup_errors {σ : Type} (client : RawKVClient σ) (pfx : GoString) :
    ∀ (items : List TestKeyValue) (s : σ),
      checkNext isReportedError errorReported (tikvCleanup client pfx items s).2 = true
  | [], _ => rfl
  | item :: rest, s => by
    have ih := tikvCleanup_errors client pfx rest
    simp only [tikvCleanup]
    split
    · exact ih s
    · split
      · exact ih s
      · split
        · simp [checkNext, errorReported, ih, isSuccess_logf, isFailure_logf]
        · rename_i h
          simp [checkNext, isReportedError, err_Delete, h, ih]

theorem tikvFinal_errors {σ : Type} (client : RawKVClient σ) (pfx : GoString) (s : σ)
    (a : List Arg) :
    checkNext isReportedError errorReported
      ((tikvFinal client pfx s).2 ++ [Ev.printf "✅ TiKV %d test completed\n" a]) = true := by
  simp only [tikvFinal]
  split
  · rename_i h1 h2
    simp [checkNext, isReportedError, err_Get, h1]
  · simp [checkNext, errorReported, isSuccess_printf, isFailure_printf]

theorem tikvSteps_errorReport {σ : Type} (now : σ → GoString) (client : RawKVClient σ)
    (pfx : GoString) (i : Nat) (s : σ) :
    ErrorReportProperty (tikvSteps now client pfx i s).2 := by
  obtain ⟨u, s2, s3, s4, s5, s6, h⟩ := tikvSteps_split now client pfx i s
  rw [h, List.append_assoc]
  apply errorReportProperty_of
  apply checkNext_append _ _ _ _ _ (tikvFinal_errors client pfx _ _)
  repeat' first
    | apply checkNext_append
    | rw [checkNext_printf]
  · exact tikvCreate_errors client pfx _ _ _
  · exact tikvRead_errors client pfx _ _
  · exact tikvUpdate_errors client pfx _ _
  · exact tikvScan_errors client pfx _
  · exact tikvDelete_errors client pfx _
  · exact tikvCleanup_errors client pfx _ _


/-! ## Namespace setup and the loops -/

theorem callsAt_logf (x : Site) (f : String) (a : List Arg) (t : List Ev) :
    callsAt x (Ev.logf f a :: t) = callsAt x t := rfl

theorem callsAt_call (x s : Site) (c : Call) (t : List Ev) :
    callsAt x (Ev.call s c :: t) = if s = x then c :: callsAt x t else callsAt x t := rfl

theorem chSteps_sites {σ : Type} (now : σ → GoString) (db : SqlDB σ) (pfx d tb : GoString)
    (i : Nat) (s : σ) : callsWithin dataSites (chSteps now db pfx d tb i s).2 := by
  obtain ⟨u, s2, s3, s4, s5, s6, h⟩ := chSteps_split now db pfx d tb i s
  rw [h]
  simp only [callsWithin_append, callsWithin_cons]
  refine ⟨⟨⟨⟨⟨⟨⟨⟨?_, ?_⟩, ?_, ?_⟩, ?_, ?_⟩, ?_, ?_⟩, ?_, ?_⟩, ?_, ?_⟩, ?_⟩, ?_, ?_⟩
  all_goals first
    | exact callsWithin_nil _
    | (intro x hx; simp [Ev.site?] at hx)
    | exact callsWithin_mono (chCreate_sites _ _ _ _ _ _ _) (by decide)
    | exact callsWithin_mono (chRead_sites _ _ _ _ _ _) (by decide)
    | exact callsWithin_mono (chUpdate_sites _ _ _ _ _ _) (by decide)
    | exact callsWithin_mono (chScan_sites _ _ _ _ _) (by decide)
    | exact callsWithin_mono (chDelete_sites _ _ _ _ _) (by decide)
    | exact callsWithin_mono (chCleanup_sites _ _ _ _ _ _) (by decide)
    | exact callsWithin_mono (chFinal_sites _ _ _ _ _) (by decide)

theorem tidbSteps_sites {σ : Type} (now : σ → GoString) (db : SqlDB σ) (pfx d tb : GoString)
    (i : Nat) (s : σ) : callsWithin dataSites (tidbSteps now db pfx d tb i s).2 := by
  obtain ⟨u, s2, s3, s4, h⟩ := tidbSteps_split now db pfx d tb i s
  rw [h]
  simp only [callsWithin_append, callsWithin_cons]
  refine ⟨⟨⟨⟨⟨⟨?_, ?_⟩, ?_, ?_⟩, ?_, ?_⟩, ?_, ?_⟩, ?_⟩, ?_, ?_⟩
  all_goals first
    | exact callsWithin_nil _
    | (intro x hx; simp [Ev.site?] at hx)
    | exact callsWithin_mono (tidbCreate_sites _ _ _ _ _ _ _) (by decide)
    | exact callsWithin_mono (tidbRead_sites _ _ _ _ _ _) (by decide)
    | exact callsWithin_mono (tidbUpdate_sites _ _ _ _ _ _) (by decide)
    | exact callsWithin_mono (tidbScan_sites _ _ _ _ _) (by decide)
    | exact callsWithin_mono (tidbFinal_sites _ _ _ _ _) (by decide)

theorem esInsert_sites {σ : Type} (W : ESWorld σ) (client : EsClient σ) :
    ∀ (docs : List TestDocument) (s : σ), callsWithin [.seedInsert] (esInsert W client docs s).2
  | [], _ => callsWithin_nil _
  | doc :: rest, s => by
    have ih := esInsert_sites W client rest
    simp only [esInsert]
    repeat' split
    all_goals simp [callsWithin_cons, Ev.site?, ih]

theorem esSimple_sites {σ : Type} (client : EsClient σ) (site : Site) (q : EsReq)
    (f1 f2 f3 : String) (s : σ) : callsWithin [site] (esSimple client site q f1 f2 f3 s).2 := by
  simp only [esSimple]
  repeat' split
  all_goals simp [callsWithin_cons, Ev.site?, callsWithin_nil]

theorem eventsOf_append (k : Nat) (a b : List (Nat × Ev)) :
    eventsOf k (a ++ b) = eventsOf k a ++ eventsOf k b := by
  simp [eventsOf]

theorem eventsOf_tag_self (k : Nat) (t : List Ev) :
    eventsOf k (t.map (fun e => (k, e))) = t := by
  induction t with
  | nil => rfl
  | cons e t ih =>
    simp only [eventsOf, List.map_cons, List.filter_cons, beq_self_eq_true, if_true] at ih ⊢
    rw [ih]

theorem eventsOf_eq_nil {k : Nat} {t : List (Nat × Ev)} (h : ∀ e ∈ t, e.1 ≠ k) :
    eventsOf k t = [] := by
  induction t with
  | nil => rfl
  | cons e t ih =>
    have h1 : e.1 ≠ k := h e (List.mem_cons_self _ _)
    have h2 := ih (fun e' he' => h e' (List.mem_cons_of_mem _ he'))
    simp only [eventsOf, List.filter_cons] at h2 ⊢
    simp [h1, h2]

theorem eventsOf_tag_ne {i k : Nat} (h : i ≠ k) (t : List Ev) :
    eventsOf k (t.map (fun e => (i, e))) = [] := by
  apply eventsOf_eq_nil
  intro e he
  rw [List.mem_map] at he
  obtain ⟨_, -, rfl⟩ := he
  exact h

theorem sqlRunDeferred_sites {σ : Type} (k : Nat) :
    ∀ (l : List (Nat × SqlDB σ)) (s : σ),
      callsWithin [.deferred] (eventsOf k (sqlRunDeferred l s).2)
  | [], _ => callsWithin_nil _
  | (i, db) :: rest, s => by
    have ih := sqlRunDeferred_sites k rest (db.Close s).1
    simp only [sqlRunDeferred]
    by_cases hik : i = k
    · subst hik
      simp only [eventsOf, List.filter_cons, beq_self_eq_true, if_true, List.map_cons] at ih ⊢
      rw [callsWithin_cons]
      exact ⟨by simp [Ev.site?], ih⟩
    · simp only [eventsOf, List.filter_cons] at ih ⊢
      simpa [hik] using ih

theorem chLoadCertFromFile_sites {σ : Type} (W : ClickHouseWorld σ) (p : GoString) (s : σ)
    {S : List Site} (hS : .tlsLoad ∈ S) : callsWithin S (chLoadCertFromFile W p s).2.2 := by
  simp only [chLoadCertFromFile]
  repeat' split
  all_goals simp [callsWithin_cons, Ev.site?, callsWithin_nil, hS]

theorem chGetTLSConfig_sites {σ : Type} (W : ClickHouseWorld σ) (c : ClickHouseConfig) (s : σ)
    {S : List Site} (hS : .tlsLoad ∈ S) : callsWithin S (chGetTLSConfig W c s).2.2 := by
  simp only [chGetTLSConfig]
  repeat' split
  all_goals simp [callsWithin_cons, callsWithin_append, Ev.site?, callsWithin_nil, hS,
    chLoadCertFromFile_sites W _ _ hS]

theorem chLoop_tags {σ : Type} (W : ClickHouseWorld σ) :
    ∀ (cfgs : List ClickHouseConfig) (i0 : Nat) (s : σ), ∀ e ∈ (chLoop W i0 cfgs s).2.1, i0 ≤ e.1
  | [], _, _ => by simp [chLoop]
  | c :: rest, i0, s => by
    have ih := chLoop_tags W rest (i0 + 1)
    simp only [chLoop]
    split
    · intro e he
      rw [List.mem_map] at he
      obtain ⟨_, -, rfl⟩ := he
      exact Nat.le_refl _
    · intro e he
      rw [List.mem_append, List.mem_map] at he
      rcases he with ⟨_, -, rfl⟩ | he
      · exact Nat.le_refl _
      · exact Nat.le_of_succ_le (ih _ e he)

theorem chLoop_run {σ : Type} (W : ClickHouseWorld σ) :
    ∀ (cfgs : List ClickHouseConfig) (i0 : Nat) (s : σ), (chLoop W i0 cfgs s).2.2.2 = false →
      ∀ j c, cfgs[j]? = some c →
        ∃ s', eventsOf (i0 + j) (chLoop W i0 cfgs s).2.1 = (chInstance W (i0 + j) c s').2.1
          ∧ (chInstance W (i0 + j) c s').2.2.2 = false
  | [], _, _ => by simp
  | c0 :: rest, i0, s => by
    have ih := chLoop_run W rest (i0 + 1)
    simp only [chLoop]
    split
    · simp
    · rename_i hex
      intro hnext j c hj
      cases j with
      | zero =>
        simp only [List.getElem?_cons_zero, Option.some.injEq] at hj
        subst hj
        refine ⟨s, ?_, by simpa using hex⟩
        rw [Nat.add_zero, eventsOf_append, eventsOf_tag_self, eventsOf_eq_nil, List.append_nil]
        intro e he
        have := chLoop_tags W rest (i0 + 1) _ e he
        omega
      | succ j =>
        simp only [List.getElem?_cons_succ] at hj
        obtain ⟨s', h1, h2⟩ := ih _ hnext j c hj
        have hidx : i0 + (j + 1) = i0 + 1 + j := by omega
        refine ⟨s', ?_, by rw [hidx]; exact h2⟩
        rw [hidx, eventsOf_append, eventsOf_tag_ne (by omega), List.nil_append]
        exact h1

theorem tidbLoadCertFromFile_sites {σ : Type} (W : TiDBWorld σ) (p : GoString) (s : σ)
    {S : List Site} (hS : .tlsLoad ∈ S) : callsWithin S (tidbLoadCertFromFile W p s).2.2 := by
  simp only [tidbLoadCertFromFile]
  repeat' split
  all_goals simp [callsWithin_cons, Ev.site?, callsWithin_nil, hS]

theorem tidbGetTLSConfig_sites {σ : Type} (W : TiDBWorld σ) (c : TiDBConfig) (s : σ)
    {S : List Site} (hS : .tlsLoad ∈ S) : callsWithin S (tidbGetTLSConfig W c s).2.2 := by
  simp only [tidbGetTLSConfig]
  repeat' split
  all_goals simp [callsWithin_cons, callsWithin_append, Ev.site?, callsWithin_nil, hS,
    tidbLoadCertFromFile_sites W _ _ hS]

theorem tidbLoop_tags {σ : Type} (W : TiDBWorld σ) :
    ∀ (cfgs : List TiDBConfig) (i0 : Nat) (s : σ), ∀ e ∈ (tidbLoop W i0 cfgs s).2.1, i0 ≤ e.1
  | [], _, _ => by simp [tidbLoop]
  | c :: rest, i0, s => by
    have ih := tidbLoop_tags W rest (i0 + 1)
    simp only [tidbLoop]
    split
    · intro e he
      rw [List.mem_map] at he
      obtain ⟨_, -, rfl⟩ := he
      exact Nat.le_refl _
    · intro e he
      rw [List.mem_append, List.mem_map] at he
      rcases he with ⟨_, -, rfl⟩ | he
      · exact Nat.le_refl _
      · exact Nat.le_of_succ_le (ih _ e he)

theorem tidbLoop_run {σ : Type} (W : TiDBWorld σ) :
    ∀ (cfgs : List TiDBConfig) (i0 : Nat) (s : σ), (tidbLoop W i0 cfgs s).2.2.2 = false →
      ∀ j c, cfgs[j]? = some c →
        ∃ s', eventsOf (i0 + j) (tidbLoop W i0 cfgs s).2.1 = (tidbInstance W (i0 + j) c s').2.1
          ∧ (tidbInstance W (i0 + j) c s').2.2.2 = false
  | [], _, _ => by simp
  | c0 :: rest, i0, s => by
    have ih := tidbLoop_run W rest (i0 + 1)
    simp only [tidbLoop]
    split
    · simp
    · rename_i hex
      intro hnext j c hj
      cases j with
      | zero =>
        simp only [List.getElem?_cons_zero, Option.some.injEq] at hj
        subst hj
        refine ⟨s, ?_, by simpa using hex⟩
        rw [Nat.add_zero, eventsOf_append, eventsOf_tag_self, eventsOf_eq_nil, List.append_nil]
        intro e he
        have := tidbLoop_tags W rest (i0 + 1) _ e he
        omega
      | succ j =>
        simp only [List.getElem?_cons_succ] at hj
        obtain ⟨s', h1, h2⟩ := ih _ hnext j c hj
        have hidx : i0 + (j + 1) = i0 + 1 + j := by omega
        refine ⟨s', ?_, by rw [hidx]; exact h2⟩
        rw [hidx, eventsOf_append, eventsOf_tag_ne (by omega), List.nil_append]
        exact h1

/-- C1 (what the code does): in the run of the TiKV script and of the ClickHouse
script against the initially empty reference store, the cleanup step also deletes
`test_key_3`: when the run ends the store is empty, so none of the three seeded
records is readable (the claim says exactly one is). -/
theorem C1_cleanup_leaves_no_seeded_record (pfx db tbl : GoString) (now : Store → GoString)
    (i : Nat) :
    (tikvSteps now storeKV pfx i []).1 = []
    ∧ (chBody now storeSQL pfx db tbl i []).1 = []
    ∧ (∀ k ∈ testKeys, Store.get (fullKey pfx k) (tikvSteps now storeKV pfx i []).1 = none)
    ∧ (∀ k ∈ testKeys, Store.get (fullKey pfx k) (chBody now storeSQL pfx db tbl i []).1
        = none) := by
  rw [tikvSteps_reference, chBody_reference]
  exact ⟨rfl, rfl, fun _ _ => rfl, fun _ _ => rfl⟩

/-- C2 (what the code does): in the run of the TiKV script and of the ClickHouse
script against the initially empty reference store, the final-check read of
`test_key_3` finds nothing (TiKV: a nil value; ClickHouse: no row), and the run
prints no final-verification success line (the claim says the record is found with
its original value). -/
theorem C2_final_check_finds_nothing (pfx db tbl : GoString) (now : Store → GoString)
    (i : Nat) :
    (Ev.call .finalCheck (.Get (fullKey pfx (lit "3")) none none)
        ∈ (tikvSteps now storeKV pfx i []).2
      ∧ ∀ e ∈ (tikvSteps now storeKV pfx i []).2, e.format? ≠ some finalOkFormat)
    ∧ (Ev.call .finalCheck (.QueryRowString (.selectValue db tbl (fullKey pfx (lit "3")))
          (.error (lit "sql: no rows in result set")))
        ∈ (chBody now storeSQL pfx db tbl i []).2
      ∧ ∀ e ∈ (chBody now storeSQL pfx db tbl i []).2, e.format? ≠ some finalOkFormat) := by
  rw [tikvSteps_reference, chBody_reference]
  simp [tikvRefTrace, chRefTrace, sqlRefTrace14, Ev.format?, finalOkFormat]

/-- C3 (counterexample): the TiDB script run with prefix `devops:` against the
initially empty reference store issues no delete of `devops:test_key_2`, and that
key still holds its initial value when the run ends. -/
theorem C3_tidb_keeps_key_2 :
    occursThen (Ev.isDeleteOf (fullKey (lit "devops:") (lit "2")))
        (Ev.isReadOf (fullKey (lit "devops:") (lit "2")))
        (tidbBody (fun _ => lit "2025-01-01T00:00:00Z") storeSQL (lit "devops:") (lit "devops")
          (lit "test") 0 []).2 = false
    ∧ Store.get (fullKey (lit "devops:") (lit "2"))
        (tidbBody (fun _ => lit "2025-01-01T00:00:00Z") storeSQL (lit "devops:") (lit "devops")
          (lit "test") 0 []).1 = some (lit "Initial value for test key 2") := by
  decide

/-- C3 (amended): for every prefix, the TiKV script and the ClickHouse script, run
against the initially empty reference store, issue a delete of `test_key_2` followed
by a read of that key, and the key is absent when the run ends; the TiDB script
issues no delete of it and the key is still present when its run ends. -/
theorem C3_delete_then_read_tikv_clickhouse (pfx db tbl : GoString) (now : Store → GoString)
    (i : Nat) :
    (occursThen (Ev.isDeleteOf (fullKey pfx (lit "2"))) (Ev.isReadOf (fullKey pfx (lit "2")))
        (tikvSteps now storeKV pfx i []).2 = true
      ∧ Store.get (fullKey pfx (lit "2")) (tikvSteps now storeKV pfx i []).1 = none)
    ∧ (occursThen (Ev.isDeleteOf (fullKey pfx (lit "2"))) (Ev.isReadOf (fullKey pfx (lit "2")))
        (chBody now storeSQL pfx db tbl i []).2 = true
      ∧ Store.get (fullKey pfx (lit "2")) (chBody now storeSQL pfx db tbl i []).1 = none)
    ∧ ((∀ e ∈ (tidbBody now storeSQL pfx db tbl i []).2,
          Ev.isDeleteOf (fullKey pfx (lit "2")) e = false)
      ∧ Store.get (fullKey pfx (lit "2")) (tidbBody now storeSQL pfx db tbl i []).1
          = some (lit "Initial value for test key 2")) := by
  rw [tikvSteps_reference, chBody_reference, tidbBody_reference]
  refine ⟨⟨?_, rfl⟩, ⟨?_, rfl⟩, ?_, ?_⟩
  · simp [tikvRefTrace, occursThen, Ev.isDeleteOf, Ev.isReadOf]
  · simp [chRefTrace, sqlRefTrace14, occursThen, Ev.isDeleteOf, Ev.isReadOf]
  · simp [tidbRefTrace, sqlRefTrace14, Ev.isDeleteOf]
  · simp [updated, Store.get, fullKey, addPrefix, baseKey, lit]

/-- C4: for every prefix string `p`, the three seeded full keys `p:test_key_1`,
`p:test_key_2`, `p:test_key_3` lie in the scan range `[p:test_key_, p:test_key_z)`,
and in the run of each of the three scripts against the initially empty reference
store the one scan returns exactly these three keys and the scan step reports 3. -/
theorem C4_range_scan_reports_three (p db tbl : GoString) (now : Store → GoString) (i : Nat) :
    (∀ k ∈ testKeys,
        inRange (addPrefix (p ++ lit ":") (baseKey ++ lit "_"))
          (addPrefix (p ++ lit ":") (baseKey ++ lit "_z"))
          (addPrefix (p ++ lit ":") (baseKey ++ lit "_" ++ k)) = true)
    ∧ (scannedKeys (tikvSteps now storeKV (p ++ lit ":") i []).2
          = [testKeys.map (fullKey (p ++ lit ":"))]
      ∧ Ev.printf scanOkFormat [.d 3] ∈ (tikvSteps now storeKV (p ++ lit ":") i []).2
      ∧ ∀ e ∈ (tikvSteps now storeKV (p ++ lit ":") i []).2,
          e.format? = some scanOkFormat → e = Ev.printf scanOkFormat [.d 3])
    ∧ (scannedKeys (tidbBody now storeSQL (p ++ lit ":") db tbl i []).2
          = [testKeys.map (fullKey (p ++ lit ":"))]
      ∧ Ev.printf scanOkFormat [.d 3] ∈ (tidbBody now storeSQL (p ++ lit ":") db tbl i []).2
      ∧ ∀ e ∈ (tidbBody now storeSQL (p ++ lit ":") db tbl i []).2,
          e.format? = some scanOkFormat → e = Ev.printf scanOkFormat [.d 3])
    ∧ (scannedKeys (chBody now storeSQL (p ++ lit ":") db tbl i []).2
          = [testKeys.map (fullKey (p ++ lit ":"))]
      ∧ Ev.printf scanOkFormat [.d 3] ∈ (chBody now storeSQL (p ++ lit ":") db tbl i []).2
      ∧ ∀ e ∈ (chBody now storeSQL (p ++ lit ":") db tbl i []).2,
          e.format? = some scanOkFormat → e = Ev.printf scanOkFormat [.d 3]) := by
  rw [tikvSteps_reference, chBody_reference, tidbBody_reference]
  refine ⟨?_, ?_, ?_, ?_⟩
  · simp only [addPrefix, inRange_append_left]
    decide
  · simp [tikvRefTrace, scannedKeys, testKeys, scanOkFormat, Ev.format?]
  · simp [tidbRefTrace, sqlRefTrace14, scannedKeys, testKeys, scanOkFormat, Ev.format?]
  · simp [chRefTrace, sqlRefTrace14, scannedKeys, testKeys, scanOkFormat, Ev.format?]

/-- C5: for every prefix and every key `k`, if `k` lies in the scan range, that is
`addPrefix("test_key_") <= k < addPrefix("test_key_z")` byte-wise, then `k` begins
with `addPrefix("test_key_")`. -/
theorem C5_scan_range_within_prefix (pfx k : GoString)
    (h : inRange (addPrefix pfx (baseKey ++ lit "_")) (addPrefix pfx (baseKey ++ lit "_z")) k
      = true) :
    HasPrefix k (addPrefix pfx (baseKey ++ lit "_")) = true
    ∧ ∃ rest, k = addPrefix pfx (baseKey ++ lit "_") ++ rest := by
  have hz : addPrefix pfx (baseKey ++ lit "_z") = addPrefix pfx (baseKey ++ lit "_") ++ [122] := by
    simp [addPrefix, baseKey, lit]
  rw [hz] at h
  simp only [inRange, Bool.and_eq_true] at h
  have hp := hasPrefix_of_between 122 _ k h.1 h.2
  exact ⟨hp, exists_of_HasPrefix _ _ hp⟩

/-- C5 at the key `devops:test_key_1`. -/
theorem C5_scan_range_within_prefix_witness :
    inRange (addPrefix (lit "devops:") (baseKey ++ lit "_"))
        (addPrefix (lit "devops:") (baseKey ++ lit "_z")) (lit "devops:test_key_1") = true
    ∧ (HasPrefix (lit "devops:test_key_1") (addPrefix (lit "devops:") (baseKey ++ lit "_")) = true
      ∧ ∃ rest, lit "devops:test_key_1"
          = addPrefix (lit "devops:") (baseKey ++ lit "_") ++ rest) :=
  ⟨by decide, C5_scan_range_within_prefix (lit "devops:") (lit "devops:test_key_1") (by decide)⟩


/-! ## Claims C7 and C8: seed insert and read-back, for every backend -/

/-- C7: in each of the three key-value scripts, whatever the backend returns, the
seed-insert step attempts the three seed writes (`test_key_1`, `test_key_2`,
`test_key_3` with their initial values) exactly once each and in that order; a seed
write that returned an error is directly followed by its log line; and the later
steps still run: the update write, the scan and the final read are each issued. -/
theorem C7_seed_insert_attempts_all {σ : Type} (now : σ → GoString) (client : RawKVClient σ)
    (db : SqlDB σ) (pfx d tb : GoString) (i : Nat) (s : σ) :
    SeedInsertProperty pfx (tikvSteps now client pfx i s).2
    ∧ SeedInsertProperty pfx (chSteps now db pfx d tb i s).2
    ∧ SeedInsertProperty pfx (tidbSteps now db pfx d tb i s).2 :=
  ⟨tikvSteps_seedInsert now client pfx i s, chSteps_seedInsert now db pfx d tb i s,
    tidbSteps_seedInsert now db pfx d tb i s⟩

/-- C8: in each of the three key-value scripts, whatever the backend returns, the
keys read by the read-back step are, in order, exactly the keys of the seed writes
that returned no error: record `j` is read if and only if its write succeeded, and a
failed or not-found read does not stop the reads of the remaining records. -/
theorem C8_read_back_reads_inserted {σ : Type} (now : σ → GoString) (client : RawKVClient σ)
    (db : SqlDB σ) (pfx d tb : GoString) (i : Nat) (s : σ) :
    ReadBackProperty (tikvSteps now client pfx i s).2
    ∧ ReadBackProperty (chSteps now db pfx d tb i s).2
    ∧ ReadBackProperty (tidbSteps now db pfx d tb i s).2 :=
  ⟨tikvSteps_readBack now client pfx i s, chSteps_readBack now db pfx d tb i s,
    tidbSteps_readBack now db pfx d tb i s⟩


/-! ## Claims C9 and C10: what is reported -/

/-- C9 (counterexample): against a backend whose reads return `stale` whatever was
written, the read-back of `devops:test_key_1` and the read after the update are each
directly followed by a success line carrying `stale`, although `stale` is neither the
initial value nor the updated value. -/
theorem C9_mismatch_reported_as_success :
    adjacentIn (Ev.call .readBack (.Get (lit "devops:test_key_1") (some (lit "stale")) none))
        (Ev.printf "✓ Key %s retrieved: %s\n" [.s (lit "test_key_1"), .s (lit "stale")])
        (tikvSteps (fun _ => lit "2025-01-01T00:00:00Z") staleKV (lit "devops:") 0 ()).2 = true
    ∧ adjacentIn
        (Ev.call .updateVerify (.Get (lit "devops:test_key_1") (some (lit "stale")) none))
        (Ev.printf "✓ Key %s updated to: %s\n" [.s (lit "test_key_1"), .s (lit "stale")])
        (tikvSteps (fun _ => lit "2025-01-01T00:00:00Z") staleKV (lit "devops:") 0 ()).2 = true
    ∧ (Ev.printf "✓ Key %s retrieved: %s\n"
        [.s (lit "test_key_1"), .s (lit "stale")]).isSuccess = true
    ∧ (Ev.printf "✓ Key %s updated to: %s\n"
        [.s (lit "test_key_1"), .s (lit "stale")]).isSuccess = true
    ∧ lit "stale" ≠ lit "Initial value for test key 1"
    ∧ lit "stale" ≠ updatedValue (lit "2025-01-01T00:00:00Z") := by
  decide

/-- C9 (amended): in each of the three key-value scripts, whatever the backend
returns, every read issued by the read-back step or by the update confirmation is
directly followed by a line: a success line carrying the value read when the read
returned a value without error (whether or not it equals the value written), and a
failure line when the read returned an error or no value. -/
theorem C9_read_reported_by_presence {σ : Type} (now : σ → GoString) (client : RawKVClient σ)
    (db : SqlDB σ) (pfx d tb : GoString) (i : Nat) (s : σ) :
    ReadReportProperty (tikvSteps now client pfx i s).2
    ∧ ReadReportProperty (chSteps now db pfx d tb i s).2
    ∧ ReadReportProperty (tidbSteps now db pfx d tb i s).2 :=
  ⟨tikvSteps_readReport now client pfx i s, chSteps_readReport now db pfx d tb i s,
    tidbSteps_readReport now db pfx d tb i s⟩

/-- C10 (counterexample): against a backend whose reads fail with `timeout` once a
delete has happened, the failed read that confirms the deletion of
`devops:test_key_2` is directly followed by the success line of the delete step, and
the failed final read of `devops:test_key_3` is directly followed by the completion
line, which is not a failure line and is the last event of the run. -/
theorem C10_read_errors_not_reported :
    adjacentIn
        (Ev.call .deleteVerify (.Get (lit "devops:test_key_2") none (some (lit "timeout"))))
        (Ev.printf "✓ Key %s deleted successfully\n" [.s (lit "test_key_2")])
        (tikvSteps (fun _ => lit "2025-01-01T00:00:00Z") flakyKV (lit "devops:") 0 false).2 = true
    ∧ adjacentIn
        (Ev.call .finalCheck (.Get (lit "devops:test_key_3") none (some (lit "timeout"))))
        (Ev.printf "✅ TiKV %d test completed\n" [.d 1])
        (tikvSteps (fun _ => lit "2025-01-01T00:00:00Z") flakyKV (lit "devops:") 0 false).2 = true
    ∧ (tikvSteps (fun _ => lit "2025-01-01T00:00:00Z") flakyKV (lit "devops:") 0 false).2.getLast?
        = some (Ev.printf "✅ TiKV %d test completed\n" [.d 1])
    ∧ (Ev.printf "✅ TiKV %d test completed\n" [.d 1]).isFailure = false
    ∧ (Ev.printf "✓ Key %s deleted successfully\n" [.s (lit "test_key_2")]).isSuccess = true := by
  decide

/-- C10 (amended): in the TiKV script, whatever the backend returns, every put, get,
scan or delete that returned an error, other than the get that confirms the
deletion, is directly followed by a line that is not a success line; that line is a
failure line, except after the final-check get, whose error prints nothing (the
next line is neither a failure nor a success line). -/
theorem C10_errors_reported_tikv {σ : Type} (now : σ → GoString) (client : RawKVClient σ)
    (pfx : GoString) (i : Nat) (s : σ) :
    ErrorReportProperty (tikvSteps now client pfx i s).2 :=
  tikvSteps_errorReport now client pfx i s

/-! ## Lemmas for the claims on keys, table names and the search count -/

theorem strLt_append_self (x s : GoString) : strLt (x ++ s) x = false := by
  induction x with
  | nil => cases s <;> rfl
  | cons a x ih => simp [strLt, ih]

theorem strLt_irrefl (x : GoString) : strLt x x = false := by
  simpa using strLt_append_self x []

theorem esInsert_found {σ : Type} (W : ESWorld σ) (client : EsClient σ) :
    ∀ (docs : List TestDocument) (s : σ),
      ∀ e ∈ (esInsert W client docs s).2, e.format? ≠ some foundFormat
  | [], _ => by simp [esInsert]
  | doc :: rest, s => by
    have ih := esInsert_found W client rest
    simp only [esInsert]
    repeat' split
    all_goals
      intro e he
      simp only [List.mem_cons] at he
      rcases he with rfl | rfl | he
      · simp [Ev.format?]
      · simp [Ev.format?, foundFormat]
      · exact ih _ e he

theorem esSearch_found {σ : Type} (client : EsClient σ) (ts : GoString) (s : σ) :
    ∀ e ∈ (esSearch client (testDocs ts) s).2,
      e.format? = some foundFormat → e.args.head? = some (.d 3) := by
  simp only [esSearch]
  repeat' split
  all_goals simp [Ev.format?, Ev.args, foundFormat, testDocs]

theorem esSimple_found {σ : Type} (client : EsClient σ) (site : Site) (q : EsReq)
    (f1 f2 f3 : String) (s : σ) (h1 : f1 ≠ foundFormat) (h2 : f2 ≠ foundFormat)
    (h3 : f3 ≠ foundFormat) :
    ∀ e ∈ (esSimple client site q f1 f2 f3 s).2, e.format? ≠ some foundFormat := by
  simp only [esSimple]
  repeat' split
  all_goals simp [Ev.format?, h1, h2, h3]

theorem esSearch_reported {σ : Type} (client : EsClient σ) (ts : GoString) (s : σ) :
    checkNext searchSucceeded foundThree (esSearch client (testDocs ts) s).2 = true := by
  simp only [esSearch]
  split
  · rename_i h
    simp [checkNext, searchSucceeded, h]
  · rename_i res h
    split
    · rename_i hr
      simp [checkNext, searchSucceeded, h, hr]
    · rename_i hr
      simp [checkNext, searchSucceeded, foundThree, h, hr, foundFormat, testDocs]

theorem searchSucceeded_of_sites {S : List Site} (h : .readBack ∉ S) :
    ∀ s ∈ S, ∀ c, searchSucceeded s c = false := by
  intro s hs c
  have : s ≠ .readBack := fun heq => h (heq ▸ hs)
  simp [searchSucceeded, this]

theorem esSteps_found {σ : Type} (W : ESWorld σ) (client : EsClient σ) (i : Nat) (s : σ) :
    ∀ e ∈ (esSteps W client i s).2, e.format? = some foundFormat → e.args.head? = some (.d 3) := by
  have hi := esInsert_found W client (testDocs (W.Now s)) s
  have hs := esSearch_found client (W.Now s) (esInsert W client (testDocs (W.Now s)) s).1
  have hx : ∀ (site : Site) (q : EsReq) (f1 f2 f3 : String) (s' : σ), f1 ≠ foundFormat →
      f2 ≠ foundFormat → f3 ≠ foundFormat →
      ∀ e ∈ (esSimple client site q f1 f2 f3 s').2,
        e.format? = some foundFormat → e.args.head? = some (.d 3) :=
    fun site q f1 f2 f3 s' h1 h2 h3 e he hf =>
      absurd hf (esSimple_found client site q f1 f2 f3 s' h1 h2 h3 e he)
  have hi' : ∀ e ∈ (esInsert W client (testDocs (W.Now s)) s).2,
      e.format? = some foundFormat → e.args.head? = some (.d 3) :=
    fun e he hf => absurd hf (hi e he)
  simp only [esSteps]
  split
  all_goals
    simp only [List.forall_mem_append, List.forall_mem_cons]
    repeat' constructor
    all_goals first
      | exact hi'
      | exact hs
      | exact hx _ _ _ _ _ _ (by decide) (by decide) (by decide)
      | simp [Ev.format?, foundFormat]

theorem esSteps_reported {σ : Type} (W : ESWorld σ) (client : EsClient σ) (i : Nat) (s : σ) :
    checkNext searchSucceeded foundThree (esSteps W client i s).2 = true := by
  simp only [esSteps]
  split
  all_goals
    repeat' first
      | apply checkNext_append
      | rw [checkNext_printf]
    all_goals first
      | rfl
      | exact esSearch_reported client _ _
      | exact checkNext_of_sites _ _ (searchSucceeded_of_sites (by decide)) _
          (esInsert_sites _ _ _ _)
      | exact checkNext_of_sites _ _ (searchSucceeded_of_sites (by decide)) _
          (esSimple_sites _ .update _ _ _ _ _)
      | exact checkNext_of_sites _ _ (searchSucceeded_of_sites (by decide)) _
          (esSimple_sites _ .delete _ _ _ _ _)
      | exact checkNext_of_sites _ _ (searchSucceeded_of_sites (by decide)) _
          (esSimple_sites _ .cleanup _ _ _ _ _)

/-! ## Claims C14, C17 and C18 -/

/-- C14: for every prefix and every logical key `k`, also when `k` is empty or itself
begins with the prefix, `removePrefix(addPrefix(k)) = k`. -/
theorem C14_removePrefix_addPrefix (pfx k : GoString) :
    removePrefix pfx (addPrefix pfx k) = k
    ∧ removePrefix pfx (addPrefix pfx []) = []
    ∧ removePrefix pfx (addPrefix pfx (pfx ++ k)) = pfx ++ k :=
  ⟨TrimPrefix_append pfx k, TrimPrefix_append pfx [], TrimPrefix_append pfx (pfx ++ k)⟩

/-- C17: for every prefix `p` and every suffix `s`, the key `addPrefix("test_key_" + s)`
lies in the scan range `[addPrefix("test_key_"), addPrefix("test_key_z"))` if and only
if `s` is byte-wise smaller than `"z"`; a suffix that starts with the byte of `z` or
a greater byte is outside the range. -/
theorem C17_scan_upper_bound (p s : GoString) :
    (inRange (addPrefix p (baseKey ++ lit "_")) (addPrefix p (baseKey ++ lit "_z"))
        (addPrefix p (baseKey ++ lit "_" ++ s)) = strLt s (lit "z"))
    ∧ (∀ b rest, 122 ≤ b →
        inRange (addPrefix p (baseKey ++ lit "_")) (addPrefix p (baseKey ++ lit "_z"))
          (addPrefix p (baseKey ++ lit "_" ++ (b :: rest))) = false) := by
  have hz : baseKey ++ lit "_z" = baseKey ++ lit "_" ++ lit "z" := by decide
  have h : ∀ t : GoString,
      inRange (addPrefix p (baseKey ++ lit "_")) (addPrefix p (baseKey ++ lit "_z"))
        (addPrefix p (baseKey ++ lit "_" ++ t)) = strLt t (lit "z") := by
    intro t
    simp only [addPrefix, inRange_append_left, hz]
    simp only [inRange, strGe, strLt_append_self, strLt_append_left, Bool.not_false,
      Bool.true_and]
  refine ⟨h s, ?_⟩
  intro b rest hb
  rw [h]
  have hl : lit "z" = [122] := by decide
  rw [hl]
  simp only [strLt]
  have h1 : ¬ b < 122 := by omega
  simp [h1]

/-- C17 at the prefix `devops:`: the key with the suffix `1` is in the scan range, the
key with the suffix `z` is not. -/
theorem C17_scan_upper_bound_witness :
    inRange (addPrefix (lit "devops:") (baseKey ++ lit "_"))
        (addPrefix (lit "devops:") (baseKey ++ lit "_z"))
        (addPrefix (lit "devops:") (baseKey ++ lit "_" ++ lit "1")) = strLt (lit "1") (lit "z")
    ∧ strLt (lit "1") (lit "z") = true
    ∧ (122 ≤ 122
      ∧ inRange (addPrefix (lit "devops:") (baseKey ++ lit "_"))
          (addPrefix (lit "devops:") (baseKey ++ lit "_z"))
          (addPrefix (lit "devops:") (baseKey ++ lit "_" ++ (122 :: []))) = false) :=
  ⟨(C17_scan_upper_bound (lit "devops:") (lit "1")).1, by decide,
    ⟨Nat.le_refl 122, (C17_scan_upper_bound (lit "devops:") (lit "1")).2 122 [] (Nat.le_refl 122)⟩⟩

/-- C18: in the Elasticsearch script, whatever the backend returns and however many
of the three inserts succeeded, every line that reports the number of documents
found reports 3, and a search that returned a non-error response is directly
followed by that line with the count 3. -/
theorem C18_search_always_reports_three {σ : Type} (W : ESWorld σ) (client : EsClient σ)
    (i : Nat) (s : σ) :
    (∀ e ∈ (esSteps W client i s).2,
        e.format? = some foundFormat → e.args.head? = some (.d 3))
    ∧ (∀ pre c post, (esSteps W client i s).2 = pre ++ Ev.call .readBack c :: post →
        searchSucceeded .readBack c = true →
        ∃ body post', post = Ev.printf foundFormat [.d 3, .s body] :: post') := by
  refine ⟨esSteps_found W client i s, ?_⟩
  intro pre c post ht hc
  have h := esSteps_reported W client i s
  rw [ht] at h
  obtain ⟨l, post', hp, hg⟩ := checkNext_spec _ _ pre _ c post h hc
  unfold foundThree at hg
  split at hg
  · exact ⟨_, post', by rw [hp, beq_iff_eq.1 hg]⟩
  · exact absurd hg (by simp)

/-- C18 on a backend whose every response is `200 OK` with an empty body: the search
step prints the count 3 with the body `...`, and every line that reports a number
of documents found reports 3. -/
theorem C18_search_always_reports_three_witness :
    Ev.printf foundFormat [.d 3, .s (lit "...")] ∈ (esSteps badHostES okES 0 []).2
    ∧ ∀ e ∈ (esSteps badHostES okES 0 []).2,
        e.format? = some foundFormat → e.args.head? = some (.d 3) :=
  ⟨by decide, (C18_search_always_reports_three badHostES okES 0 []).1⟩

/-! ## The requests of a run: keys and table names -/

theorem keysSent_append (a b : List Ev) : keysSent (a ++ b) = keysSent a ++ keysSent b := by
  induction a with
  | nil => rfl
  | cons e a ih => cases e <;> simp [keysSent, ih]

theorem stmtsIssued_append (a b : List Ev) :
    stmtsIssued (a ++ b) = stmtsIssued a ++ stmtsIssued b := by
  induction a with
  | nil => rfl
  | cons e a ih => cases e <;> simp [stmtsIssued, ih]

theorem requestsOK_nil (pfx db tbl : GoString) : RequestsOK pfx db tbl [] := by
  simp [RequestsOK, keysSent, stmtsIssued]

theorem requestsOK_append {pfx db tbl : GoString} {a b : List Ev} :
    RequestsOK pfx db tbl (a ++ b) ↔ RequestsOK pfx db tbl a ∧ RequestsOK pfx db tbl b := by
  simp only [RequestsOK, keysSent_append, stmtsIssued_append, List.forall_mem_append]
  tauto

theorem requestsOK_printf {pfx db tbl : GoString} (f : String) (a : List Arg) (t : List Ev) :
    RequestsOK pfx db tbl (Ev.printf f a :: t) ↔ RequestsOK pfx db tbl t := Iff.rfl

theorem requestsOK_logf {pfx db tbl : GoString} (f : String) (a : List Arg) (t : List Ev) :
    RequestsOK pfx db tbl (Ev.logf f a :: t) ↔ RequestsOK pfx db tbl t := Iff.rfl

theorem requestsOK_fatalf {pfx db tbl : GoString} (f : String) (a : List Arg) (t : List Ev) :
    RequestsOK pfx db tbl (Ev.fatalf f a :: t) ↔ RequestsOK pfx db tbl t := Iff.rfl

theorem requestsOK_call {pfx db tbl : GoString} (s : Site) (c : Call) (t : List Ev) :
    RequestsOK pfx db tbl (Ev.call s c :: t) ↔
      ((∀ key ∈ c.keys, ∃ k ∈ logicalKeys, key = addPrefix pfx k)
        ∧ (∀ q, c.stmt? = some q → ∀ x, q.table? = some x → x = (db, tbl)))
      ∧ RequestsOK pfx db tbl t := by
  simp only [RequestsOK, keysSent, stmtsIssued, List.forall_mem_append]
  cases h : c.stmt? with
  | none => simp; tauto
  | some q => simp; tauto

theorem ownKey_1 (pfx : GoString) :
    ∃ k ∈ logicalKeys, addPrefix pfx (baseKey ++ lit "_1") = addPrefix pfx k :=
  ⟨lit "test_key_1", by decide, by rfl⟩

theorem ownKey_2 (pfx : GoString) :
    ∃ k ∈ logicalKeys, addPrefix pfx (baseKey ++ lit "_2") = addPrefix pfx k :=
  ⟨lit "test_key_2", by decide, by rfl⟩

theorem ownKey_3 (pfx : GoString) :
    ∃ k ∈ logicalKeys, addPrefix pfx (baseKey ++ lit "_3") = addPrefix pfx k :=
  ⟨lit "test_key_3", by decide, by rfl⟩

theorem ownKey_lo (pfx : GoString) :
    ∃ k ∈ logicalKeys, addPrefix pfx (baseKey ++ lit "_") = addPrefix pfx k :=
  ⟨lit "test_key_", by decide, by rfl⟩

theorem ownKey_hi (pfx : GoString) :
    ∃ k ∈ logicalKeys, addPrefix pfx (baseKey ++ lit "_z") = addPrefix pfx k :=
  ⟨lit "test_key_z", by decide, by rfl⟩


theorem seedKey_logical (key : GoString) (h : key ∈ testKeys) :
    baseKey ++ lit "_" ++ key ∈ logicalKeys := by
  simp only [testKeys, List.mem_cons, List.mem_singleton, List.not_mem_nil, or_false] at h
  rcases h with rfl | rfl | rfl <;> decide

theorem requestsOK_map_printf (pfx db tbl : GoString) {α : Type} (f : String)
    (g : α → List Arg) :
    ∀ l : List α, RequestsOK pfx db tbl (l.map (fun x => Ev.printf f (g x)))
  | [] => requestsOK_nil _ _ _
  | _ :: l => by
    rw [List.map_cons, requestsOK_printf]
    exact requestsOK_map_printf pfx db tbl f g l

theorem sqlRows_requests (pfx' pfx db tbl : GoString) :
    ∀ rows : List (GoResult (GoString × GoString)), RequestsOK pfx db tbl (sqlRows pfx' rows).1
  | [] => requestsOK_nil _ _ _
  | .error _ :: _ => requestsOK_nil _ _ _
  | .ok (k, v) :: rest => by
    simp only [sqlRows]
    rw [requestsOK_printf]
    exact sqlRows_requests pfx' pfx db tbl rest

theorem tikvCreate_requests {σ : Type} (client : RawKVClient σ) (pfx db tbl : GoString) :
    ∀ (keys : List GoString) (j : Nat) (s : σ), (∀ k ∈ keys, k ∈ testKeys) →
      ItemsOK (tikvCreate client pfx j keys s).2.1 ∧ RequestsOK pfx db tbl (tikvCreate client pfx j keys s).2.2
  | [], _, _, _ => ⟨by simp [ItemsOK, tikvCreate], requestsOK_nil _ _ _⟩
  | key :: rest, j, s, hk => by
    have hkey : key ∈ testKeys := hk key (List.mem_cons_self _ _)
    have ih := fun s' => tikvCreate_requests client pfx db tbl rest (j + 1) s'
      (fun k h => hk k (List.mem_cons_of_mem _ h))
    have h1 := seedKey_logical key hkey
    simp only [tikvCreate]
    split
    · refine ⟨?_, ?_⟩
      · intro it hit
        simp only [List.mem_cons] at hit
        rcases hit with rfl | hit
        · exact Or.inl rfl
        · exact (ih _).1 it hit
      · rw [requestsOK_call, requestsOK_logf]
        refine ⟨⟨?_, ?_⟩, (ih _).2⟩
        · intro k hkk
          simp only [Call.keys, Stmt.keys, List.mem_singleton] at hkk
          exact ⟨_, h1, hkk⟩
        · simp [Call.stmt?, Stmt.table?]
    · refine ⟨?_, ?_⟩
      · intro it hit
        simp only [List.mem_cons] at hit
        rcases hit with rfl | hit
        · exact Or.inr h1
        · exact (ih _).1 it hit
      · rw [requestsOK_call, requestsOK_printf]
        refine ⟨⟨?_, ?_⟩, (ih _).2⟩
        · intro k hkk
          simp only [Call.keys, Stmt.keys, List.mem_singleton] at hkk
          exact ⟨_, h1, hkk⟩
        · simp [Call.stmt?, Stmt.table?]

theorem tikvRead_requests {σ : Type} (client : RawKVClient σ) (pfx db tbl : GoString) :
    ∀ (items : List TestKeyValue) (s : σ), ItemsOK items →
      RequestsOK pfx db tbl (tikvRead client pfx items s).2
  | [], _, _ => requestsOK_nil _ _ _
  | item :: rest, s, hi => by
    have ih := fun s' => tikvRead_requests client pfx db tbl rest s'
      (fun it h => hi it (List.mem_cons_of_mem _ h))
    have hit := hi item (List.mem_cons_self _ _)
    simp only [tikvRead]
    split
    · exact ih s
    · rename_i hne
      have hk : item.Key ∈ logicalKeys := hit.resolve_left hne
      repeat' split
      all_goals
        first
          | rw [requestsOK_call, requestsOK_logf]
          | rw [requestsOK_call, requestsOK_printf]
        refine ⟨⟨?_, ?_⟩, ih _⟩
        · intro k hkk
          simp only [Call.keys, Stmt.keys, List.mem_singleton] at hkk
          exact ⟨_, hk, hkk⟩
        · simp [Call.stmt?, Stmt.table?]

theorem tikvUpdate_requests {σ : Type} (client : RawKVClient σ) (pfx db tbl : GoString) (now : GoString) (s : σ) :
    RequestsOK pfx db tbl (tikvUpdate client pfx now s).2 := by
  simp only [tikvUpdate]
  repeat' split
  all_goals simp [requestsOK_call, requestsOK_printf, requestsOK_logf, requestsOK_nil,
    Call.keys, Stmt.keys, Call.stmt?, Stmt.table?, ownKey_1, ownKey_2, ownKey_3, ownKey_lo, ownKey_hi]

theorem tikvScan_requests {σ : Type} (client : RawKVClient σ) (pfx db tbl : GoString) (s : σ) :
    RequestsOK pfx db tbl (tikvScan client pfx s).2 := by
  simp only [tikvScan]
  split
  · simp [requestsOK_call, requestsOK_printf, requestsOK_logf, requestsOK_nil,
    Call.keys, Stmt.keys, Call.stmt?, Stmt.table?, ownKey_1, ownKey_2, ownKey_3, ownKey_lo, ownKey_hi]
  · rw [requestsOK_call, requestsOK_printf]
    refine ⟨⟨?_, ?_⟩, requestsOK_map_printf _ _ _ _ _ _⟩
    · simp [Call.keys, ownKey_lo, ownKey_hi]
    · simp [Call.stmt?]

theorem tikvFinal_requests {σ : Type} (client : RawKVClient σ) (pfx db tbl : GoString) (s : σ) :
    RequestsOK pfx db tbl (tikvFinal client pfx s).2 := by
  simp only [tikvFinal]
  repeat' split
  all_goals simp [requestsOK_call, requestsOK_printf, requestsOK_logf, requestsOK_nil,
    Call.keys, Stmt.keys, Call.stmt?, Stmt.table?, ownKey_1, ownKey_2, ownKey_3, ownKey_lo, ownKey_hi]

theorem tikvDelete_requests {σ : Type} (client : RawKVClient σ) (pfx db tbl : GoString) (s : σ) :
    RequestsOK pfx db tbl (tikvDelete client pfx s).2 := by
  simp only [tikvDelete]
  repeat' split
  all_goals simp [requestsOK_call, requestsOK_printf, requestsOK_logf, requestsOK_nil,
    Call.keys, Stmt.keys, Call.stmt?, Stmt.table?, ownKey_1, ownKey_2, ownKey_3, ownKey_lo, ownKey_hi]

theorem tikvCleanup_requests {σ : Type} (client : RawKVClient σ) (pfx db tbl : GoString) :
    ∀ (items : List TestKeyValue) (s : σ), ItemsOK items →
      RequestsOK pfx db tbl (tikvCleanup client pfx items s).2
  | [], _, _ => requestsOK_nil _ _ _
  | item :: rest, s, hi => by
    have ih := fun s' => tikvCleanup_requests client pfx db tbl rest s'
      (fun it h => hi it (List.mem_cons_of_mem _ h))
    have hit := hi item (List.mem_cons_self _ _)
    simp only [tikvCleanup]
    split
    · exact ih s
    · rename_i hne
      have hk : item.Key ∈ logicalKeys := hit.resolve_left hne
      split
      · exact ih s
      · split
        all_goals
          first
            | rw [requestsOK_call, requestsOK_logf]
            | rw [requestsOK_call]
          refine ⟨⟨?_, ?_⟩, ih _⟩
          · intro k hkk
            simp only [Call.keys, Stmt.keys, List.mem_singleton] at hkk
            exact ⟨_, hk, hkk⟩
          · simp [Call.stmt?, Stmt.table?]

theorem tikvSteps_requests {σ : Type} (now : σ → GoString) (client : RawKVClient σ)
    (pfx db tbl : GoString) (i : Nat) (s : σ) :
    RequestsOK pfx db tbl (tikvSteps now client pfx i s).2 := by
  obtain ⟨u, s2, s3, s4, s5, s6, h⟩ := tikvSteps_split now client pfx i s
  have hc := tikvCreate_requests client pfx db tbl testKeys 0 s (fun _ h => h)
  rw [h]
  simp only [requestsOK_append, requestsOK_printf]
  refine ⟨⟨⟨⟨⟨⟨⟨?_, ?_⟩, ?_⟩, ?_⟩, ?_⟩, ?_⟩, ?_⟩, ?_⟩
  all_goals first
    | exact requestsOK_nil _ _ _
    | exact hc.2
    | exact tikvRead_requests client pfx db tbl _ _ hc.1
    | exact tikvUpdate_requests client pfx db tbl _ _
    | exact tikvScan_requests client pfx db tbl _
    | exact tikvFinal_requests client pfx db tbl _
    | exact tikvDelete_requests client pfx db tbl _
    | exact tikvCleanup_requests client pfx db tbl _ _ hc.1

theorem chCreate_requests {σ : Type} (db : SqlDB σ) (pfx d tb : GoString) :
    ∀ (keys : List GoString) (j : Nat) (s : σ), (∀ k ∈ keys, k ∈ testKeys) →
      ItemsOK (chCreate db pfx d tb j keys s).2.1 ∧ RequestsOK pfx d tb (chCreate db pfx d tb j keys s).2.2
  | [], _, _, _ => ⟨by simp [ItemsOK, chCreate], requestsOK_nil _ _ _⟩
  | key :: rest, j, s, hk => by
    have hkey : key ∈ testKeys := hk key (List.mem_cons_self _ _)
    have ih := fun s' => chCreate_requests db pfx d tb rest (j + 1) s'
      (fun k h => hk k (List.mem_cons_of_mem _ h))
    have h1 := seedKey_logical key hkey
    simp only [chCreate]
    split
    · refine ⟨?_, ?_⟩
      · intro it hit
        simp only [List.mem_cons] at hit
        rcases hit with rfl | hit
        · exact Or.inl rfl
        · exact (ih _).1 it hit
      · rw [requestsOK_call, requestsOK_logf]
        refine ⟨⟨?_, ?_⟩, (ih _).2⟩
        · intro k hkk
          simp only [Call.keys, Stmt.keys, List.mem_singleton] at hkk
          exact ⟨_, h1, hkk⟩
        · simp [Call.stmt?, Stmt.table?]
    · refine ⟨?_, ?_⟩
      · intro it hit
        simp only [List.mem_cons] at hit
        rcases hit with rfl | hit
        · exact Or.inr h1
        · exact (ih _).1 it hit
      · rw [requestsOK_call, requestsOK_printf]
        refine ⟨⟨?_, ?_⟩, (ih _).2⟩
        · intro k hkk
          simp only [Call.keys, Stmt.keys, List.mem_singleton] at hkk
          exact ⟨_, h1, hkk⟩
        · simp [Call.stmt?, Stmt.table?]

theorem chRead_requests {σ : Type} (db : SqlDB σ) (pfx d tb : GoString) :
    ∀ (items : List TestKeyValue) (s : σ), ItemsOK items →
      RequestsOK pfx d tb (chRead db pfx d tb items s).2
  | [], _, _ => requestsOK_nil _ _ _
  | item :: rest, s, hi => by
    have ih := fun s' => chRead_requests db pfx d tb rest s'
      (fun it h => hi it (List.mem_cons_of_mem _ h))
    have hit := hi item (List.mem_cons_self _ _)
    simp only [chRead]
    split
    · exact ih s
    · rename_i hne
      have hk : item.Key ∈ logicalKeys := hit.resolve_left hne
      repeat' split
      all_goals
        first
          | rw [requestsOK_call, requestsOK_logf]
          | rw [requestsOK_call, requestsOK_printf]
        refine ⟨⟨?_, ?_⟩, ih _⟩
        · intro k hkk
          simp only [Call.keys, Stmt.keys, List.mem_singleton] at hkk
          exact ⟨_, hk, hkk⟩
        · simp [Call.stmt?, Stmt.table?]

theorem chUpdate_requests {σ : Type} (db : SqlDB σ) (pfx d tb : GoString) (now : GoString) (s : σ) :
    RequestsOK pfx d tb (chUpdate db pfx d tb now s).2 := by
  simp only [chUpdate]
  repeat' split
  all_goals simp [requestsOK_call, requestsOK_printf, requestsOK_logf, requestsOK_nil,
    Call.keys, Stmt.keys, Call.stmt?, Stmt.table?, ownKey_1, ownKey_2, ownKey_3, ownKey_lo, ownKey_hi]

theorem chScan_requests {σ : Type} (db : SqlDB σ) (pfx d tb : GoString) (s : σ) :
    RequestsOK pfx d tb (chScan db pfx d tb s).2 := by
  simp only [chScan]
  split
  · simp [requestsOK_call, requestsOK_printf, requestsOK_logf, requestsOK_nil,
    Call.keys, Stmt.keys, Call.stmt?, Stmt.table?, ownKey_1, ownKey_2, ownKey_3, ownKey_lo, ownKey_hi]
  · dsimp only
    rw [requestsOK_append, requestsOK_call]
    refine ⟨⟨⟨?_, ?_⟩, sqlRows_requests _ _ _ _ _⟩, by simp [requestsOK_printf, requestsOK_nil]⟩
    · simp [Call.keys, Stmt.keys, ownKey_lo, ownKey_hi]
    · simp [Call.stmt?, Stmt.table?]

theorem chFinal_requests {σ : Type} (db : SqlDB σ) (pfx d tb : GoString) (s : σ) :
    RequestsOK pfx d tb (chFinal db pfx d tb s).2 := by
  simp only [chFinal]
  repeat' split
  all_goals simp [requestsOK_call, requestsOK_printf, requestsOK_logf, requestsOK_nil,
    Call.keys, Stmt.keys, Call.stmt?, Stmt.table?, ownKey_1, ownKey_2, ownKey_3, ownKey_lo, ownKey_hi]

theorem chDelete_requests {σ : Type} (db : SqlDB σ) (pfx d tb : GoString) (s : σ) :
    RequestsOK pfx d tb (chDelete db pfx d tb s).2 := by
  simp only [chDelete]
  repeat' split
  all_goals simp [requestsOK_call, requestsOK_printf, requestsOK_logf, requestsOK_nil,
    Call.keys, Stmt.keys, Call.stmt?, Stmt.table?, ownKey_1, ownKey_2, ownKey_3, ownKey_lo, ownKey_hi]

theorem chCleanup_requests {σ : Type} (db : SqlDB σ) (pfx d tb : GoString) :
    ∀ (items : List TestKeyValue) (s : σ), ItemsOK items →
      RequestsOK pfx d tb (chCleanup db pfx d tb items s).2
  | [], _, _ => requestsOK_nil _ _ _
  | item :: rest, s, hi => by
    have ih := fun s' => chCleanup_requests db pfx d tb rest s'
      (fun it h => hi it (List.mem_cons_of_mem _ h))
    have hit := hi item (List.mem_cons_self _ _)
    simp only [chCleanup]
    split
    · exact ih s
    · rename_i hne
      have hk : item.Key ∈ logicalKeys := hit.resolve_left hne
      split
      · exact ih s
      · split
        all_goals
          first
            | rw [requestsOK_call, requestsOK_logf]
            | rw [requestsOK_call]
          refine ⟨⟨?_, ?_⟩, ih _⟩
          · intro k hkk
            simp only [Call.keys, Stmt.keys, List.mem_singleton] at hkk
            exact ⟨_, hk, hkk⟩
          · simp [Call.stmt?, Stmt.table?]

theorem chSteps_requests {σ : Type} (now : σ → GoString) (db : SqlDB σ)
    (pfx d tb : GoString) (i : Nat) (s : σ) :
    RequestsOK pfx d tb (chSteps now db pfx d tb i s).2 := by
  obtain ⟨u, s2, s3, s4, s5, s6, h⟩ := chSteps_split now db pfx d tb i s
  have hc := chCreate_requests db pfx d tb testKeys 0 s (fun _ h => h)
  rw [h]
  simp only [requestsOK_append, requestsOK_printf]
  refine ⟨⟨⟨⟨⟨⟨⟨?_, ?_⟩, ?_⟩, ?_⟩, ?_⟩, ?_⟩, ?_⟩, ?_⟩
  all_goals first
    | exact requestsOK_nil _ _ _
    | exact hc.2
    | exact chRead_requests db pfx d tb _ _ hc.1
    | exact chUpdate_requests db pfx d tb _ _
    | exact chScan_requests db pfx d tb _
    | exact chFinal_requests db pfx d tb _
    | exact chDelete_requests db pfx d tb _
    | exact chCleanup_requests db pfx d tb _ _ hc.1

theorem tidbCreate_requests {σ : Type} (db : SqlDB σ) (pfx d tb : GoString) :
    ∀ (keys : List GoString) (j : Nat) (s : σ), (∀ k ∈ keys, k ∈ testKeys) →
      ItemsOK (tidbCreate db pfx d tb j keys s).2.1 ∧ RequestsOK pfx d tb (tidbCreate db pfx d tb j keys s).2.2
  | [], _, _, _ => ⟨by simp [ItemsOK, tidbCreate], requestsOK_nil _ _ _⟩
  | key :: rest, j, s, hk => by
    have hkey : key ∈ testKeys := hk key (List.mem_cons_self _ _)
    have ih := fun s' => tidbCreate_requests db pfx d tb rest (j + 1) s'
      (fun k h => hk k (List.mem_cons_of_mem _ h))
    have h1 := seedKey_logical key hkey
    simp only [tidbCreate]
    split
    · refine ⟨?_, ?_⟩
      · intro it hit
        simp only [List.mem_cons] at hit
        rcases hit with rfl | hit
        · exact Or.inl rfl
        · exact (ih _).1 it hit
      · rw [requestsOK_call, requestsOK_logf]
        refine ⟨⟨?_, ?_⟩, (ih _).2⟩
        · intro k hkk
          simp only [Call.keys, Stmt.keys, List.mem_singleton] at hkk
          exact ⟨_, h1, hkk⟩
        · simp [Call.stmt?, Stmt.table?]
    · refine ⟨?_, ?_⟩
      · intro it hit
        simp only [List.mem_cons] at hit
        rcases hit with rfl | hit
        · exact Or.inr h1
        · exact (ih _).1 it hit
      · rw [requestsOK_call, requestsOK_printf]
        refine ⟨⟨?_, ?_⟩, (ih _).2⟩
        · intro k hkk
          simp only [Call.keys, Stmt.keys, List.mem_singleton] at hkk
          exact ⟨_, h1, hkk⟩
        · simp [Call.stmt?, Stmt.table?]

theorem tidbRead_requests {σ : Type} (db : SqlDB σ) (pfx d tb : GoString) :
    ∀ (items : List TestKeyValue) (s : σ), ItemsOK items →
      RequestsOK pfx d tb (tidbRead db pfx d tb items s).2
  | [], _, _ => requestsOK_nil _ _ _
  | item :: rest, s, hi => by
    have ih := fun s' => tidbRead_requests db pfx d tb rest s'
      (fun it h => hi it (List.mem_cons_of_mem _ h))
    have hit := hi item (List.mem_cons_self _ _)
    simp only [tidbRead]
    split
    · exact ih s
    · rename_i hne
      have hk : item.Key ∈ logicalKeys := hit.resolve_left hne
      repeat' split
      all_goals
        first
          | rw [requestsOK_call, requestsOK_logf]
          | rw [requestsOK_call, requestsOK_printf]
        refine ⟨⟨?_, ?_⟩, ih _⟩
        · intro k hkk
          simp only [Call.keys, Stmt.keys, List.mem_singleton] at hkk
          exact ⟨_, hk, hkk⟩
        · simp [Call.stmt?, Stmt.table?]

theorem tidbUpdate_requests {σ : Type} (db : SqlDB σ) (pfx d tb : GoString) (now : GoString) (s : σ) :
    RequestsOK pfx d tb (tidbUpdate db pfx d tb now s).2 := by
  simp only [tidbUpdate]
  repeat' split
  all_goals simp [requestsOK_call, requestsOK_printf, requestsOK_logf, requestsOK_nil,
    Call.keys, Stmt.keys, Call.stmt?, Stmt.table?, ownKey_1, ownKey_2, ownKey_3, ownKey_lo, ownKey_hi]

theorem tidbScan_requests {σ : Type} (db : SqlDB σ) (pfx d tb : GoString) (s : σ) :
    RequestsOK pfx d tb (tidbScan db pfx d tb s).2 := by
  simp only [tidbScan]
  split
  · simp [requestsOK_call, requestsOK_printf, requestsOK_logf, requestsOK_nil,
    Call.keys, Stmt.keys, Call.stmt?, Stmt.table?, ownKey_1, ownKey_2, ownKey_3, ownKey_lo, ownKey_hi]
  · dsimp only
    rw [requestsOK_append, requestsOK_call]
    refine ⟨⟨⟨?_, ?_⟩, sqlRows_requests _ _ _ _ _⟩, by simp [requestsOK_printf, requestsOK_nil]⟩
    · simp [Call.keys, Stmt.keys, ownKey_lo, ownKey_hi]
    · simp [Call.stmt?, Stmt.table?]

theorem tidbFinal_requests {σ : Type} (db : SqlDB σ) (pfx d tb : GoString) (s : σ) :
    RequestsOK pfx d tb (tidbFinal db pfx d tb s).2 := by
  simp only [tidbFinal]
  repeat' split
  all_goals simp [requestsOK_call, requestsOK_printf, requestsOK_logf, requestsOK_nil,
    Call.keys, Stmt.keys, Call.stmt?, Stmt.table?, ownKey_1, ownKey_2, ownKey_3, ownKey_lo, ownKey_hi]

theorem tidbSteps_requests {σ : Type} (now : σ → GoString) (db : SqlDB σ)
    (pfx d tb : GoString) (i : Nat) (s : σ) :
    RequestsOK pfx d tb (tidbSteps now db pfx d tb i s).2 := by
  obtain ⟨u, s2, s3, s4, h⟩ := tidbSteps_split now db pfx d tb i s
  have hc := tidbCreate_requests db pfx d tb testKeys 0 s (fun _ h => h)
  rw [h]
  simp only [requestsOK_append, requestsOK_printf]
  refine ⟨⟨⟨⟨⟨?_, ?_⟩, ?_⟩, ?_⟩, ?_⟩, ?_⟩
  all_goals first
    | exact requestsOK_nil _ _ _
    | exact hc.2
    | exact tidbRead_requests db pfx d tb _ _ hc.1
    | exact tidbUpdate_requests db pfx d tb _ _
    | exact tidbScan_requests db pfx d tb _
    | exact tidbFinal_requests db pfx d tb _
theorem sqlRunDeferred_requests {σ : Type} (pfx db tbl : GoString) (k : Nat) :
    ∀ (l : List (Nat × SqlDB σ)) (s : σ),
      RequestsOK pfx db tbl (eventsOf k (sqlRunDeferred l s).2)
  | [], _ => requestsOK_nil _ _ _
  | (i, d) :: rest, s => by
    have ih := sqlRunDeferred_requests pfx db tbl k rest (d.Close s).1
    simp only [sqlRunDeferred, eventsOf, List.filter_cons]
    split
    · simp only [List.map_cons]
      rw [requestsOK_call]
      exact ⟨⟨by simp [Call.keys], by simp [Call.stmt?]⟩, ih⟩
    · exact ih

theorem tikvRunDeferred_requests {σ : Type} (pfx db tbl : GoString) (k : Nat) :
    ∀ (l : List (Nat × RawKVClient σ)) (s : σ),
      RequestsOK pfx db tbl (eventsOf k (tikvRunDeferred l s).2)
  | [], _ => requestsOK_nil _ _ _
  | (i, d) :: rest, s => by
    have ih := tikvRunDeferred_requests pfx db tbl k rest (d.Close s).1
    simp only [tikvRunDeferred, eventsOf, List.filter_cons]
    split
    · simp only [List.map_cons]
      rw [requestsOK_call]
      exact ⟨⟨by simp [Call.keys], by simp [Call.stmt?]⟩, ih⟩
    · exact ih

theorem chLoadCertFromFile_requests {σ : Type} (W : ClickHouseWorld σ) (p : GoString) (s : σ)
    (pfx db tbl : GoString) : RequestsOK pfx db tbl (chLoadCertFromFile W p s).2.2 := by
  simp only [chLoadCertFromFile]
  repeat' split
  all_goals simp [RequestsOK, keysSent, stmtsIssued, Call.keys, Call.stmt?]

theorem chGetTLSConfig_requests {σ : Type} (W : ClickHouseWorld σ) (c : ClickHouseConfig) (s : σ)
    (pfx db tbl : GoString) : RequestsOK pfx db tbl (chGetTLSConfig W c s).2.2 := by
  have h := chLoadCertFromFile_requests W
  simp only [chGetTLSConfig]
  repeat' split
  all_goals simp only [requestsOK_append, requestsOK_fatalf, requestsOK_call]
  all_goals simp [h, requestsOK_nil, Call.keys, Call.stmt?]

theorem chGetClient_requests {σ : Type} (W : ClickHouseWorld σ) (c : ClickHouseConfig) (s : σ)
    (pfx db tbl : GoString) : RequestsOK pfx db tbl (chGetClient W c s).2.2 := by
  have h := chGetTLSConfig_requests W c s pfx db tbl
  simp only [chGetClient]
  repeat' split
  all_goals simp only [requestsOK_append, requestsOK_logf, requestsOK_call]
  all_goals simp [h, requestsOK_nil, requestsOK_logf, Call.keys, Call.stmt?, Stmt.keys, Stmt.table?]
theorem chBody_requests {σ : Type} (now : σ → GoString) (db : SqlDB σ) (pfx d tb : GoString)
    (i : Nat) (s : σ) : RequestsOK pfx d tb (chBody now db pfx d tb i s).2 := by
  have h := chSteps_requests now db pfx d tb i
  simp only [chBody]
  repeat' split
  all_goals simp only [List.cons_append, List.nil_append, requestsOK_append, requestsOK_logf,
    requestsOK_printf, requestsOK_call]
  all_goals simp [h, requestsOK_nil, Call.keys, Call.stmt?, Stmt.keys, Stmt.table?]

theorem chInstance_requests {σ : Type} (W : ClickHouseWorld σ) (i : Nat) (c : ClickHouseConfig)
    (s : σ) :
    RequestsOK (c.Database ++ lit ":") c.Database (chTableName c) (chInstance W i c s).2.1 := by
  have hg := chGetClient_requests W c s (c.Database ++ lit ":") c.Database (chTableName c)
  simp only [chInstance]
  repeat' split
  all_goals simp only [List.cons_append, requestsOK_append, requestsOK_logf, requestsOK_printf]
  · exact hg
  · exact ⟨hg, requestsOK_nil _ _ _⟩
  · exact ⟨hg, chBody_requests _ _ _ _ _ _ _⟩

theorem chLoop_at {σ : Type} (W : ClickHouseWorld σ) :
    ∀ (cfgs : List ClickHouseConfig) (i0 : Nat) (s : σ) (j : Nat) (c : ClickHouseConfig),
      cfgs[j]? = some c →
      eventsOf (i0 + j) (chLoop W i0 cfgs s).2.1 = []
        ∨ ∃ s', eventsOf (i0 + j) (chLoop W i0 cfgs s).2.1 = (chInstance W (i0 + j) c s').2.1
  | [], _, _, _, _ => by simp
  | c0 :: rest, i0, s, j, c => by
    have ih := chLoop_at W rest (i0 + 1)
    intro hj
    simp only [chLoop]
    cases j with
    | zero =>
      simp only [List.getElem?_cons_zero, Option.some.injEq] at hj
      subst hj
      refine Or.inr ⟨s, ?_⟩
      split
      · exact eventsOf_tag_self _ _
      · rw [Nat.add_zero, eventsOf_append, eventsOf_tag_self, eventsOf_eq_nil, List.append_nil]
        intro e he
        have := chLoop_tags W rest (i0 + 1) _ e he
        omega
    | succ j =>
      simp only [List.getElem?_cons_succ] at hj
      have hidx : i0 + (j + 1) = i0 + 1 + j := by omega
      split
      · exact Or.inl (eventsOf_tag_ne (by omega) _)
      · rw [hidx, eventsOf_append, eventsOf_tag_ne (by omega), List.nil_append]
        exact ih _ j c hj

theorem ch_requests {σ : Type} (W : ClickHouseWorld σ) (cfgs : List ClickHouseConfig) (s : σ)
    (i : Nat) (c : ClickHouseConfig) (hi : cfgs[i]? = some c) :
    RequestsOK (c.Database ++ lit ":") c.Database (chTableName c)
      (eventsOf i (TestClickHouse W cfgs s).2.1) := by
  have hl : RequestsOK (c.Database ++ lit ":") c.Database (chTableName c)
      (eventsOf i (chLoop W 0 cfgs s).2.1) := by
    rcases chLoop_at W cfgs 0 s i c hi with h | ⟨s', h⟩
    · rw [Nat.zero_add] at h
      rw [h]
      exact requestsOK_nil _ _ _
    · rw [Nat.zero_add] at h
      rw [h]
      exact chInstance_requests W i c s'
  simp only [TestClickHouse]
  split
  · exact hl
  · rw [eventsOf_append, requestsOK_append]
    exact ⟨hl, sqlRunDeferred_requests _ _ _ _ _ _⟩
theorem tidbLoadCertFromFile_requests {σ : Type} (W : TiDBWorld σ) (p : GoString) (s : σ)
    (pfx db tbl : GoString) : RequestsOK pfx db tbl (tidbLoadCertFromFile W p s).2.2 := by
  simp only [tidbLoadCertFromFile]
  repeat' split
  all_goals simp [RequestsOK, keysSent, stmtsIssued, Call.keys, Call.stmt?]

theorem tidbGetTLSConfig_requests {σ : Type} (W : TiDBWorld σ) (c : TiDBConfig) (s : σ)
    (pfx db tbl : GoString) : RequestsOK pfx db tbl (tidbGetTLSConfig W c s).2.2 := by
  have h := tidbLoadCertFromFile_requests W
  simp only [tidbGetTLSConfig]
  repeat' split
  all_goals simp only [List.cons_append, requestsOK_logf, requestsOK_append, requestsOK_fatalf,
    requestsOK_call]
  all_goals simp [h, requestsOK_nil, requestsOK_logf, requestsOK_call, Call.keys, Call.stmt?]

theorem tidbGetClient_requests {σ : Type} (W : TiDBWorld σ) (c : TiDBConfig) (s : σ)
    (pfx db tbl : GoString) : RequestsOK pfx db tbl (tidbGetClient W c s).2.2 := by
  have h := tidbGetTLSConfig_requests W c s pfx db tbl
  simp only [tidbGetClient]
  repeat' split
  all_goals simp only [requestsOK_append, requestsOK_logf, requestsOK_call]
  all_goals simp [h, requestsOK_nil, requestsOK_logf, Call.keys, Call.stmt?, Stmt.keys, Stmt.table?]

theorem tidbBody_requests {σ : Type} (now : σ → GoString) (db : SqlDB σ) (pfx d tb : GoString)
    (i : Nat) (s : σ) : RequestsOK pfx d tb (tidbBody now db pfx d tb i s).2 := by
  have h := tidbSteps_requests now db pfx d tb i
  simp only [tidbBody]
  repeat' split
  all_goals simp only [List.cons_append, List.nil_append, requestsOK_append, requestsOK_logf,
    requestsOK_printf, requestsOK_call]
  all_goals simp [h, requestsOK_nil, Call.keys, Call.stmt?, Stmt.keys, Stmt.table?]

theorem tidbInstance_requests {σ : Type} (W : TiDBWorld σ) (i : Nat) (c : TiDBConfig)
    (s : σ) :
    RequestsOK (c.Database ++ lit ":") c.Database (tidbTableName c) (tidbInstance W i c s).2.1 := by
  have hg := tidbGetClient_requests W c s (c.Database ++ lit ":") c.Database (tidbTableName c)
  simp only [tidbInstance]
  repeat' split
  all_goals simp only [List.cons_append, requestsOK_append, requestsOK_logf, requestsOK_printf]
  · exact hg
  · exact ⟨hg, requestsOK_nil _ _ _⟩
  · exact ⟨hg, tidbBody_requests _ _ _ _ _ _ _⟩

theorem tidbLoop_at {σ : Type} (W : TiDBWorld σ) :
    ∀ (cfgs : List TiDBConfig) (i0 : Nat) (s : σ) (j : Nat) (c : TiDBConfig),
      cfgs[j]? = some c →
      eventsOf (i0 + j) (tidbLoop W i0 cfgs s).2.1 = []
        ∨ ∃ s', eventsOf (i0 + j) (tidbLoop W i0 cfgs s).2.1 = (tidbInstance W (i0 + j) c s').2.1
  | [], _, _, _, _ => by simp
  | c0 :: rest, i0, s, j, c => by
    have ih := tidbLoop_at W rest (i0 + 1)
    intro hj
    simp only [tidbLoop]
    cases j with
    | zero =>
      simp only [List.getElem?_cons_zero, Option.some.injEq] at hj
      subst hj
      refine Or.inr ⟨s, ?_⟩
      split
      · exact eventsOf_tag_self _ _
      · rw [Nat.add_zero, eventsOf_append, eventsOf_tag_self, eventsOf_eq_nil, List.append_nil]
        intro e he
        have := tidbLoop_tags W rest (i0 + 1) _ e he
        omega
    | succ j =>
      simp only [List.getElem?_cons_succ] at hj
      have hidx : i0 + (j + 1) = i0 + 1 + j := by omega
      split
      · exact Or.inl (eventsOf_tag_ne (by omega) _)
      · rw [hidx, eventsOf_append, eventsOf_tag_ne (by omega), List.nil_append]
        exact ih _ j c hj

theorem tidb_requests {σ : Type} (W : TiDBWorld σ) (cfgs : List TiDBConfig) (s : σ)
    (i : Nat) (c : TiDBConfig) (hi : cfgs[i]? = some c) :
    RequestsOK (c.Database ++ lit ":") c.Database (tidbTableName c)
      (eventsOf i (TestTiDB W cfgs s).2.1) := by
  have hl : RequestsOK (c.Database ++ lit ":") c.Database (tidbTableName c)
      (eventsOf i (tidbLoop W 0 cfgs s).2.1) := by
    rcases tidbLoop_at W cfgs 0 s i c hi with h | ⟨s', h⟩
    · rw [Nat.zero_add] at h
      rw [h]
      exact requestsOK_nil _ _ _
    · rw [Nat.zero_add] at h
      rw [h]
      exact tidbInstance_requests W i c s'
  simp only [TestTiDB]
  split
  · exact hl
  · rw [eventsOf_append, requestsOK_append]
    exact ⟨hl, sqlRunDeferred_requests _ _ _ _ _ _⟩
theorem tikvGetClient_requests {σ : Type} (W : TiKVWorld σ) (pdAddr : GoString) (TLS : Bool)
    (ca cert key : GoString) (s : σ) (pfx db tbl : GoString) :
    RequestsOK pfx db tbl (tikvGetClient W pdAddr TLS ca cert key s).2.2 := by
  simp only [tikvGetClient]
  repeat' split
  all_goals simp [requestsOK_logf, requestsOK_call, requestsOK_nil, Call.keys, Call.stmt?]

theorem tikvInstance_requests {σ : Type} (W : TiKVWorld σ) (i : Nat) (c : TiKVConfig) (s : σ)
    (db tbl : GoString) :
    RequestsOK (c.Prefix ++ lit ":") db tbl (tikvInstance W i c s).2.1 := by
  have hg := tikvGetClient_requests W
  simp only [tikvInstance]
  split
  all_goals simp only [List.cons_append, requestsOK_append, requestsOK_logf, requestsOK_printf]
  · exact ⟨hg _ _ _ _ _ _ _ _ _, requestsOK_nil _ _ _⟩
  · exact ⟨hg _ _ _ _ _ _ _ _ _, tikvSteps_requests _ _ _ _ _ _ _⟩

theorem tikvLoop_tags {σ : Type} (W : TiKVWorld σ) :
    ∀ (cfgs : List TiKVConfig) (i0 : Nat) (s : σ), ∀ e ∈ (tikvLoop W i0 cfgs s).2.1, i0 ≤ e.1
  | [], _, _ => by simp [tikvLoop]
  | c :: rest, i0, s => by
    have ih := tikvLoop_tags W rest (i0 + 1)
    simp only [tikvLoop]
    intro e he
    rw [List.mem_append, List.mem_map] at he
    rcases he with ⟨_, -, rfl⟩ | he
    · exact Nat.le_refl _
    · exact Nat.le_of_succ_le (ih _ e he)

theorem tikvLoop_at {σ : Type} (W : TiKVWorld σ) :
    ∀ (cfgs : List TiKVConfig) (i0 : Nat) (s : σ) (j : Nat) (c : TiKVConfig),
      cfgs[j]? = some c →
      ∃ s', eventsOf (i0 + j) (tikvLoop W i0 cfgs s).2.1 = (tikvInstance W (i0 + j) c s').2.1
  | [], _, _, _, _ => by simp
  | c0 :: rest, i0, s, j, c => by
    have ih := tikvLoop_at W rest (i0 + 1)
    intro hj
    simp only [tikvLoop]
    cases j with
    | zero =>
      simp only [List.getElem?_cons_zero, Option.some.injEq] at hj
      subst hj
      refine ⟨s, ?_⟩
      rw [Nat.add_zero, eventsOf_append, eventsOf_tag_self, eventsOf_eq_nil, List.append_nil]
      intro e he
      have := tikvLoop_tags W rest (i0 + 1) _ e he
      omega
    | succ j =>
      simp only [List.getElem?_cons_succ] at hj
      have hidx : i0 + (j + 1) = i0 + 1 + j := by omega
      rw [hidx, eventsOf_append, eventsOf_tag_ne (by omega), List.nil_append]
      exact ih _ j c hj

theorem tikv_requests {σ : Type} (W : TiKVWorld σ) (cfgs : List TiKVConfig) (s : σ)
    (i : Nat) (c : TiKVConfig) (hi : cfgs[i]? = some c) (db tbl : GoString) :
    RequestsOK (c.Prefix ++ lit ":") db tbl (eventsOf i (TestTiKV W cfgs s).2) := by
  obtain ⟨s', h⟩ := tikvLoop_at W cfgs 0 s i c hi
  rw [Nat.zero_add] at h
  simp only [TestTiKV]
  rw [eventsOf_append, requestsOK_append, h]
  exact ⟨tikvInstance_requests W i c s' db tbl, tikvRunDeferred_requests _ _ _ _ _ _⟩
theorem logicalKeys_eq : logicalKeys =
    [[116, 101, 115, 116, 95, 107, 101, 121, 95, 49],
     [116, 101, 115, 116, 95, 107, 101, 121, 95, 50],
     [116, 101, 115, 116, 95, 107, 101, 121, 95, 51],
     [116, 101, 115, 116, 95, 107, 101, 121, 95],
     [116, 101, 115, 116, 95, 107, 101, 121, 95, 122]] := by
  decide

theorem logicalKey_prefix_unique (p q k k' : GoString) (hk : k ∈ logicalKeys)
    (hk' : k' ∈ logicalKeys) (h : p ++ k = q ++ k') : p = q := by
  have hr := congrArg List.reverse h
  rw [logicalKeys_eq] at hk hk'
  simp only [List.mem_cons, List.mem_singleton, List.not_mem_nil, or_false] at hk hk'
  rcases hk with rfl | rfl | rfl | rfl | rfl <;> rcases hk' with rfl | rfl | rfl | rfl | rfl
  all_goals first
    | exact List.append_cancel_right h
    | (exfalso; simp at hr)

theorem ownKey_of {pfx key : GoString} (h : ∃ k ∈ logicalKeys, key = addPrefix pfx k) :
    OwnKey pfx key := by
  obtain ⟨k, hk, rfl⟩ := h
  exact ⟨⟨k, hk, rfl⟩, fun q k' hk' e => (logicalKey_prefix_unique pfx q k k' hk hk' e).symm⟩
/-! ## Claim C13: the keys of a run carry the prefix of its instance -/

/-- C13: for the TiKV, ClickHouse and TiDB functions, every list of configurations,
whatever the backends return, and every instance `i` of the list: every key sent to
the backend during the run of instance `i` (the deferred `Close` included) is the
identifier of configuration `i` (`Prefix` for TiKV, `Database` for ClickHouse and
TiDB), then `":"`, then one of the logical keys `test_key_1`, `test_key_2`,
`test_key_3`, `test_key_` and `test_key_z`; and it is no other prefix followed by a
logical key, so the prefix is the same from the first to the last operation of the
run and no key carries the prefix of an instance with another identifier or, unless
the identifier is `devops`, the initial `devops:`. -/
theorem C13_keys_of_own_instance {σ : Type} (Wk : TiKVWorld σ) (Wc : ClickHouseWorld σ)
    (Wt : TiDBWorld σ) (tikvConfigs : List TiKVConfig) (chs : List ClickHouseConfig)
    (tidbs : List TiDBConfig) (s : σ) (i : Nat) :
    (∀ c, tikvConfigs[i]? = some c →
      ∀ key ∈ keysSent (eventsOf i (TestTiKV Wk tikvConfigs s).2),
        OwnKey (c.Prefix ++ lit ":") key)
    ∧ (∀ c, chs[i]? = some c →
      ∀ key ∈ keysSent (eventsOf i (TestClickHouse Wc chs s).2.1),
        OwnKey (c.Database ++ lit ":") key)
    ∧ (∀ c, tidbs[i]? = some c →
      ∀ key ∈ keysSent (eventsOf i (TestTiDB Wt tidbs s).2.1),
        OwnKey (c.Database ++ lit ":") key) :=
  ⟨fun c hc key hkey => ownKey_of ((tikv_requests Wk tikvConfigs s i c hc [] []).1 key hkey),
    fun c hc key hkey => ownKey_of ((ch_requests Wc chs s i c hc).1 key hkey),
    fun c hc key hkey => ownKey_of ((tidb_requests Wt tidbs s i c hc).1 key hkey)⟩

/-- C13 at two TiKV instances with the prefixes `a` and `devops` on the reference
store: the second instance sends `devops:test_key_1`, and each of its keys is
`devops:` followed by a logical key and nothing else. -/
theorem C13_keys_of_own_instance_witness :
    lit "devops:test_key_1" ∈ keysSent (eventsOf 1
        (TestTiKV storeTiKV [tikvPlain "h1" "a", tikvPlain "h2" "devops"] []).2)
    ∧ ∀ key ∈ keysSent (eventsOf 1
        (TestTiKV storeTiKV [tikvPlain "h1" "a", tikvPlain "h2" "devops"] []).2),
      OwnKey (lit "devops:") key :=
  ⟨by decide,
    (C13_keys_of_own_instance storeTiKV storeCH storeTiDB
      [tikvPlain "h1" "a", tikvPlain "h2" "devops"] [] [] [] 1).1 (tikvPlain "h2" "devops") rfl⟩
/-! ## Claim C15: the effective table name -/

/-- C15: the effective table name of the ClickHouse function is never empty: it is
`DBTableName` if that is not empty, otherwise `LocalTableName` if that is not empty,
otherwise `main_dist`; that of the TiDB function is `TableName` if that is not empty,
otherwise `test`.  And it is the name used: whatever the backends return, every
statement issued during the run of instance `i` that names a table names the
database of configuration `i` and its effective table name. -/
theorem C15_effective_table_name {σ : Type} (Wc : ClickHouseWorld σ) (Wt : TiDBWorld σ)
    (chs : List ClickHouseConfig) (tidbs : List TiDBConfig) (s : σ) (i : Nat) :
    (∀ c : ClickHouseConfig, chTableName c ≠ []
      ∧ (c.DBTableName ≠ [] → chTableName c = c.DBTableName)
      ∧ (c.DBTableName = [] → c.LocalTableName ≠ [] → chTableName c = c.LocalTableName)
      ∧ (c.DBTableName = [] → c.LocalTableName = [] → chTableName c = lit "main_dist"))
    ∧ (∀ c : TiDBConfig, tidbTableName c ≠ []
      ∧ (c.TableName ≠ [] → tidbTableName c = c.TableName)
      ∧ (c.TableName = [] → tidbTableName c = lit "test"))
    ∧ (∀ c, chs[i]? = some c →
      ∀ q ∈ stmtsIssued (eventsOf i (TestClickHouse Wc chs s).2.1),
        ∀ x, q.table? = some x → x = (c.Database, chTableName c))
    ∧ (∀ c, tidbs[i]? = some c →
      ∀ q ∈ stmtsIssued (eventsOf i (TestTiDB Wt tidbs s).2.1),
        ∀ x, q.table? = some x → x = (c.Database, tidbTableName c)) := by
  refine ⟨fun c => ?_, fun c => ?_, fun c hc => (ch_requests Wc chs s i c hc).2,
    fun c hc => (tidb_requests Wt tidbs s i c hc).2⟩
  · simp only [chTableName]
    refine ⟨?_, ?_, ?_, ?_⟩
    · split
      · split
        · decide
        · assumption
      · assumption
    · intro h
      rw [if_neg h]
    · intro h1 h2
      rw [if_pos h1, if_neg h2]
    · intro h1 h2
      rw [if_pos h1, if_pos h2]
  · simp only [tidbTableName]
    refine ⟨?_, ?_, ?_⟩
    · split
      · decide
      · assumption
    · intro h
      rw [if_neg h]
    · intro h
      rw [if_pos h]

/-- C15 at a ClickHouse instance that names only a local table and a TiDB instance
that names no table, on the reference store: the statements of the first name
`devops.events`, those of the second `devops.test`. -/
theorem C15_effective_table_name_witness :
    chTableName { chPlain "a" with LocalTableName := lit "events" } = lit "events"
    ∧ tidbTableName (tidbPlain "b") = lit "test"
    ∧ (∀ q ∈ stmtsIssued (eventsOf 0
          (TestClickHouse storeCH [{ chPlain "a" with LocalTableName := lit "events" }] []).2.1),
        ∀ x, q.table? = some x → x = (lit "devops", lit "events"))
    ∧ (∀ q ∈ stmtsIssued (eventsOf 0 (TestTiDB storeTiDB [tidbPlain "b"] []).2.1),
        ∀ x, q.table? = some x → x = (lit "devops", lit "test")) :=
  have h := C15_effective_table_name storeCH storeTiDB
    [{ chPlain "a" with LocalTableName := lit "events" }] [tidbPlain "b"] [] 0
  ⟨(h.1 _).2.2.1 rfl (by decide), (h.2.1 _).2.2 rfl, h.2.2.1 _ rfl, h.2.2.2 _ rfl⟩

/-! ## Claim C16: when the sessions are released -/

/-- C16 (code at the failing inputs): two instances whose connections succeed.  For
TiKV and for ClickHouse on the reference store, and for ClickHouse when the table
creation of both instances fails, the session of instance 0 is still open when that
of instance 1 is opened: both `Close` calls run when the function returns, the last
deferred first, and two sessions are open at one time.  When loading the TLS
material of instance 1 ends the process, the session of instance 0 is never
closed. -/
theorem C16_sessions_released_at_return :
    sessions (TestTiKV storeTiKV [tikvPlain "h1" "a", tikvPlain "h2" "b"] []).2
        = [(0, true), (1, true), (1, false), (0, false)]
    ∧ maxOpen (TestTiKV storeTiKV [tikvPlain "h1" "a", tikvPlain "h2" "b"] []).2 = 2
    ∧ sessions (TestClickHouse storeCH [chPlain "a", chPlain "b"] []).2.1
        = [(0, true), (1, true), (1, false), (0, false)]
    ∧ maxOpen (TestClickHouse storeCH [chPlain "a", chPlain "b"] []).2.1 = 2
    ∧ setupFailedAt 0 (TestClickHouse failingSetupCH [chPlain "a", chPlain "b"] ()).2.1 = true
    ∧ sessions (TestClickHouse failingSetupCH [chPlain "a", chPlain "b"] ()).2.1
        = [(0, true), (1, true), (1, false), (0, false)]
    ∧ sessions (TestClickHouse failingSetupCH [chPlain "a", chTLSNoFiles "b"] ()).2.1
        = [(0, true)] := by
  decide
/-! ## Lemmas on the loading of TLS material -/

theorem callsWithin_widen (x : Site) {S : List Site} {t : List Ev} (h : callsWithin S t) :
    callsWithin (x :: S) t :=
  callsWithin_mono h (fun _ hx => List.mem_cons_of_mem _ hx)

theorem chLoadCertFromFile_ok {σ : Type} (W : ClickHouseWorld σ) (p : GoString) (s : σ)
    (d : GoString) (h : (chLoadCertFromFile W p s).2.1 = .ok d) :
    p ≠ [] ∧ (callsAt .tlsLoad (chLoadCertFromFile W p s).2.2).any tlsLoadFailed = false := by
  revert h
  simp only [chLoadCertFromFile]
  repeat' split
  all_goals simp_all [callsAt, tlsLoadFailed]

theorem chGetTLSConfig_fatal {σ : Type} (W : ClickHouseWorld σ) (c : ClickHouseConfig) (s : σ)
    (h : pathMissing c = true
      ∨ (callsAt .tlsLoad (chGetTLSConfig W c s).2.2).any tlsLoadFailed = true) :
    (chGetTLSConfig W c s).2.1 = .exited := by
  revert h
  simp only [chGetTLSConfig]
  split
  · rename_i h
    simp at h
    simp [pathMissing, h, callsAt_nil]
  repeat' split
  all_goals first
    | (intro _; rfl)
    | skip
  rename_i h1 _ _ h2 _ _ h3 _ h4
  have e1 := chLoadCertFromFile_ok W _ _ _ h1
  have e2 := chLoadCertFromFile_ok W _ _ _ h2
  have e3 := chLoadCertFromFile_ok W _ _ _ h3
  simp [pathMissing, e1, e2, e3, callsAt_append, callsAt_call, callsAt_nil, h4, tlsLoadFailed]
theorem chGetClient_tlsCalls {σ : Type} (W : ClickHouseWorld σ) (c : ClickHouseConfig) (s : σ) :
    callsAt .tlsLoad (chGetClient W c s).2.2
      = if c.TLS then callsAt .tlsLoad (chGetTLSConfig W c s).2.2 else [] := by
  cases hT : c.TLS
  · simp only [chGetClient, hT]
    repeat' split
    all_goals simp [callsAt_append, callsAt_call, callsAt_logf, callsAt_nil]
  · simp only [chGetClient, hT]
    repeat' split
    all_goals simp [callsAt_append, callsAt_call, callsAt_logf, callsAt_nil]

theorem chGetClient_exited {σ : Type} (W : ClickHouseWorld σ) (c : ClickHouseConfig) (s : σ) :
    (chGetClient W c s).2.1 = .exited
      ↔ c.TLS = true ∧ (chGetTLSConfig W c s).2.1 = .exited := by
  cases hT : c.TLS
  · simp only [chGetClient, hT]
    repeat' split
    all_goals simp_all
  · simp only [chGetClient, hT]
    repeat' split
    all_goals simp_all

theorem chGetClient_fatal {σ : Type} (W : ClickHouseWorld σ) (c : ClickHouseConfig) (s : σ)
    (h : pathMissing c = true
      ∨ (callsAt .tlsLoad (chGetClient W c s).2.2).any tlsLoadFailed = true) :
    (chGetClient W c s).2.1 = .exited := by
  rw [chGetClient_exited]
  rw [chGetClient_tlsCalls] at h
  cases hT : c.TLS
  · simp [pathMissing, hT] at h
  · simp only [hT, if_true] at h
    exact ⟨rfl, chGetTLSConfig_fatal W c s h⟩

theorem chGetClient_noConnect {σ : Type} (W : ClickHouseWorld σ) (c : ClickHouseConfig) (s : σ)
    (h : (chGetClient W c s).2.1 = .exited) :
    callsAt .connect (chGetClient W c s).2.2 = [] := by
  have hg : callsWithin [.tlsLoad] (chGetTLSConfig W c s).2.2 :=
    chGetTLSConfig_sites W c s (by decide)
  revert h
  simp only [chGetClient]
  repeat' split
  all_goals simp_all [callsAt_append, callsAt_call, callsAt_logf, callsAt_nil,
    callsAt_eq_nil hg (x := .connect) (by decide)]
theorem chBody_sites {σ : Type} (now : σ → GoString) (db : SqlDB σ) (pfx d tb : GoString)
    (i : Nat) (s : σ) :
    callsWithin (.namespaceSetup :: dataSites) (chBody now db pfx d tb i s).2 := by
  have h := callsWithin_widen Site.namespaceSetup (chSteps_sites now db pfx d tb i
    (db.ExecContext (Stmt.createDistTable d (tb ++ lit "_dist") tb)
      (db.ExecContext (Stmt.createLocalTable d tb) s).1).1)
  simp only [chBody]
  repeat' split
  all_goals simp [callsWithin_cons, callsWithin_append, Ev.site?, callsWithin_nil, h]

theorem chInstance_fatal {σ : Type} (W : ClickHouseWorld σ) (i : Nat) (c : ClickHouseConfig)
    (s : σ)
    (h : pathMissing c = true
      ∨ (callsAt .tlsLoad (chInstance W i c s).2.1).any tlsLoadFailed = true) :
    (chInstance W i c s).2.2.2 = true := by
  have hf := chGetClient_fatal W c s
  revert h
  simp only [chInstance]
  split
  · intro _
    rfl
  · rename_i err hg
    intro h
    rw [hg] at hf
    simp only [callsAt_printf, callsAt_append, callsAt_logf, callsAt_nil, List.append_nil] at h
    exact absurd (hf h) (by simp)
  · rename_i db hg
    intro h
    rw [hg] at hf
    simp only [callsAt_printf, callsAt_append,
      callsAt_eq_nil (chBody_sites _ _ _ _ _ _ _) (x := .tlsLoad) (by decide),
      List.append_nil] at h
    exact absurd (hf h) (by simp)

theorem chInstance_noConnect {σ : Type} (W : ClickHouseWorld σ) (i : Nat) (c : ClickHouseConfig)
    (s : σ) (h : (chInstance W i c s).2.2.2 = true) :
    callsAt .connect (chInstance W i c s).2.1 = [] := by
  have hn := chGetClient_noConnect W c s
  revert h
  simp only [chInstance]
  split
  · rename_i hg
    intro _
    simp only [callsAt_printf]
    exact hn hg
  · simp
  · simp

theorem chLoop_fatal {σ : Type} (W : ClickHouseWorld σ) :
    ∀ (cfgs : List ClickHouseConfig) (i0 : Nat) (s : σ) (j : Nat) (c : ClickHouseConfig),
      cfgs[j]? = some c →
      (pathMissing c = true ∨ tlsFailedAt (i0 + j) (chLoop W i0 cfgs s).2.1 = true) →
      (chLoop W i0 cfgs s).2.2.2 = true
        ∧ callsAt .connect (eventsOf (i0 + j) (chLoop W i0 cfgs s).2.1) = []
        ∧ ∀ k, i0 + j < k → eventsOf k (chLoop W i0 cfgs s).2.1 = []
  | [], _, _, _, _ => by simp
  | c0 :: rest, i0, s, j, c => by
    have ih := chLoop_fatal W rest (i0 + 1)
    intro hj
    simp only [chLoop, tlsFailedAt]
    split
    · rename_i hex
      intro _
      refine ⟨rfl, ?_, fun k hk => eventsOf_tag_ne (by omega) _⟩
      cases j with
      | zero =>
        simp only [List.getElem?_cons_zero, Option.some.injEq] at hj
        subst hj
        rw [Nat.add_zero, eventsOf_tag_self]
        exact chInstance_noConnect W i0 c0 s hex
      | succ j => rw [eventsOf_tag_ne (by omega)]; rfl
    · rename_i hex
      cases j with
      | zero =>
        simp only [List.getElem?_cons_zero, Option.some.injEq] at hj
        subst hj
        have hnil : eventsOf i0 (chLoop W (i0 + 1) rest (chInstance W i0 c0 s).1).2.1 = [] := by
          apply eventsOf_eq_nil
          intro e he
          have := chLoop_tags W rest (i0 + 1) _ e he
          omega
        rw [Nat.add_zero, eventsOf_append, eventsOf_tag_self, hnil, List.append_nil]
        intro h
        exact absurd (chInstance_fatal W i0 c0 s h) hex
      | succ j =>
        simp only [List.getElem?_cons_succ] at hj
        have hidx : i0 + (j + 1) = i0 + 1 + j := by omega
        rw [hidx, eventsOf_append, eventsOf_tag_ne (by omega), List.nil_append]
        intro h
        obtain ⟨h1, h2, h3⟩ := ih _ j c hj h
        refine ⟨h1, h2, fun k hk => ?_⟩
        rw [eventsOf_append, eventsOf_tag_ne (by omega), List.nil_append]
        exact h3 k hk

theorem ch_tls_fatal {σ : Type} (W : ClickHouseWorld σ) (cfgs : List ClickHouseConfig) (s : σ)
    (i : Nat) (c : ClickHouseConfig) (hi : cfgs[i]? = some c)
    (h : pathMissing c = true ∨ tlsFailedAt i (TestClickHouse W cfgs s).2.1 = true) :
    (TestClickHouse W cfgs s).2.2 = true
      ∧ callsAt .connect (eventsOf i (TestClickHouse W cfgs s).2.1) = []
      ∧ ∀ k, i < k → eventsOf k (TestClickHouse W cfgs s).2.1 = [] := by
  have hl := chLoop_fatal W cfgs 0 s i c hi
  rw [Nat.zero_add] at hl
  revert h
  simp only [TestClickHouse]
  split
  · intro h
    exact ⟨rfl, (hl h).2⟩
  · rename_i hex
    intro h
    have hd := sqlRunDeferred_sites i (chLoop W 0 cfgs s).2.2.1.reverse (chLoop W 0 cfgs s).1
    simp only [tlsFailedAt, eventsOf_append, callsAt_append,
      callsAt_eq_nil hd (x := .tlsLoad) (by decide), List.append_nil] at h
    exact absurd (hl h).1 hex
theorem tlsLoadFailed_register (n : GoString) :
    tlsLoadFailed (.RegisterTLSConfig n) = false := rfl

theorem tlsLoadFailed_parsed (a b : GoString) : tlsLoadFailed (.X509KeyPair a b none) = false :=
  rfl

theorem tidbLoadCertFromFile_ok {σ : Type} (W : TiDBWorld σ) (p : GoString) (s : σ)
    (d : Option GoString) (h : (tidbLoadCertFromFile W p s).2.1 = .ok d) :
    (callsAt .tlsLoad (tidbLoadCertFromFile W p s).2.2).any tlsLoadFailed = false := by
  revert h
  simp only [tidbLoadCertFromFile]
  repeat' split
  all_goals simp_all [callsAt, tlsLoadFailed]

theorem tidbGetTLSConfig_fatal {σ : Type} (W : TiDBWorld σ) (c : TiDBConfig) (s : σ)
    (h : (callsAt .tlsLoad (tidbGetTLSConfig W c s).2.2).any tlsLoadFailed = true) :
    (tidbGetTLSConfig W c s).2.1 = .exited := by
  have hl := tidbLoadCertFromFile_ok W
  revert h
  simp only [tidbGetTLSConfig]
  repeat' split
  all_goals first
    | (intro _; rfl)
    | skip
  all_goals try have e1 := hl c.SSLCACRT s _ (by assumption)
  all_goals try have e2 := hl c.SSLClientCRT _ _ (by assumption)
  all_goals try have e3 := hl c.SSLClientKey _ _ (by assumption)
  all_goals
    intro h
    exfalso
    revert h
    simp only [List.cons_append, callsAt_append, callsAt_call, callsAt_logf, callsAt_nil,
      List.any_append, List.any_cons, List.any_nil, if_true, tlsLoadFailed_register,
      tlsLoadFailed_parsed, Bool.or_false, Bool.false_or, List.append_nil]
    simp_all [tlsLoadFailed_parsed]
theorem tidbGetClient_tlsCalls {σ : Type} (W : TiDBWorld σ) (c : TiDBConfig) (s : σ) :
    callsAt .tlsLoad (tidbGetClient W c s).2.2 = callsAt .tlsLoad (tidbGetTLSConfig W c s).2.2 := by
  simp only [tidbGetClient]
  repeat' split
  all_goals simp [callsAt_append, callsAt_call, callsAt_logf, callsAt_nil]

theorem tidbGetClient_exited {σ : Type} (W : TiDBWorld σ) (c : TiDBConfig) (s : σ) :
    (tidbGetClient W c s).2.1 = .exited ↔ (tidbGetTLSConfig W c s).2.1 = .exited := by
  simp only [tidbGetClient]
  repeat' split
  all_goals simp_all

theorem tidbGetClient_fatal {σ : Type} (W : TiDBWorld σ) (c : TiDBConfig) (s : σ)
    (h : (callsAt .tlsLoad (tidbGetClient W c s).2.2).any tlsLoadFailed = true) :
    (tidbGetClient W c s).2.1 = .exited := by
  rw [tidbGetClient_exited]
  rw [tidbGetClient_tlsCalls] at h
  exact tidbGetTLSConfig_fatal W c s h

theorem tidbGetClient_noConnect {σ : Type} (W : TiDBWorld σ) (c : TiDBConfig) (s : σ)
    (h : (tidbGetClient W c s).2.1 = .exited) :
    callsAt .connect (tidbGetClient W c s).2.2 = [] := by
  have hg : callsWithin [.tlsLoad] (tidbGetTLSConfig W c s).2.2 :=
    tidbGetTLSConfig_sites W c s (by decide)
  revert h
  simp only [tidbGetClient]
  repeat' split
  all_goals simp_all [callsAt_append, callsAt_call, callsAt_logf, callsAt_nil,
    callsAt_eq_nil hg (x := .connect) (by decide)]

theorem tidbBody_sites {σ : Type} (now : σ → GoString) (db : SqlDB σ) (pfx d tb : GoString)
    (i : Nat) (s : σ) :
    callsWithin (.namespaceSetup :: dataSites) (tidbBody now db pfx d tb i s).2 := by
  have h := callsWithin_widen Site.namespaceSetup (tidbSteps_sites now db pfx d tb i
    (db.ExecContext (Stmt.createTable d tb) s).1)
  simp only [tidbBody]
  repeat' split
  all_goals simp [callsWithin_cons, callsWithin_append, Ev.site?, callsWithin_nil, h]

theorem tidbInstance_fatal {σ : Type} (W : TiDBWorld σ) (i : Nat) (c : TiDBConfig)
    (s : σ)
    (h : (callsAt .tlsLoad (tidbInstance W i c s).2.1).any tlsLoadFailed = true) :
    (tidbInstance W i c s).2.2.2 = true := by
  have hf := tidbGetClient_fatal W c s
  revert h
  simp only [tidbInstance]
  split
  · intro _
    rfl
  · rename_i err hg
    intro h
    rw [hg] at hf
    simp only [callsAt_printf, callsAt_append, callsAt_logf, callsAt_nil, List.append_nil] at h
    exact absurd (hf h) (by simp)
  · rename_i db hg
    intro h
    rw [hg] at hf
    simp only [callsAt_printf, callsAt_append,
      callsAt_eq_nil (tidbBody_sites _ _ _ _ _ _ _) (x := .tlsLoad) (by decide),
      List.append_nil] at h
    exact absurd (hf h) (by simp)

theorem tidbInstance_noConnect {σ : Type} (W : TiDBWorld σ) (i : Nat) (c : TiDBConfig)
    (s : σ) (h : (tidbInstance W i c s).2.2.2 = true) :
    callsAt .connect (tidbInstance W i c s).2.1 = [] := by
  have hn := tidbGetClient_noConnect W c s
  revert h
  simp only [tidbInstance]
  split
  · rename_i hg
    intro _
    simp only [callsAt_printf]
    exact hn hg
  · simp
  · simp

theorem tidbLoop_fatal {σ : Type} (W : TiDBWorld σ) :
    ∀ (cfgs : List TiDBConfig) (i0 : Nat) (s : σ) (j : Nat) (c : TiDBConfig),
      cfgs[j]? = some c →
      (tlsFailedAt (i0 + j) (tidbLoop W i0 cfgs s).2.1 = true) →
      (tidbLoop W i0 cfgs s).2.2.2 = true
        ∧ callsAt .connect (eventsOf (i0 + j) (tidbLoop W i0 cfgs s).2.1) = []
        ∧ ∀ k, i0 + j < k → eventsOf k (tidbLoop W i0 cfgs s).2.1 = []
  | [], _, _, _, _ => by simp
  | c0 :: rest, i0, s, j, c => by
    have ih := tidbLoop_fatal W rest (i0 + 1)
    intro hj
    simp only [tidbLoop, tlsFailedAt]
    split
    · rename_i hex
      intro _
      refine ⟨rfl, ?_, fun k hk => eventsOf_tag_ne (by omega) _⟩
      cases j with
      | zero =>
        simp only [List.getElem?_cons_zero, Option.some.injEq] at hj
        subst hj
        rw [Nat.add_zero, eventsOf_tag_self]
        exact tidbInstance_noConnect W i0 c0 s hex
      | succ j => rw [eventsOf_tag_ne (by omega)]; rfl
    · rename_i hex
      cases j with
      | zero =>
        simp only [List.getElem?_cons_zero, Option.some.injEq] at hj
        subst hj
        have hnil : eventsOf i0 (tidbLoop W (i0 + 1) rest (tidbInstance W i0 c0 s).1).2.1 = [] := by
          apply eventsOf_eq_nil
          intro e he
          have := tidbLoop_tags W rest (i0 + 1) _ e he
          omega
        rw [Nat.add_zero, eventsOf_append, eventsOf_tag_self, hnil, List.append_nil]
        intro h
        exact absurd (tidbInstance_fatal W i0 c0 s h) hex
      | succ j =>
        simp only [List.getElem?_cons_succ] at hj
        have hidx : i0 + (j + 1) = i0 + 1 + j := by omega
        rw [hidx, eventsOf_append, eventsOf_tag_ne (by omega), List.nil_append]
        intro h
        obtain ⟨h1, h2, h3⟩ := ih _ j c hj h
        refine ⟨h1, h2, fun k hk => ?_⟩
        rw [eventsOf_append, eventsOf_tag_ne (by omega), List.nil_append]
        exact h3 k hk

theorem tidb_tls_fatal {σ : Type} (W : TiDBWorld σ) (cfgs : List TiDBConfig) (s : σ)
    (i : Nat) (c : TiDBConfig) (hi : cfgs[i]? = some c)
    (h : tlsFailedAt i (TestTiDB W cfgs s).2.1 = true) :
    (TestTiDB W cfgs s).2.2 = true
      ∧ callsAt .connect (eventsOf i (TestTiDB W cfgs s).2.1) = []
      ∧ ∀ k, i < k → eventsOf k (TestTiDB W cfgs s).2.1 = [] := by
  have hl := tidbLoop_fatal W cfgs 0 s i c hi
  rw [Nat.zero_add] at hl
  revert h
  simp only [TestTiDB]
  split
  · intro h
    exact ⟨rfl, (hl h).2⟩
  · rename_i hex
    intro h
    have hd := sqlRunDeferred_sites i (tidbLoop W 0 cfgs s).2.2.1.reverse (tidbLoop W 0 cfgs s).1
    simp only [tlsFailedAt, eventsOf_append, callsAt_append,
      callsAt_eq_nil hd (x := .tlsLoad) (by decide), List.append_nil] at h
    exact absurd (hl h).1 hex
/-! ## Claim C11: a failure while loading TLS material -/

/-- C11 (counterexample): two ClickHouse instances and two TiDB instances on the
reference store, where no file can be read; the first instance of each requests TLS
and names three files.  Reading the first file fails, the process exits in
`log.Fatalf`, and the second instance, which requests no TLS, is never run: the
trace holds no event of it. -/
theorem C11_tls_failure_not_confined :
    tlsFailedAt 0 (TestClickHouse storeCH [chTLS "a", chPlain "b"] []).2.1 = true
    ∧ (TestClickHouse storeCH [chTLS "a", chPlain "b"] []).2.2 = true
    ∧ eventsOf 1 (TestClickHouse storeCH [chTLS "a", chPlain "b"] []).2.1 = []
    ∧ instanceRun 1 (chHeader 1 (chPlain "b"))
        (TestClickHouse storeCH [chTLS "a", chPlain "b"] []).2.1 = false
    ∧ tlsFailedAt 0 (TestTiDB storeTiDB [tidbTLS "a", tidbPlain "b"] []).2.1 = true
    ∧ (TestTiDB storeTiDB [tidbTLS "a", tidbPlain "b"] []).2.2 = true
    ∧ eventsOf 1 (TestTiDB storeTiDB [tidbTLS "a", tidbPlain "b"] []).2.1 = []
    ∧ instanceRun 1 (tidbHeader 1 (tidbPlain "b"))
        (TestTiDB storeTiDB [tidbTLS "a", tidbPlain "b"] []).2.1 = false := by
  decide

/-- C11 (amended): for the ClickHouse and TiDB functions, every list of
configurations and whatever the backends return: if reading a certificate, key or CA
file of instance `i` fails or its certificate and key do not parse (for ClickHouse
also: if instance `i` requests TLS and leaves one of the three paths empty), then
the process exits in `log.Fatalf`, no connection is opened for instance `i`, and no
later instance of the list is run. -/
theorem C11_tls_failure_exits {σ : Type} (Wc : ClickHouseWorld σ) (Wt : TiDBWorld σ)
    (chs : List ClickHouseConfig) (tidbs : List TiDBConfig) (s : σ) (i : Nat) :
    (∀ c, chs[i]? = some c →
      (pathMissing c = true ∨ tlsFailedAt i (TestClickHouse Wc chs s).2.1 = true) →
      (TestClickHouse Wc chs s).2.2 = true
        ∧ callsAt .connect (eventsOf i (TestClickHouse Wc chs s).2.1) = []
        ∧ ∀ k, i < k → eventsOf k (TestClickHouse Wc chs s).2.1 = [])
    ∧ (∀ c, tidbs[i]? = some c →
      tlsFailedAt i (TestTiDB Wt tidbs s).2.1 = true →
      (TestTiDB Wt tidbs s).2.2 = true
        ∧ callsAt .connect (eventsOf i (TestTiDB Wt tidbs s).2.1) = []
        ∧ ∀ k, i < k → eventsOf k (TestTiDB Wt tidbs s).2.1 = []) :=
  ⟨fun c hc h => ch_tls_fatal Wc chs s i c hc h,
    fun c hc h => tidb_tls_fatal Wt tidbs s i c hc h⟩

/-- C11 (amended) at three instances of each family, the second of which requests
TLS: for ClickHouse with empty paths, for TiDB with files that cannot be read. -/
theorem C11_tls_failure_exits_witness :
    (pathMissing (chTLSNoFiles "b") = true
      ∧ (TestClickHouse storeCH [chPlain "a", chTLSNoFiles "b", chPlain "c"] []).2.2 = true
      ∧ callsAt .connect
          (eventsOf 1 (TestClickHouse storeCH [chPlain "a", chTLSNoFiles "b", chPlain "c"] []).2.1)
          = []
      ∧ eventsOf 2 (TestClickHouse storeCH [chPlain "a", chTLSNoFiles "b", chPlain "c"] []).2.1
          = [])
    ∧ (tlsFailedAt 1 (TestTiDB storeTiDB [tidbPlain "a", tidbTLS "b", tidbPlain "c"] []).2.1 = true
      ∧ (TestTiDB storeTiDB [tidbPlain "a", tidbTLS "b", tidbPlain "c"] []).2.2 = true
      ∧ callsAt .connect
          (eventsOf 1 (TestTiDB storeTiDB [tidbPlain "a", tidbTLS "b", tidbPlain "c"] []).2.1) = []
      ∧ eventsOf 2 (TestTiDB storeTiDB [tidbPlain "a", tidbTLS "b", tidbPlain "c"] []).2.1 = []) :=
  have h := C11_tls_failure_exits storeCH storeTiDB
    [chPlain "a", chTLSNoFiles "b", chPlain "c"] [tidbPlain "a", tidbTLS "b", tidbPlain "c"] [] 1
  have hc : pathMissing (chTLSNoFiles "b") = true := by decide
  have ht : tlsFailedAt 1
      (TestTiDB storeTiDB [tidbPlain "a", tidbTLS "b", tidbPlain "c"] []).2.1 = true := by decide
  have rc := h.1 (chTLSNoFiles "b") rfl (Or.inl hc)
  have rt := h.2 (tidbTLS "b") rfl ht
  ⟨⟨hc, rc.1, rc.2.1, rc.2.2 2 (by decide)⟩, ⟨ht, rt.1, rt.2.1, rt.2.2 2 (by decide)⟩⟩

/-! ## Lemmas on a failed connection -/

theorem connFailedIn_nil : connFailedIn [] = false := rfl

end DataTest
